import Mathlib

/-!
M2354 System Manager (SYS) driver: `StdDriver/src/sys.c`

A shallow embedding of the driver functions of `sys.c` and theorems about them.

* A `uint32_t` is a natural number below `2^32`; every arithmetic result is reduced
  modulo `2^32` where the C code can leave that range. An `int32_t` is an integer.
* The memory-mapped register block is a `Device`: a state together with a volatile
  32-bit load (which returns the value read and the next state of the hardware) and a
  32-bit store, both at a byte address. `ram` is the device that behaves as plain
  read/write memory.
* A driver function runs on a `Run`: the state of the device and the chronological
  log of the loads and stores performed so far.
* The constants, register addresses and macros of the device header `NuMicro.h`
  are not part of the sources; they are the fields of `NuMicro`, and the theorems
  hold for every such table.
-/

namespace SysDrv

/-! ## Machine words -/

/-- The C operator `~` on a `uint32_t`. -/
def not32 (x : Nat) : Nat := 4294967295 - x % 4294967296

/-- The C operator `<<` on a `uint32_t`, for a shift count below 32 (C leaves larger
counts undefined). -/
def shl32 (x n : Nat) : Nat := (x <<< n) % 4294967296

/-- Conversion of an `int32_t` to `uint32_t`. -/
def castU32 (i : Int) : Nat := (i % 4294967296).toNat

/-- Conversion of a `uint32_t` to `int32_t`. -/
def castI32 (x : Nat) : Int :=
  if x % 4294967296 < 2147483648 then ((x % 4294967296 : Nat) : Int)
  else ((x % 4294967296 : Nat) : Int) - 4294967296

/-! ## Devices, runs and the access log -/

/-- One access to the register block. -/
inductive Access where
  | load (addr val : Nat)
  | store (addr val : Nat)
deriving DecidableEq, Repr

/-- Whether an access is a store. -/
def Access.isStore : Access → Bool
  | .load _ _ => false
  | .store _ _ => true

/-- Memory-mapped hardware: a volatile load answers with a value and moves the
hardware to its next state, a store moves it to its next state. -/
structure Device (σ : Type) where
  load : Nat → σ → Nat × σ
  store : Nat → Nat → σ → σ

/-- The state of a run of the driver: the hardware and the accesses made so far,
oldest first. -/
structure Run (σ : Type) where
  dev : σ
  log : List Access

/-- A run that starts on hardware state `s` with an empty log. -/
def Run.start {σ : Type} (s : σ) : Run σ := ⟨s, []⟩

/-- The stores of a run, oldest first. -/
def Run.stores {σ : Type} (r : Run σ) : List Access := r.log.filter Access.isStore

/-- Every access in `l` is a load at byte address `addr`. -/
def LoadsAt (addr : Nat) (l : List Access) : Prop := ∀ e ∈ l, ∃ v, e = Access.load addr v

/-- A volatile `uint32_t` read at byte address `addr`. -/
def rd {σ : Type} (d : Device σ) (addr : Nat) (r : Run σ) : Nat × Run σ :=
  ((d.load addr r.dev).1 % 4294967296,
   ⟨(d.load addr r.dev).2, r.log ++ [Access.load addr ((d.load addr r.dev).1 % 4294967296)]⟩)

/-- A volatile `uint32_t` write of `val` at byte address `addr`. -/
def wr {σ : Type} (d : Device σ) (addr val : Nat) (r : Run σ) : Run σ :=
  ⟨d.store addr (val % 4294967296) r.dev, r.log ++ [Access.store addr (val % 4294967296)]⟩

/-! ## Plain read/write memory -/

/-- Byte-addressed memory. -/
abbrev Mem := Nat → Nat

/-- The little-endian 32-bit word at byte address `a`. -/
def Mem.loadWord (m : Mem) (a : Nat) : Nat :=
  m a % 256 + 256 * (m (a + 1) % 256) + 65536 * (m (a + 2) % 256)
    + 16777216 * (m (a + 3) % 256)

/-- Memory after a little-endian 32-bit store of `v` at byte address `a`. -/
def Mem.storeWord (m : Mem) (a v : Nat) : Mem := fun x =>
  if x = a then v % 256
  else if x = a + 1 then v / 256 % 256
  else if x = a + 2 then v / 65536 % 256
  else if x = a + 3 then v / 16777216 % 256
  else m x

/-- The register block as plain read/write memory: a load returns what was stored
last and changes nothing. -/
def ram : Device Mem where
  load := fun a m => (m.loadWord a, m)
  store := fun a v m => m.storeWord a v

/-- Memory that holds the word `v` at byte address `a` and zero elsewhere. -/
def Mem.single (a v : Nat) : Mem := Mem.storeWord (fun _ => 0) a v

/-! ## The device header -/

/-- The constants that `sys.c` takes from the device header `NuMicro.h`: the byte
addresses of the registers of the `SYS` block, the bit-field masks and values, the
retry budget and the result codes. -/
structure NuMicro where
  RSTSTS : Nat
  IPRST0 : Nat
  BODCTL : Nat
  PLCTL : Nat
  PLSTS : Nat
  SRAMPC0 : Nat
  SRAMPC1 : Nat
  REGLCTL : Nat
  SYS_BODCTL_WRBUSY_Msk : Nat
  SYS_BODCTL_BODRSTEN_Msk : Nat
  SYS_BODCTL_BODVL_Msk : Nat
  SYS_BODCTL_BODEN_Msk : Nat
  SYS_PLCTL_WRBUSY_Msk : Nat
  SYS_PLCTL_PLSEL_Msk : Nat
  SYS_PLCTL_MVRS_Msk : Nat
  SYS_PLCTL_MVRS_LDO : Nat
  SYS_PLCTL_MVRS_DCDC : Nat
  SYS_PLSTS_PLCBUSY_Msk : Nat
  SYS_PLSTS_MVRCBUSY_Msk : Nat
  SYS_PLSTS_MVRCERR_Msk : Nat
  SYS_PLSTS_CURMVR_Msk : Nat
  SYS_PLSTS_CURMVR_LDO : Nat
  SYS_PLSTS_CURMVR_DCDC : Nat
  SYS_SRAMPC0_PCBUSY_Msk : Nat
  SYS_SRAMPC1_PCBUSY_Msk : Nat
  SYS_TIMEOUT : Nat
  SYS_OK : Int
  SYS_ERR_TIMEOUT : Int

/-- A sample constants table, with a retry budget of three polls, used to evaluate
the driver on concrete inputs; no theorem about the driver depends on its values. -/
def sampleHeader : NuMicro where
  RSTSTS := 0x40000004
  IPRST0 := 0x40000008
  BODCTL := 0x40000018
  PLCTL := 0x400001F8
  PLSTS := 0x400001FC
  SRAMPC0 := 0x400000DC
  SRAMPC1 := 0x400000E0
  REGLCTL := 0x40000100
  SYS_BODCTL_WRBUSY_Msk := 0x80000000
  SYS_BODCTL_BODRSTEN_Msk := 0x8
  SYS_BODCTL_BODVL_Msk := 0x70000
  SYS_BODCTL_BODEN_Msk := 0x1
  SYS_PLCTL_WRBUSY_Msk := 0x80
  SYS_PLCTL_PLSEL_Msk := 0x3
  SYS_PLCTL_MVRS_Msk := 0x10
  SYS_PLCTL_MVRS_LDO := 0x0
  SYS_PLCTL_MVRS_DCDC := 0x10
  SYS_PLSTS_PLCBUSY_Msk := 0x1
  SYS_PLSTS_MVRCBUSY_Msk := 0x2
  SYS_PLSTS_MVRCERR_Msk := 0x4
  SYS_PLSTS_CURMVR_Msk := 0x1000
  SYS_PLSTS_CURMVR_LDO := 0x0
  SYS_PLSTS_CURMVR_DCDC := 0x1000
  SYS_SRAMPC0_PCBUSY_Msk := 0x80000000
  SYS_SRAMPC1_PCBUSY_Msk := 0x80000000
  SYS_TIMEOUT := 3
  SYS_OK := 0
  SYS_ERR_TIMEOUT := -2

/-- The bit fields of the brown-out control word that `SYS_EnableBOD` writes are
32-bit masks that do not overlap. -/
def NuMicro.bodFields (h : NuMicro) : Prop :=
  h.SYS_BODCTL_BODRSTEN_Msk < 4294967296 ∧ h.SYS_BODCTL_BODVL_Msk < 4294967296
    ∧ h.SYS_BODCTL_BODEN_Msk < 4294967296
    ∧ h.SYS_BODCTL_BODRSTEN_Msk &&& h.SYS_BODCTL_BODVL_Msk = 0
    ∧ h.SYS_BODCTL_BODRSTEN_Msk &&& h.SYS_BODCTL_BODEN_Msk = 0
    ∧ h.SYS_BODCTL_BODVL_Msk &&& h.SYS_BODCTL_BODEN_Msk = 0

/-! ## `SYS_ResetModule` -/

/-- `void SYS_ResetModule(uint32_t u32ModuleIndex)`: the two read-modify-write
statements `*(volatile uint32_t *)u32TmpAddr |= u32TmpVal` and
`*(volatile uint32_t *)u32TmpAddr &= u32TmpVal`. The embedding is that of the C code
for a bit number `u32ModuleIndex & 0x00ffffff` below 32; for a larger bit number C
leaves `1UL << n` undefined, and the theorems about this function are stated for bit
numbers below 32 only. -/
def SYS_ResetModule {σ : Type} (h : NuMicro) (d : Device σ) (u32ModuleIndex : Nat)
    (r : Run σ) : Run σ :=
  let u32TmpVal := shl32 1 (u32ModuleIndex &&& 0x00ffffff)
  let u32TmpAddr := (h.IPRST0 + (u32ModuleIndex >>> 24)) % 4294967296
  let r1 := wr d u32TmpAddr ((rd d u32TmpAddr r).1 ||| u32TmpVal) (rd d u32TmpAddr r).2
  let u32TmpVal := not32 (shl32 1 (u32ModuleIndex &&& 0x00ffffff))
  wr d u32TmpAddr ((rd d u32TmpAddr r1).1 &&& u32TmpVal) (rd d u32TmpAddr r1).2

/-! ## Bounded busy-wait loops -/

/-- The number of busy reads after which a `uint32_t` countdown started at `cnt`
gives up, which is also the fuel its loop needs: the pre-decremented counter reaches
zero after `cnt` steps, or after `2^32` steps when it starts at zero and wraps
around. -/
def pollsU32 (cnt : Nat) : Nat :=
  if cnt % 4294967296 = 0 then 4294967296 else cnt % 4294967296

/-- The loop `while(REG & MSK) { if(--u32TimeOutCnt == 0) return -1; }` on the
register at `addr`, with `u32TimeOutCnt = cnt`. The result is `some (true, r)` when
the loop is left because the condition read false, `some (false, r)` when its body
returns, and `none` when the fuel is used up. -/
def pollU32 {σ : Type} (d : Device σ) (addr msk : Nat) :
    Nat → Nat → Run σ → Option (Bool × Run σ)
  | 0, _, _ => none
  | fuel + 1, cnt, r =>
    if (rd d addr r).1 &&& msk ≠ 0 then
      if (cnt + 4294967295) % 4294967296 = 0 then some (false, (rd d addr r).2)
      else pollU32 d addr msk fuel ((cnt + 4294967295) % 4294967296) (rd d addr r).2
    else some (true, (rd d addr r).2)

/-- The number of busy reads after which an `int32_t` countdown started at `cnt`
gives up, which is also the fuel its loop needs: the post-decremented counter is
found non-positive on read `cnt + 1`, or on the first read when it starts
non-positive. -/
def pollsI32 (cnt : Int) : Nat := cnt.toNat + 1

/-- The loop `while(REG & MSK) { if(i32TimeOutCnt-- <= 0) return SYS_ERR_TIMEOUT; }`
on the register at `addr`, with `i32TimeOutCnt = cnt`; results as for `pollU32`.
The decremented counter is not used after the body returns. -/
def pollI32 {σ : Type} (d : Device σ) (addr msk : Nat) :
    Nat → Int → Run σ → Option (Bool × Run σ)
  | 0, _, _ => none
  | fuel + 1, cnt, r =>
    if (rd d addr r).1 &&& msk ≠ 0 then
      if cnt ≤ 0 then some (false, (rd d addr r).2)
      else pollI32 d addr msk fuel (cnt - 1) (rd d addr r).2
    else some (true, (rd d addr r).2)

/-- Whether each of the next `n` consecutive reads at `addr` has a bit of `msk`
set. -/
def busyFor {σ : Type} (d : Device σ) (addr msk : Nat) : Nat → Run σ → Bool
  | 0, _ => true
  | n + 1, r => ((rd d addr r).1 &&& msk != 0) && busyFor d addr msk n (rd d addr r).2

/-- The run at the end of a wait of at most `n` polls at `addr`: after the first
read that has no bit of `msk` set, or after `n` reads when all of them are busy. -/
def pollEnd {σ : Type} (d : Device σ) (addr msk : Nat) : Nat → Run σ → Run σ
  | 0, r => r
  | n + 1, r =>
    if (rd d addr r).1 &&& msk ≠ 0 then pollEnd d addr msk n (rd d addr r).2
    else (rd d addr r).2

/-! ## Brown-out detector -/

/-- Modelled from the spec: the macro `SYS_WAIT_BODCTL_WRBUSY()` of the device header,
which is not in the sources. It waits, bounded by the retry budget, for the busy bit
of the brown-out control word to clear, and carries on in either case. -/
def SYS_WAIT_BODCTL_WRBUSY {σ : Type} (h : NuMicro) (d : Device σ) (r : Run σ) :
    Option (Run σ) :=
  (pollU32 d h.BODCTL h.SYS_BODCTL_WRBUSY_Msk (pollsU32 h.SYS_TIMEOUT)
    (h.SYS_TIMEOUT % 4294967296) r).map Prod.snd

/-- `int32_t SYS_EnableBOD(int32_t i32Mode, uint32_t u32BODLevel)`. -/
def SYS_EnableBOD {σ : Type} (h : NuMicro) (d : Device σ) (i32Mode : Int)
    (u32BODLevel : Nat) (r : Run σ) : Option (Int × Run σ) :=
  match SYS_WAIT_BODCTL_WRBUSY h d r with
  | none => none
  | some r1 =>
    if (rd d h.BODCTL r1).1 &&& h.SYS_BODCTL_WRBUSY_Msk = 0 then
      some (h.SYS_OK,
        wr d h.BODCTL
          ((((rd d h.BODCTL (rd d h.BODCTL r1).2).1
              &&& not32 (h.SYS_BODCTL_BODRSTEN_Msk ||| h.SYS_BODCTL_BODVL_Msk))
            ||| castU32 i32Mode) ||| u32BODLevel ||| h.SYS_BODCTL_BODEN_Msk)
          (rd d h.BODCTL (rd d h.BODCTL r1).2).2)
    else some (h.SYS_ERR_TIMEOUT, (rd d h.BODCTL r1).2)

/-- `int32_t SYS_DisableBOD(void)`. -/
def SYS_DisableBOD {σ : Type} (h : NuMicro) (d : Device σ) (r : Run σ) :
    Option (Int × Run σ) :=
  match SYS_WAIT_BODCTL_WRBUSY h d r with
  | none => none
  | some r1 =>
    if (rd d h.BODCTL r1).1 &&& h.SYS_BODCTL_WRBUSY_Msk = 0 then
      some (h.SYS_OK,
        wr d h.BODCTL
          ((rd d h.BODCTL (rd d h.BODCTL r1).2).1 &&& not32 h.SYS_BODCTL_BODEN_Msk)
          (rd d h.BODCTL (rd d h.BODCTL r1).2).2)
    else some (h.SYS_ERR_TIMEOUT, (rd d h.BODCTL r1).2)

/-! ## Power level -/

/-- `int32_t SYS_SetPowerLevel(uint32_t u32PowerLevel)`. -/
def SYS_SetPowerLevel {σ : Type} (h : NuMicro) (d : Device σ) (u32PowerLevel : Nat)
    (r : Run σ) : Option (Int × Run σ) :=
  match pollU32 d h.PLCTL h.SYS_PLCTL_WRBUSY_Msk (pollsU32 h.SYS_TIMEOUT)
      (h.SYS_TIMEOUT % 4294967296) r with
  | none => none
  | some (false, r1) => some (-1, r1)
  | some (true, r1) =>
    match pollU32 d h.PLSTS h.SYS_PLSTS_PLCBUSY_Msk (pollsU32 h.SYS_TIMEOUT)
        (h.SYS_TIMEOUT % 4294967296)
        (wr d h.PLCTL
          (((rd d h.PLCTL r1).1 &&& not32 h.SYS_PLCTL_PLSEL_Msk) ||| u32PowerLevel)
          (rd d h.PLCTL r1).2) with
    | none => none
    | some (false, r2) => some (-1, r2)
    | some (true, r2) => some (0, r2)

/-! ## Main voltage regulator -/

/-- The last statements of `SYS_SetPowerRegulator`: the check of the error flag
`SYS_PLSTS_MVRCERR_Msk` and `return u32Ret`. -/
def regulatorErrorCheck {σ : Type} (h : NuMicro) (d : Device σ) (u32Ret : Nat)
    (r : Run σ) : Int × Run σ :=
  if (rd d h.PLSTS r).1 &&& h.SYS_PLSTS_MVRCERR_Msk ≠ 0 then
    (castI32 0, wr d h.PLSTS h.SYS_PLSTS_MVRCERR_Msk (rd d h.PLSTS r).2)
  else (castI32 u32Ret, (rd d h.PLSTS r).2)

/-- One branch of `SYS_SetPowerRegulator`: wait for write-busy, store `newCtl`
applied to the control word, wait for change-busy, and compare the current regulator
with `want`. The result is `some (Sum.inl r)` when a wait returns `SYS_ERR_TIMEOUT`
and `some (Sum.inr (u32Ret, r))` when the branch is left normally. -/
def regulatorBranch {σ : Type} (h : NuMicro) (d : Device σ) (newCtl : Nat → Nat)
    (want : Nat) (r : Run σ) : Option (Run σ ⊕ (Nat × Run σ)) :=
  match pollI32 d h.PLCTL h.SYS_PLCTL_WRBUSY_Msk (pollsI32 (castI32 h.SYS_TIMEOUT))
      (castI32 h.SYS_TIMEOUT) r with
  | none => none
  | some (false, r1) => some (Sum.inl r1)
  | some (true, r1) =>
    match pollI32 d h.PLSTS h.SYS_PLSTS_MVRCBUSY_Msk (pollsI32 (castI32 h.SYS_TIMEOUT))
        (castI32 h.SYS_TIMEOUT)
        (wr d h.PLCTL (newCtl (rd d h.PLCTL r1).1) (rd d h.PLCTL r1).2) with
    | none => none
    | some (false, r2) => some (Sum.inl r2)
    | some (true, r2) =>
      if (rd d h.PLSTS r2).1 &&& h.SYS_PLSTS_CURMVR_Msk ≠ want then
        some (Sum.inr (0, (rd d h.PLSTS r2).2))
      else some (Sum.inr (1, (rd d h.PLSTS r2).2))

/-- The statements of `SYS_SetPowerRegulator` before the check of the error flag:
the read of the current regulator status and the `if` / `else if` on the requested
type. The DCDC branch executes `SYS->PLCTL |= SYS_PLCTL_MVRS_Msk`, the LDO branch
`SYS->PLCTL &= (~SYS_PLCTL_MVRS_Msk)`; `u32Ret` starts at 1. Results as for
`regulatorBranch`. -/
def regulatorAttempt {σ : Type} (h : NuMicro) (d : Device σ)
    (u32PowerRegulator : Nat) (r : Run σ) : Option (Run σ ⊕ (Nat × Run σ)) :=
  if u32PowerRegulator = h.SYS_PLCTL_MVRS_DCDC
      ∧ (rd d h.PLSTS r).1 &&& h.SYS_PLSTS_CURMVR_Msk = h.SYS_PLSTS_CURMVR_LDO then
    regulatorBranch h d (fun v => v ||| h.SYS_PLCTL_MVRS_Msk)
      h.SYS_PLSTS_CURMVR_DCDC (rd d h.PLSTS r).2
  else if u32PowerRegulator = h.SYS_PLCTL_MVRS_LDO then
    regulatorBranch h d (fun v => v &&& not32 h.SYS_PLCTL_MVRS_Msk)
      h.SYS_PLSTS_CURMVR_LDO (rd d h.PLSTS r).2
  else some (Sum.inr (1, (rd d h.PLSTS r).2))

/-- `int32_t SYS_SetPowerRegulator(uint32_t u32PowerRegulator)`. -/
def SYS_SetPowerRegulator {σ : Type} (h : NuMicro) (d : Device σ)
    (u32PowerRegulator : Nat) (r : Run σ) : Option (Int × Run σ) :=
  match regulatorAttempt h d u32PowerRegulator r with
  | none => none
  | some (Sum.inl r1) => some (h.SYS_ERR_TIMEOUT, r1)
  | some (Sum.inr (u32Ret, r1)) => some (regulatorErrorCheck h d u32Ret r1)

/-- The run at the end of the write-busy wait of a branch of
`SYS_SetPowerRegulator` entered in run `r`. -/
def afterWriteBusyWait {σ : Type} (h : NuMicro) (d : Device σ) (r : Run σ) : Run σ :=
  pollEnd d h.PLCTL h.SYS_PLCTL_WRBUSY_Msk (pollsI32 (castI32 h.SYS_TIMEOUT)) r

/-- The run after the store to the power-level control word that follows the
write-busy wait. -/
def afterCtlStore {σ : Type} (h : NuMicro) (d : Device σ) (newCtl : Nat → Nat)
    (r : Run σ) : Run σ :=
  wr d h.PLCTL (newCtl (rd d h.PLCTL (afterWriteBusyWait h d r)).1)
    (rd d h.PLCTL (afterWriteBusyWait h d r)).2

/-- The run at the end of the change-busy wait that follows the store. -/
def afterChangeBusyWait {σ : Type} (h : NuMicro) (d : Device σ) (newCtl : Nat → Nat)
    (r : Run σ) : Run σ :=
  pollEnd d h.PLSTS h.SYS_PLSTS_MVRCBUSY_Msk (pollsI32 (castI32 h.SYS_TIMEOUT))
    (afterCtlStore h d newCtl r)

/-- The result codes for a timeout differ from the results 0 and 1 of
`SYS_SetPowerRegulator`. -/
def NuMicro.timeoutDistinct (h : NuMicro) : Prop :=
  h.SYS_ERR_TIMEOUT ≠ 0 ∧ h.SYS_ERR_TIMEOUT ≠ 1

/-- The two regulator types have different codes, as requests and as status. -/
def NuMicro.regulatorTypesDistinct (h : NuMicro) : Prop :=
  h.SYS_PLCTL_MVRS_DCDC ≠ h.SYS_PLCTL_MVRS_LDO ∧ h.SYS_PLSTS_CURMVR_DCDC ≠ h.SYS_PLSTS_CURMVR_LDO

/-! ## Reset source and register lock -/

/-- `void SYS_ClearResetSrc(uint32_t u32Src)`. -/
def SYS_ClearResetSrc {σ : Type} (h : NuMicro) (d : Device σ) (u32Src : Nat)
    (r : Run σ) : Run σ :=
  wr d h.RSTSTS u32Src r

/-- `uint32_t SYS_IsRegLocked(void)`. -/
def SYS_IsRegLocked {σ : Type} (h : NuMicro) (d : Device σ) (r : Run σ) : Nat × Run σ :=
  (if (rd d h.REGLCTL r).1 &&& 1 ≠ 0 then 0 else 1, (rd d h.REGLCTL r).2)

/-! ## SRAM power mode -/

/-- The loop `while(u32SRAMSelPos < 30UL)` of the two SRAM functions, which leaves on
`break` when `u32SRAMSel & (1 << u32SRAMSelPos)` is non-zero and increments
`u32SRAMSelPos` otherwise: the value of `u32SRAMSelPos` when the loop is left, or
`none` when the fuel is used up. -/
def scanSelPos (u32SRAMSel : Nat) : Nat → Nat → Option Nat
  | 0, _ => none
  | fuel + 1, u32SRAMSelPos =>
    if u32SRAMSelPos < 30 then
      if u32SRAMSel &&& (1 <<< u32SRAMSelPos) ≠ 0 then some u32SRAMSelPos
      else scanSelPos u32SRAMSel fuel (u32SRAMSelPos + 1)
    else some u32SRAMSelPos

/-- The wait for the busy bit `msk` of the SRAM power-control word at `addr`, followed
by `REG = (REG & (~u32SRAMSel)) | (u32PowerMode << u32SRAMSelPos)`. -/
def sramWrite {σ : Type} (h : NuMicro) (d : Device σ) (addr msk : Nat)
    (u32SRAMSel u32PowerMode u32SRAMSelPos : Nat) (r : Run σ) : Option (Int × Run σ) :=
  match pollU32 d addr msk (pollsU32 h.SYS_TIMEOUT) (h.SYS_TIMEOUT % 4294967296) r with
  | none => none
  | some (false, r1) => some (-1, r1)
  | some (true, r1) =>
    some (0, wr d addr
      (((rd d addr r1).1 &&& not32 u32SRAMSel) ||| shl32 u32PowerMode u32SRAMSelPos)
      (rd d addr r1).2)

/-- Modelled from the spec: the constant `BIT31` of the device header, which is not
in the sources; it is the high bit, bit 31, of a 32-bit word. -/
def BIT31 : Nat := 0x80000000

/-- `int32_t SYS_SetSSRAMPowerMode(uint32_t u32SRAMSel, uint32_t u32PowerMode)`; the
scan starts at position 0. -/
def SYS_SetSSRAMPowerMode {σ : Type} (h : NuMicro) (d : Device σ)
    (u32SRAMSel u32PowerMode : Nat) (r : Run σ) : Option (Int × Run σ) :=
  match scanSelPos u32SRAMSel 31 0 with
  | none => none
  | some u32SRAMSelPos =>
    if u32PowerMode &&& BIT31 ≠ 0 then
      sramWrite h d h.SRAMPC1 h.SYS_SRAMPC1_PCBUSY_Msk u32SRAMSel u32PowerMode
        u32SRAMSelPos r
    else
      sramWrite h d h.SRAMPC0 h.SYS_SRAMPC0_PCBUSY_Msk u32SRAMSel u32PowerMode
        u32SRAMSelPos r

/-- `int32_t SYS_SetPSRAMPowerMode(uint32_t u32SRAMSel, uint32_t u32PowerMode)`; the
scan starts at position 16. -/
def SYS_SetPSRAMPowerMode {σ : Type} (h : NuMicro) (d : Device σ)
    (u32SRAMSel u32PowerMode : Nat) (r : Run σ) : Option (Int × Run σ) :=
  match scanSelPos u32SRAMSel 31 16 with
  | none => none
  | some u32SRAMSelPos =>
    sramWrite h d h.SRAMPC1 h.SYS_SRAMPC1_PCBUSY_Msk u32SRAMSel u32PowerMode
      u32SRAMSelPos r

/-- The SRAM power-control word that `SYS_SetSSRAMPowerMode` is to target for a
power mode, with the mask of its busy bit: the second word when bit 31 of the power
mode is set, the first word otherwise. -/
def ssramTarget (h : NuMicro) (u32PowerMode : Nat) : Nat × Nat :=
  if u32PowerMode.testBit 31 then (h.SRAMPC1, h.SYS_SRAMPC1_PCBUSY_Msk)
  else (h.SRAMPC0, h.SYS_SRAMPC0_PCBUSY_Msk)

/-- The byte address of an access. -/
def Access.addr : Access → Nat
  | .load a _ => a
  | .store a _ => a

/-- Every access in `l` is at byte address `addr`. -/
def AccessesAt (addr : Nat) (l : List Access) : Prop := ∀ e ∈ l, e.addr = addr

/-! ## Inputs for concrete evaluation -/

/-- A simulated regulator on plain memory: a store to the control word at `ctl` also
moves the bits `cur` of the status word at `sts` to follow the bits `sel` of the stored
value, as the hardware does when a change of the regulator type completes. -/
def regulatorStub (ctl sts sel cur : Nat) : Device Mem where
  load := fun a m => (m.loadWord a, m)
  store := fun a v m =>
    if a = ctl then
      (m.storeWord a v).storeWord sts
        (if v &&& sel ≠ 0 then m.loadWord sts ||| cur else m.loadWord sts &&& not32 cur)
    else m.storeWord a v

/-- Plain memory in which the word at `addr` is write-1-to-clear: a store to it
clears the bits that are written as 1 and leaves the others, and every other store
is a plain store. -/
def w1c (addr : Nat) : Device Mem where
  load := fun a m => (m.loadWord a, m)
  store := fun a v m =>
    if a = addr then m.storeWord a (m.loadWord a &&& not32 v) else m.storeWord a v

/-- Hardware whose state is a countdown: a load at `addr` reads all ones while the
countdown is positive, and decrements it, and reads zero afterwards; every other load
reads zero, and stores change nothing. -/
def countdownBusy (addr : Nat) : Device Nat where
  load := fun a n => if a = addr then (if n = 0 then 0 else 4294967295, n - 1) else (0, n)
  store := fun _ _ n => n

instance decBodFields (h : NuMicro) : Decidable h.bodFields := by
  unfold NuMicro.bodFields; infer_instance
instance decTimeoutDistinct (h : NuMicro) : Decidable h.timeoutDistinct := by
  unfold NuMicro.timeoutDistinct; infer_instance
instance decRegulatorTypesDistinct (h : NuMicro) :
    Decidable h.regulatorTypesDistinct := by
  unfold NuMicro.regulatorTypesDistinct; infer_instance

/-! ## Lemmas on words, memory, the access log and the wait loops -/

variable {σ : Type}

theorem Mem.loadWord_lt (m : Mem) (a : Nat) : m.loadWord a < 4294967296 := by
  unfold Mem.loadWord; omega

theorem Mem.loadWord_storeWord (m : Mem) (a v : Nat) :
    (m.storeWord a v).loadWord a = v % 4294967296 := by
  simp [Mem.loadWord, Mem.storeWord]; omega

theorem Mem.loadWord_storeWord_of_disjoint (m : Mem) (a b v : Nat)
    (hab : a + 3 < b ∨ b + 3 < a) : (m.storeWord a v).loadWord b = m.loadWord b := by
  have h0 : b ≠ a := by omega
  have h1 : b ≠ a + 1 := by omega
  have h2 : b ≠ a + 2 := by omega
  have h3 : b ≠ a + 3 := by omega
  have h4 : b + 1 ≠ a := by omega
  have h5 : b + 1 ≠ a + 2 := by omega
  have h6 : b + 1 ≠ a + 3 := by omega
  have h7 : b + 2 ≠ a := by omega
  have h8 : b + 2 ≠ a + 1 := by omega
  have h9 : b + 2 ≠ a + 3 := by omega
  have h10 : b + 3 ≠ a := by omega
  have h11 : b + 3 ≠ a + 1 := by omega
  have h12 : b + 3 ≠ a + 2 := by omega
  simp [Mem.loadWord, Mem.storeWord, *]

theorem testBit_not32 (x i : Nat) :
    (not32 x).testBit i = (decide (i < 32) && !x.testBit i) := by
  have h : not32 x = 2 ^ 32 - (x % 2 ^ 32 + 1) := by unfold not32; omega
  rw [h, Nat.testBit_two_pow_sub_succ (Nat.mod_lt _ (by decide)), Nat.testBit_mod_two_pow]
  by_cases hi : i < 32 <;> simp [hi]

theorem not32_lt (x : Nat) : not32 x < 4294967296 := by unfold not32; omega

theorem shl32_one (b : Nat) (hb : b < 32) : shl32 1 b = 2 ^ b := by
  unfold shl32
  rw [Nat.one_shiftLeft]
  exact Nat.mod_eq_of_lt (Nat.pow_lt_pow_right (by decide) hb)

theorem index_bit (o b : Nat) (hb : b < 32) : (o * 16777216 + b) &&& 0x00ffffff = b := by
  have : (0x00ffffff : Nat) = 2 ^ 24 - 1 := by norm_num
  rw [this, Nat.and_pow_two_sub_one_eq_mod]
  omega

theorem index_offset (o b : Nat) (hb : b < 32) : (o * 16777216 + b) >>> 24 = o := by
  rw [Nat.shiftRight_eq_div_pow]
  omega

theorem pollU32_eq (d : Device σ) (addr msk : Nat) :
    ∀ (n cnt : Nat) (r : Run σ), 1 ≤ n → n ≤ 4294967296 → cnt % 4294967296 = n % 4294967296 →
      pollU32 d addr msk n cnt r = some (!busyFor d addr msk n r, pollEnd d addr msk n r) := by
  intro n
  induction n with
  | zero => intro cnt r h1; omega
  | succ k ih =>
    intro cnt r _ hk hc
    by_cases hb : (rd d addr r).1 &&& msk = 0
    · simp [pollU32, busyFor, pollEnd, hb]
    · by_cases hz : (cnt + 4294967295) % 4294967296 = 0
      · have hk0 : k = 0 := by omega
        subst hk0
        simp [pollU32, busyFor, pollEnd, hb, hz]
      · have hk1 : 1 ≤ k := by omega
        have := ih ((cnt + 4294967295) % 4294967296) (rd d addr r).2 hk1 (by omega) (by omega)
        simp [pollU32, busyFor, pollEnd, hb, hz, this]

theorem pollU32_budget (d : Device σ) (addr msk T : Nat) (r : Run σ) :
    pollU32 d addr msk (pollsU32 T) (T % 4294967296) r
      = some (!busyFor d addr msk (pollsU32 T) r, pollEnd d addr msk (pollsU32 T) r) := by
  apply pollU32_eq
  · unfold pollsU32; split <;> omega
  · unfold pollsU32; split <;> omega
  · unfold pollsU32; split <;> omega

theorem pollI32_eq (d : Device σ) (addr msk : Nat) :
    ∀ (n : Nat) (cnt : Int) (r : Run σ), n = cnt.toNat + 1 →
      pollI32 d addr msk n cnt r = some (!busyFor d addr msk n r, pollEnd d addr msk n r) := by
  intro n
  induction n with
  | zero => intro cnt r h1; omega
  | succ k ih =>
    intro cnt r hk
    by_cases hb : (rd d addr r).1 &&& msk = 0
    · simp [pollI32, busyFor, pollEnd, hb]
    · by_cases hz : cnt ≤ 0
      · have hk0 : k = 0 := by omega
        subst hk0
        simp [pollI32, busyFor, pollEnd, hb, hz]
      · have := ih (cnt - 1) (rd d addr r).2 (by omega)
        simp [pollI32, busyFor, pollEnd, hb, hz, this]

theorem pollI32_budget (d : Device σ) (addr msk : Nat) (c : Int) (r : Run σ) :
    pollI32 d addr msk (pollsI32 c) c r
      = some (!busyFor d addr msk (pollsI32 c) r, pollEnd d addr msk (pollsI32 c) r) :=
  pollI32_eq d addr msk _ c r rfl

theorem rd_log (d : Device σ) (addr : Nat) (r : Run σ) :
    (rd d addr r).2.log = r.log ++ [Access.load addr (rd d addr r).1] := rfl

theorem wr_log (d : Device σ) (addr val : Nat) (r : Run σ) :
    (wr d addr val r).log = r.log ++ [Access.store addr (val % 4294967296)] := rfl

theorem pollEnd_log (d : Device σ) (addr msk : Nat) :
    ∀ (n : Nat) (r : Run σ), ∃ l, (pollEnd d addr msk n r).log = r.log ++ l ∧ LoadsAt addr l := by
  intro n
  induction n with
  | zero => intro r; exact ⟨[], by simp [pollEnd], by simp [LoadsAt]⟩
  | succ k ih =>
    intro r
    by_cases hb : (rd d addr r).1 &&& msk = 0
    · refine ⟨[Access.load addr (rd d addr r).1], ?_, ?_⟩
      · simp only [pollEnd, hb, ne_eq, not_true_eq_false, if_false, rd_log]
      · simp [LoadsAt]
    · obtain ⟨l, hl, hl'⟩ := ih (rd d addr r).2
      refine ⟨Access.load addr (rd d addr r).1 :: l, ?_, ?_⟩
      · simp only [pollEnd, hb, ne_eq, not_false_eq_true, if_true, hl, rd_log,
          List.append_assoc, List.singleton_append]
      · intro e he
        rcases List.mem_cons.1 he with rfl | he
        · exact ⟨_, rfl⟩
        · exact hl' e he

theorem LoadsAt.filter_isStore {addr : Nat} {l : List Access} (hl : LoadsAt addr l) :
    l.filter Access.isStore = [] := by
  rw [List.filter_eq_nil_iff]
  intro e he
  obtain ⟨v, rfl⟩ := hl e he
  simp [Access.isStore]

theorem pollEnd_stores (d : Device σ) (addr msk n : Nat) (r : Run σ) :
    (pollEnd d addr msk n r).stores = r.stores := by
  obtain ⟨l, hl, hl'⟩ := pollEnd_log d addr msk n r
  simp [Run.stores, hl, hl'.filter_isStore]

theorem rd_stores (d : Device σ) (addr : Nat) (r : Run σ) :
    (rd d addr r).2.stores = r.stores := by
  simp [Run.stores, rd_log, Access.isStore]

theorem wr_stores (d : Device σ) (addr val : Nat) (r : Run σ) :
    (wr d addr val r).stores = r.stores ++ [Access.store addr (val % 4294967296)] := by
  simp [Run.stores, wr_log, Access.isStore]

/-- When the next `n` reads are all busy and so are the `k` reads after them. -/
theorem busyFor_add (d : Device σ) (addr msk : Nat) :
    ∀ (n k : Nat) (r : Run σ), busyFor d addr msk n r = true →
      busyFor d addr msk (n + k) r = busyFor d addr msk k (pollEnd d addr msk n r) := by
  intro n
  induction n with
  | zero => intro k r _; simp [pollEnd]
  | succ m ih =>
    intro k r hb
    simp only [busyFor, Bool.and_eq_true, bne_iff_ne, ne_eq] at hb
    have e : m + 1 + k = (m + k) + 1 := by omega
    rw [e]
    simp only [busyFor, pollEnd, hb.1, ne_eq, not_false_eq_true, if_true, ih k _ hb.2]
    simp [hb.1]

theorem rd_ram_val (a : Nat) (r : Run Mem) : (rd ram a r).1 = r.dev.loadWord a := by
  simp [rd, ram, Nat.mod_eq_of_lt (Mem.loadWord_lt _ _)]

theorem rd_ram_dev (a : Nat) (r : Run Mem) : (rd ram a r).2.dev = r.dev := rfl

theorem pollEnd_ram_dev (a msk : Nat) : ∀ (n : Nat) (r : Run Mem),
    (pollEnd ram a msk n r).dev = r.dev := by
  intro n
  induction n with
  | zero => intro r; rfl
  | succ k ih =>
    intro r
    by_cases hb : (rd ram a r).1 &&& msk = 0
    · simp only [pollEnd, hb, ne_eq, not_true_eq_false, if_false, rd_ram_dev]
    · simp only [pollEnd, hb, ne_eq, not_false_eq_true, if_true, ih, rd_ram_dev]

theorem busyFor_ram (a msk : Nat) : ∀ (n : Nat) (r : Run Mem),
    r.dev.loadWord a &&& msk ≠ 0 → busyFor ram a msk n r = true := by
  intro n
  induction n with
  | zero => intro r _; rfl
  | succ k ih =>
    intro r hb
    simp only [busyFor, rd_ram_val, Bool.and_eq_true, bne_iff_ne, ne_eq]
    exact ⟨hb, ih _ (by simpa [rd_ram_dev] using hb)⟩

theorem pollEnd_of_clear (d : Device σ) (addr msk n : Nat) (r : Run σ) (hn : 1 ≤ n)
    (hc : (rd d addr r).1 &&& msk = 0) :
    pollEnd d addr msk n r = (rd d addr r).2 ∧ busyFor d addr msk n r = false := by
  obtain ⟨k, rfl⟩ : ∃ k, n = k + 1 := ⟨n - 1, by omega⟩
  simp [pollEnd, busyFor, hc]

theorem pollsU32_pos (T : Nat) : 1 ≤ pollsU32 T := by
  unfold pollsU32; split <;> omega

theorem busyFor_succ_end (d : Device σ) (addr msk n : Nat) (r : Run σ)
    (hb : ∀ k, busyFor d addr msk k r = true) :
    (rd d addr (pollEnd d addr msk n r)).1 &&& msk ≠ 0 := by
  have h1 := busyFor_add d addr msk n 1 r (hb n)
  rw [hb (n + 1)] at h1
  have h2 := h1.symm
  simp only [busyFor, Bool.and_true, bne_iff_ne, ne_eq] at h2
  exact h2

theorem SYS_WAIT_BODCTL_WRBUSY_eq (h : NuMicro) (d : Device σ) (r : Run σ) :
    SYS_WAIT_BODCTL_WRBUSY h d r
      = some (pollEnd d h.BODCTL h.SYS_BODCTL_WRBUSY_Msk (pollsU32 h.SYS_TIMEOUT) r) := by
  simp [SYS_WAIT_BODCTL_WRBUSY, pollU32_budget]

theorem LoadsAt.append {a : Nat} {l1 l2 : List Access} (h1 : LoadsAt a l1) (h2 : LoadsAt a l2) :
    LoadsAt a (l1 ++ l2) := by
  intro e he
  rcases List.mem_append.1 he with he | he
  · exact h1 e he
  · exact h2 e he

theorem LoadsAt.single (a v : Nat) : LoadsAt a [Access.load a v] := by
  intro e he
  exact ⟨v, by simpa using he⟩

theorem castU32_natCast (x : Nat) : castU32 (x : Int) = x % 4294967296 := by
  unfold castU32
  omega

theorem testBit_of_and_eq_zero {a b : Nat} (h : a &&& b = 0) (i : Nat) :
    a.testBit i = true → b.testBit i = false := by
  intro ha
  have := congrArg (fun x => x.testBit i) h
  simpa [ha] using this

theorem testBit_of_and_eq_self {x M : Nat} (h : x &&& M = x) (i : Nat) :
    M.testBit i = false → x.testBit i = false := by
  intro hM
  have := congrArg (fun y => y.testBit i) h
  simp only [Nat.testBit_and, hM, Bool.and_false] at this
  exact this.symm

theorem le_of_and_eq_self {x M : Nat} (h : x &&& M = x) : x ≤ M := by
  rw [← h]; exact Nat.and_le_right

theorem Run.start_dev (s : σ) : (Run.start s).dev = s := rfl

theorem wr_ram_dev (a v : Nat) (r : Run Mem) :
    (wr ram a v r).dev = r.dev.storeWord a (v % 4294967296) := rfl

/-- The first part of `SYS_EnableBOD` and `SYS_DisableBOD` on plain memory whose
busy bit is clear. -/
theorem ram_wait_clear (h : NuMicro) (m : Mem)
    (hclear : m.loadWord h.BODCTL &&& h.SYS_BODCTL_WRBUSY_Msk = 0) :
    pollEnd ram h.BODCTL h.SYS_BODCTL_WRBUSY_Msk (pollsU32 h.SYS_TIMEOUT) (Run.start m)
      = (rd ram h.BODCTL (Run.start m)).2 :=
  (pollEnd_of_clear ram _ _ _ _ (pollsU32_pos _) (by rw [rd_ram_val]; exact hclear)).1

theorem regulatorBranch_eq (h : NuMicro) (d : Device σ) (newCtl : Nat → Nat) (want : Nat)
    (r : Run σ) :
    regulatorBranch h d newCtl want r
      = if busyFor d h.PLCTL h.SYS_PLCTL_WRBUSY_Msk (pollsI32 (castI32 h.SYS_TIMEOUT)) r = true
        then some (Sum.inl (afterWriteBusyWait h d r))
        else if busyFor d h.PLSTS h.SYS_PLSTS_MVRCBUSY_Msk (pollsI32 (castI32 h.SYS_TIMEOUT))
            (afterCtlStore h d newCtl r) = true
        then some (Sum.inl (afterChangeBusyWait h d newCtl r))
        else some (Sum.inr
          (if (rd d h.PLSTS (afterChangeBusyWait h d newCtl r)).1 &&& h.SYS_PLSTS_CURMVR_Msk
              = want then 1 else 0,
           (rd d h.PLSTS (afterChangeBusyWait h d newCtl r)).2)) := by
  cases h1 : busyFor d h.PLCTL h.SYS_PLCTL_WRBUSY_Msk (pollsI32 (castI32 h.SYS_TIMEOUT)) r with
  | true => simp [regulatorBranch, pollI32_budget, h1, afterWriteBusyWait]
  | false =>
    cases h2 : busyFor d h.PLSTS h.SYS_PLSTS_MVRCBUSY_Msk (pollsI32 (castI32 h.SYS_TIMEOUT))
        (afterCtlStore h d newCtl r) with
    | true =>
      simp only [afterCtlStore, afterWriteBusyWait] at h2
      simp [regulatorBranch, pollI32_budget, h1, h2, afterWriteBusyWait, afterCtlStore,
        afterChangeBusyWait]
    | false =>
      simp only [afterCtlStore, afterWriteBusyWait] at h2
      by_cases hc : (rd d h.PLSTS (afterChangeBusyWait h d newCtl r)).1
          &&& h.SYS_PLSTS_CURMVR_Msk = want
      · have hc2 := hc
        simp only [afterChangeBusyWait, afterCtlStore, afterWriteBusyWait] at hc2
        simp [regulatorBranch, pollI32_budget, h1, h2, afterWriteBusyWait, afterCtlStore,
          afterChangeBusyWait, hc2]
      · have hc2 := hc
        simp only [afterChangeBusyWait, afterCtlStore, afterWriteBusyWait] at hc2
        simp [regulatorBranch, pollI32_budget, h1, h2, afterWriteBusyWait, afterCtlStore,
          afterChangeBusyWait, hc2]

theorem afterWriteBusyWait_stores (h : NuMicro) (d : Device σ) (r : Run σ) :
    (afterWriteBusyWait h d r).stores = r.stores := pollEnd_stores _ _ _ _ _

theorem afterCtlStore_stores (h : NuMicro) (d : Device σ) (newCtl : Nat → Nat) (r : Run σ) :
    (afterCtlStore h d newCtl r).stores
      = r.stores ++ [Access.store h.PLCTL
          (newCtl (rd d h.PLCTL (afterWriteBusyWait h d r)).1 % 4294967296)] := by
  rw [afterCtlStore, wr_stores, rd_stores, afterWriteBusyWait_stores]

theorem afterChangeBusyWait_stores (h : NuMicro) (d : Device σ) (newCtl : Nat → Nat)
    (r : Run σ) :
    (afterChangeBusyWait h d newCtl r).stores
      = r.stores ++ [Access.store h.PLCTL
          (newCtl (rd d h.PLCTL (afterWriteBusyWait h d r)).1 % 4294967296)] := by
  rw [afterChangeBusyWait, pollEnd_stores, afterCtlStore_stores]

theorem castI32_zero : castI32 0 = 0 := by decide
theorem castI32_one : castI32 1 = 1 := by decide

theorem regulatorBranch_values (h : NuMicro) (d : Device σ) (newCtl : Nat → Nat) (want : Nat)
    (r : Run σ) :
    (∃ r1, regulatorBranch h d newCtl want r = some (Sum.inl r1))
      ∨ (∃ r1, regulatorBranch h d newCtl want r = some (Sum.inr (0, r1)))
      ∨ (∃ r1, regulatorBranch h d newCtl want r = some (Sum.inr (1, r1))) := by
  rw [regulatorBranch_eq]
  split
  · exact Or.inl ⟨_, rfl⟩
  · split
    · exact Or.inl ⟨_, rfl⟩
    · split
      · exact Or.inr (Or.inr ⟨_, rfl⟩)
      · exact Or.inr (Or.inl ⟨_, rfl⟩)

theorem regulatorAttempt_values (h : NuMicro) (d : Device σ) (target : Nat) (r : Run σ) :
    (∃ r1, regulatorAttempt h d target r = some (Sum.inl r1))
      ∨ (∃ r1, regulatorAttempt h d target r = some (Sum.inr (0, r1)))
      ∨ (∃ r1, regulatorAttempt h d target r = some (Sum.inr (1, r1))) := by
  unfold regulatorAttempt
  split
  · exact regulatorBranch_values _ _ _ _ _
  · split
    · exact regulatorBranch_values _ _ _ _ _
    · exact Or.inr (Or.inr ⟨_, rfl⟩)

theorem regulatorErrorCheck_values (h : NuMicro) (d : Device σ) (u : Nat) (r : Run σ)
    (hu : u = 0 ∨ u = 1) :
    (regulatorErrorCheck h d u r).1 = 0 ∨ (regulatorErrorCheck h d u r).1 = 1 := by
  unfold regulatorErrorCheck
  split
  · exact Or.inl castI32_zero
  · rcases hu with rfl | rfl
    · exact Or.inl castI32_zero
    · exact Or.inr castI32_one

/-- When a branch of `SYS_SetPowerRegulator` ends in the result 1, the status read
after its change-busy wait equals the wanted regulator. -/
theorem regulatorBranch_one (h : NuMicro) (d : Device σ) (newCtl : Nat → Nat) (want : Nat)
    (r r1 : Run σ) (hcode : h.timeoutDistinct)
    (hres : (match regulatorBranch h d newCtl want r with
      | none => none
      | some (Sum.inl r1) => some (h.SYS_ERR_TIMEOUT, r1)
      | some (Sum.inr (u32Ret, r1)) => some (regulatorErrorCheck h d u32Ret r1))
        = some ((1 : Int), r1)) :
    (rd d h.PLSTS (afterChangeBusyWait h d newCtl r)).1 &&& h.SYS_PLSTS_CURMVR_Msk = want := by
  rw [regulatorBranch_eq] at hres
  cases b1 : busyFor d h.PLCTL h.SYS_PLCTL_WRBUSY_Msk (pollsI32 (castI32 h.SYS_TIMEOUT)) r with
  | true =>
    simp only [b1, if_true, Option.some.injEq, Prod.mk.injEq] at hres
    exact absurd hres.1 hcode.2
  | false =>
    cases b2 : busyFor d h.PLSTS h.SYS_PLSTS_MVRCBUSY_Msk
        (pollsI32 (castI32 h.SYS_TIMEOUT)) (afterCtlStore h d newCtl r) with
    | true =>
      simp only [b1, b2, if_true, Bool.false_eq_true, if_false, Option.some.injEq,
        Prod.mk.injEq] at hres
      exact absurd hres.1 hcode.2
    | false =>
      by_contra hne
      simp only [b1, b2, hne, Bool.false_eq_true, if_false, regulatorErrorCheck, castI32_zero,
        ite_self, Option.some.injEq] at hres
      have h1 := congrArg Prod.fst hres
      revert h1
      split <;> simp

theorem pollEnd_log_busy (d : Device σ) (addr msk : Nat) :
    ∀ (n : Nat) (r : Run σ), busyFor d addr msk n r = true →
      ∃ l, (pollEnd d addr msk n r).log = r.log ++ l ∧ LoadsAt addr l ∧ l.length = n := by
  intro n
  induction n with
  | zero => intro r _; exact ⟨[], by simp [pollEnd], by simp [LoadsAt], rfl⟩
  | succ k ih =>
    intro r hb
    simp only [busyFor, Bool.and_eq_true, bne_iff_ne, ne_eq] at hb
    obtain ⟨l, hl, hl', hlen⟩ := ih (rd d addr r).2 hb.2
    refine ⟨Access.load addr (rd d addr r).1 :: l, ?_, ?_, by simp [hlen]⟩
    · simp only [pollEnd, hb.1, ne_eq, not_false_eq_true, if_true, hl, rd_log,
        List.append_assoc, List.singleton_append]
    · exact (LoadsAt.single _ _).append hl'

theorem mem_stores {r : Run σ} {a v : Nat} (hm : Access.store a v ∈ r.log) :
    Access.store a v ∈ r.stores := by
  simp [Run.stores, hm, Access.isStore]

/-- A branch of `SYS_SetPowerRegulator` that is left normally has stored once, to the
power-level control word. -/
theorem regulatorBranch_stores (h : NuMicro) (d : Device σ) (newCtl : Nat → Nat) (want : Nat)
    (r r1 : Run σ) (u : Nat) (hb : regulatorBranch h d newCtl want r = some (Sum.inr (u, r1))) :
    r1.stores = r.stores ++ [Access.store h.PLCTL
      (newCtl (rd d h.PLCTL (afterWriteBusyWait h d r)).1 % 4294967296)] := by
  rw [regulatorBranch_eq] at hb
  cases b1 : busyFor d h.PLCTL h.SYS_PLCTL_WRBUSY_Msk (pollsI32 (castI32 h.SYS_TIMEOUT)) r with
  | true => simp [b1] at hb
  | false =>
    cases b2 : busyFor d h.PLSTS h.SYS_PLSTS_MVRCBUSY_Msk
        (pollsI32 (castI32 h.SYS_TIMEOUT)) (afterCtlStore h d newCtl r) with
    | true => simp [b1, b2] at hb
    | false =>
      simp only [b1, b2, Bool.false_eq_true, if_false, Option.some.injEq, Sum.inr.injEq,
        Prod.mk.injEq] at hb
      rw [← hb.2, rd_stores, afterChangeBusyWait_stores]

theorem regulatorAttempt_stores (h : NuMicro) (d : Device σ) (target : Nat) (s : σ)
    (r1 : Run σ) (u : Nat)
    (hatt : regulatorAttempt h d target (Run.start s) = some (Sum.inr (u, r1))) :
    r1.stores = [] ∨ ∃ x, r1.stores = [Access.store h.PLCTL x] := by
  unfold regulatorAttempt at hatt
  split at hatt
  · exact Or.inr ⟨_, by rw [regulatorBranch_stores h d _ _ _ _ _ hatt, rd_stores]; rfl⟩
  · split at hatt
    · exact Or.inr ⟨_, by rw [regulatorBranch_stores h d _ _ _ _ _ hatt, rd_stores]; rfl⟩
    · simp only [Option.some.injEq, Sum.inr.injEq, Prod.mk.injEq] at hatt
      exact Or.inl (by rw [← hatt.2, rd_stores]; rfl)

/-! ## Lemmas on the position scan, the SRAM write and the lengths of runs -/

theorem and_one_shiftLeft_ne_zero (x pos : Nat) :
    x &&& (1 <<< pos) ≠ 0 ↔ x.testBit pos = true := by
  rw [Nat.one_shiftLeft]
  constructor
  · intro hne
    by_contra hb
    apply hne
    apply Nat.eq_of_testBit_eq
    intro i
    simp only [Nat.testBit_and, Nat.testBit_two_pow, Nat.zero_testBit]
    by_cases hi : pos = i
    · subst hi; simp [hb]
    · simp [hi]
  · intro hb hz
    have := congrArg (fun y => y.testBit pos) hz
    simp [hb, Nat.testBit_two_pow] at this

theorem scanSelPos_found (sel : Nat) :
    ∀ (fuel pos p : Nat), pos ≤ p → p < 30 → p - pos < fuel → sel.testBit p = true →
      (∀ i, pos ≤ i → i < p → sel.testBit i = false) → scanSelPos sel fuel pos = some p := by
  intro fuel
  induction fuel with
  | zero => intro pos p _ _ hf; omega
  | succ k ih =>
    intro pos p hle hp hf hbit hlow
    have hpos : pos < 30 := by omega
    by_cases hb : sel.testBit pos = true
    · have hpp : pos = p := by
        by_contra hne
        have := hlow pos (Nat.le_refl _) (by omega)
        rw [this] at hb
        exact absurd hb (by decide)
      subst hpp
      simp [scanSelPos, hpos, (and_one_shiftLeft_ne_zero sel pos).2 hb]
    · have hne : pos ≠ p := by
        intro e; subst e; exact hb hbit
      have hz : ¬ (sel &&& (1 <<< pos) ≠ 0) := fun hx =>
        hb ((and_one_shiftLeft_ne_zero sel pos).1 hx)
      have := ih (pos + 1) p (by omega) hp (by omega) hbit
        (fun i hi hip => hlow i (by omega) hip)
      simp only [scanSelPos, hpos, if_true, hz, if_false, this]

theorem scanSelPos_not_found (sel : Nat) :
    ∀ (fuel pos : Nat), pos ≤ 30 → 30 - pos < fuel →
      (∀ i, pos ≤ i → i < 30 → sel.testBit i = false) → scanSelPos sel fuel pos = some 30 := by
  intro fuel
  induction fuel with
  | zero => intro pos _ hf; omega
  | succ k ih =>
    intro pos hle hf hlow
    by_cases hpos : pos < 30
    · have hz : ¬ (sel &&& (1 <<< pos) ≠ 0) := fun hx => by
        have := (and_one_shiftLeft_ne_zero sel pos).1 hx
        rw [hlow pos (Nat.le_refl _) hpos] at this
        exact absurd this (by decide)
      have := ih (pos + 1) (by omega) (by omega) (fun i hi hip => hlow i (by omega) hip)
      simp only [scanSelPos, hpos, if_true, hz, if_false, this]
    · have : pos = 30 := by omega
      subst this
      simp [scanSelPos]

theorem scanSelPos_total (sel : Nat) :
    ∀ (fuel pos : Nat), pos ≤ 30 → 30 - pos < fuel →
      ∃ p, scanSelPos sel fuel pos = some p ∧ pos ≤ p ∧ p ≤ 30 := by
  intro fuel
  induction fuel with
  | zero => intro pos _ hf; omega
  | succ k ih =>
    intro pos hle hf
    by_cases hpos : pos < 30
    · by_cases hb : sel &&& (1 <<< pos) ≠ 0
      · exact ⟨pos, by simp only [scanSelPos, hpos, if_true]; rw [if_pos hb], Nat.le_refl _, hle⟩
      · obtain ⟨p, hp, h1, h2⟩ := ih (pos + 1) (by omega) (by omega)
        exact ⟨p, by simp only [scanSelPos, hpos, if_true, hb, if_false, hp], by omega, h2⟩
    · exact ⟨pos, by simp only [scanSelPos, hpos, if_false], Nat.le_refl _, hle⟩

theorem sramWrite_eq (h : NuMicro) (d : Device σ) (addr msk sel mode pos : Nat) (r : Run σ) :
    sramWrite h d addr msk sel mode pos r
      = if busyFor d addr msk (pollsU32 h.SYS_TIMEOUT) r = true
        then some (-1, pollEnd d addr msk (pollsU32 h.SYS_TIMEOUT) r)
        else some (0, wr d addr
          (((rd d addr (pollEnd d addr msk (pollsU32 h.SYS_TIMEOUT) r)).1 &&& not32 sel)
            ||| shl32 mode pos)
          (rd d addr (pollEnd d addr msk (pollsU32 h.SYS_TIMEOUT) r)).2) := by
  cases hb : busyFor d addr msk (pollsU32 h.SYS_TIMEOUT) r <;>
    simp [sramWrite, pollU32_budget, hb]

theorem shl32_lt (x n : Nat) : shl32 x n < 4294967296 := by
  unfold shl32; omega

/-- The write of the SRAM functions on plain memory whose busy bit is clear. -/
theorem sramWrite_ram (h : NuMicro) (addr msk sel mode pos : Nat) (m : Mem)
    (hclear : m.loadWord addr &&& msk = 0) :
    ∃ r, sramWrite h ram addr msk sel mode pos (Run.start m) = some (0, r)
      ∧ r.stores = [Access.store addr ((m.loadWord addr &&& not32 sel) ||| shl32 mode pos)]
      ∧ r.dev.loadWord addr = (m.loadWord addr &&& not32 sel) ||| shl32 mode pos
      ∧ ∀ b, (addr + 3 < b ∨ b + 3 < addr) → r.dev.loadWord b = m.loadWord b := by
  have hw : (m.loadWord addr &&& not32 sel) ||| shl32 mode pos < 4294967296 :=
    Nat.or_lt_two_pow (n := 32) (Nat.and_lt_two_pow (n := 32) _ (not32_lt _)) (shl32_lt _ _)
  have hc := pollEnd_of_clear ram addr msk (pollsU32 h.SYS_TIMEOUT) (Run.start m)
    (pollsU32_pos _) (by rw [rd_ram_val]; exact hclear)
  refine ⟨wr ram addr ((m.loadWord addr &&& not32 sel) ||| shl32 mode pos)
    (rd ram addr (rd ram addr (Run.start m)).2).2, ?_, ?_, ?_, ?_⟩
  · simp only [sramWrite_eq, hc.1, hc.2, Bool.false_eq_true, if_false, rd_ram_val, rd_ram_dev,
      Run.start_dev]
  · rw [wr_stores, rd_stores, rd_stores, Nat.mod_eq_of_lt hw]; rfl
  · rw [wr_ram_dev, Mem.loadWord_storeWord, Nat.mod_mod, Nat.mod_eq_of_lt hw]
  · intro b hb
    rw [wr_ram_dev]
    exact Mem.loadWord_storeWord_of_disjoint _ _ _ _ hb

theorem and_BIT31_ne_zero (x : Nat) : x &&& BIT31 ≠ 0 ↔ x.testBit 31 = true := by
  have := and_one_shiftLeft_ne_zero x 31
  simpa [BIT31] using this

theorem SYS_SetSSRAMPowerMode_eq (h : NuMicro) (d : Device σ) (sel mode pos : Nat) (r : Run σ)
    (hscan : scanSelPos sel 31 0 = some pos) :
    SYS_SetSSRAMPowerMode h d sel mode r
      = sramWrite h d (ssramTarget h mode).1 (ssramTarget h mode).2 sel mode pos r := by
  by_cases hb : mode.testBit 31 = true
  · simp only [SYS_SetSSRAMPowerMode, hscan, ssramTarget, hb, if_true]
    rw [if_pos ((and_BIT31_ne_zero mode).2 hb)]
  · have hz : ¬ (mode &&& BIT31 ≠ 0) := fun hx => hb ((and_BIT31_ne_zero mode).1 hx)
    simp only [SYS_SetSSRAMPowerMode, hscan, ssramTarget, hb]
    rw [if_neg hz]
    rfl

theorem SYS_SetPSRAMPowerMode_eq (h : NuMicro) (d : Device σ) (sel mode pos : Nat) (r : Run σ)
    (hscan : scanSelPos sel 31 16 = some pos) :
    SYS_SetPSRAMPowerMode h d sel mode r
      = sramWrite h d h.SRAMPC1 h.SYS_SRAMPC1_PCBUSY_Msk sel mode pos r := by
  simp only [SYS_SetPSRAMPowerMode, hscan]

theorem LoadsAt.accessesAt {a : Nat} {l : List Access} (hl : LoadsAt a l) : AccessesAt a l := by
  intro e he
  obtain ⟨v, rfl⟩ := hl e he
  rfl

theorem accessesAt_append {a : Nat} {l1 l2 : List Access} (h1 : AccessesAt a l1)
    (h2 : AccessesAt a l2) : AccessesAt a (l1 ++ l2) := by
  intro e he
  rcases List.mem_append.1 he with he | he
  · exact h1 e he
  · exact h2 e he

theorem accessesAt_single (e : Access) : AccessesAt e.addr [e] := by
  intro x hx
  rw [List.mem_singleton.1 hx]

/-- What the wait and the write of the SRAM functions do on any device. -/
theorem sramWrite_spec (h : NuMicro) (d : Device σ) (addr msk sel mode pos : Nat) (s : σ) :
    ∃ res r, sramWrite h d addr msk sel mode pos (Run.start s) = some (res, r)
      ∧ AccessesAt addr r.log
      ∧ (busyFor d addr msk (pollsU32 h.SYS_TIMEOUT) (Run.start s) = true →
          res = -1 ∧ r.stores = [])
      ∧ (busyFor d addr msk (pollsU32 h.SYS_TIMEOUT) (Run.start s) = false →
          res = 0 ∧ ∃ v, r.stores = [Access.store addr v]) := by
  obtain ⟨l, hl, hl'⟩ := pollEnd_log d addr msk (pollsU32 h.SYS_TIMEOUT) (Run.start s)
  have hl0 : (pollEnd d addr msk (pollsU32 h.SYS_TIMEOUT) (Run.start s)).log = l := by
    rw [hl]; rfl
  cases hb : busyFor d addr msk (pollsU32 h.SYS_TIMEOUT) (Run.start s) with
  | true =>
    refine ⟨-1, pollEnd d addr msk (pollsU32 h.SYS_TIMEOUT) (Run.start s), ?_, ?_, ?_, ?_⟩
    · simp only [sramWrite_eq, hb, if_true]
    · rw [hl0]; exact hl'.accessesAt
    · intro _; exact ⟨rfl, by rw [pollEnd_stores]; rfl⟩
    · intro hx; exact absurd hx (by decide)
  | false =>
    refine ⟨0, _, by simp only [sramWrite_eq, hb, Bool.false_eq_true, if_false]; rfl,
      ?_, ?_, ?_⟩
    · rw [wr_log, rd_log, hl0]
      exact accessesAt_append
        (accessesAt_append hl'.accessesAt (accessesAt_single (Access.load addr _)))
        (accessesAt_single (Access.store addr _))
    · intro hx; exact absurd hx (by decide)
    · intro _
      exact ⟨rfl, _, by rw [wr_stores, rd_stores, pollEnd_stores]; rfl⟩

/-- On plain memory the SRAM functions leave every word apart from the targeted one as
it was. -/
theorem sramWrite_ram_frame (h : NuMicro) (addr msk sel mode pos : Nat) (m : Mem) (b : Nat)
    (hb : addr + 3 < b ∨ b + 3 < addr) (res : Int) (r : Run Mem)
    (hr : sramWrite h ram addr msk sel mode pos (Run.start m) = some (res, r)) :
    r.dev.loadWord b = m.loadWord b := by
  rw [sramWrite_eq] at hr
  split at hr
  · simp only [Option.some.injEq, Prod.mk.injEq] at hr
    rw [← hr.2, pollEnd_ram_dev]; rfl
  · simp only [Option.some.injEq, Prod.mk.injEq] at hr
    rw [← hr.2, wr_ram_dev, rd_ram_dev, pollEnd_ram_dev]
    exact Mem.loadWord_storeWord_of_disjoint _ _ _ _ hb

theorem and_one_ne_zero (x : Nat) : x &&& 1 ≠ 0 ↔ x.testBit 0 = true := by
  rw [Nat.testBit_zero, Nat.and_one_is_mod]
  simp

theorem pollsI32_pos (c : Int) : 1 ≤ pollsI32 c := by
  unfold pollsI32; omega

/-- A wait of at least one poll starts with a load of the polled word. -/
theorem pollEnd_log_head (d : Device σ) (addr msk n : Nat) (r : Run σ) (hn : 1 ≤ n) :
    ∃ l, (pollEnd d addr msk n r).log = r.log ++ Access.load addr (rd d addr r).1 :: l := by
  obtain ⟨k, rfl⟩ : ∃ k, n = k + 1 := ⟨n - 1, by omega⟩
  by_cases hb : (rd d addr r).1 &&& msk = 0
  · exact ⟨[], by simp only [pollEnd, hb, ne_eq, not_true_eq_false, if_false, rd_log]⟩
  · obtain ⟨l, hl, _⟩ := pollEnd_log d addr msk k (rd d addr r).2
    exact ⟨l, by simp only [pollEnd, hb, ne_eq, not_false_eq_true, if_true, hl, rd_log,
      List.append_assoc, List.singleton_append]⟩

theorem regulatorErrorCheck_log (h : NuMicro) (d : Device σ) (u : Nat) (r : Run σ) :
    ∃ l, (regulatorErrorCheck h d u r).2.log = r.log ++ l ∧ AccessesAt h.PLSTS l
      ∧ l.length ≤ 2 := by
  unfold regulatorErrorCheck
  split
  · refine ⟨[Access.load h.PLSTS (rd d h.PLSTS r).1,
      Access.store h.PLSTS (h.SYS_PLSTS_MVRCERR_Msk % 4294967296)], ?_, ?_, by simp⟩
    · simp only [wr_log, rd_log, List.append_assoc, List.singleton_append]
    · intro e he
      simp only [List.mem_cons, List.mem_singleton, List.not_mem_nil, or_false] at he
      rcases he with rfl | rfl <;> rfl
  · refine ⟨[Access.load h.PLSTS (rd d h.PLSTS r).1], rd_log _ _ _, ?_, by simp⟩
    intro e he
    rw [List.mem_singleton.1 he]; rfl

/-- The log of a branch of `SYS_SetPowerRegulator`: it starts with a poll of the control
word, and contains the store when the write-busy wait succeeds. -/
theorem regulatorBranch_log (h : NuMicro) (d : Device σ) (newCtl : Nat → Nat) (want : Nat)
    (r : Run σ) :
    ∃ x l, regulatorBranch h d newCtl want r = some x
      ∧ (match x with | Sum.inl r1 => r1 | Sum.inr p => p.2).log
          = r.log ++ Access.load h.PLCTL (rd d h.PLCTL r).1 :: l
      ∧ (busyFor d h.PLCTL h.SYS_PLCTL_WRBUSY_Msk (pollsI32 (castI32 h.SYS_TIMEOUT)) r = true →
          x = Sum.inl (afterWriteBusyWait h d r))
      ∧ (busyFor d h.PLCTL h.SYS_PLCTL_WRBUSY_Msk (pollsI32 (castI32 h.SYS_TIMEOUT)) r = false →
          Access.store h.PLCTL
            (newCtl (rd d h.PLCTL (afterWriteBusyWait h d r)).1 % 4294967296) ∈ l) := by
  obtain ⟨l1, hl1⟩ := pollEnd_log_head d h.PLCTL h.SYS_PLCTL_WRBUSY_Msk
    (pollsI32 (castI32 h.SYS_TIMEOUT)) r (pollsI32_pos _)
  have hA : (afterWriteBusyWait h d r).log
      = r.log ++ Access.load h.PLCTL (rd d h.PLCTL r).1 :: l1 := hl1
  obtain ⟨l2, hl2, _⟩ := pollEnd_log d h.PLSTS h.SYS_PLSTS_MVRCBUSY_Msk
    (pollsI32 (castI32 h.SYS_TIMEOUT)) (afterCtlStore h d newCtl r)
  have hC : (afterChangeBusyWait h d newCtl r).log
      = r.log ++ Access.load h.PLCTL (rd d h.PLCTL r).1 :: (l1
          ++ [Access.load h.PLCTL (rd d h.PLCTL (afterWriteBusyWait h d r)).1,
              Access.store h.PLCTL
                (newCtl (rd d h.PLCTL (afterWriteBusyWait h d r)).1 % 4294967296)] ++ l2) := by
    have : (afterChangeBusyWait h d newCtl r).log = (afterCtlStore h d newCtl r).log ++ l2 := hl2
    rw [this, afterCtlStore, wr_log, rd_log, hA]
    simp
  rw [regulatorBranch_eq]
  cases b1 : busyFor d h.PLCTL h.SYS_PLCTL_WRBUSY_Msk (pollsI32 (castI32 h.SYS_TIMEOUT)) r with
  | true =>
    exact ⟨Sum.inl (afterWriteBusyWait h d r), l1, by simp only [if_true], hA, fun _ => rfl,
      fun hx => absurd hx (by decide)⟩
  | false =>
    cases b2 : busyFor d h.PLSTS h.SYS_PLSTS_MVRCBUSY_Msk
        (pollsI32 (castI32 h.SYS_TIMEOUT)) (afterCtlStore h d newCtl r) with
    | true =>
      refine ⟨Sum.inl (afterChangeBusyWait h d newCtl r), (l1 ++ [Access.load h.PLCTL (rd d h.PLCTL (afterWriteBusyWait h d r)).1,
              Access.store h.PLCTL
                (newCtl (rd d h.PLCTL (afterWriteBusyWait h d r)).1 % 4294967296)] ++ l2), ?_, hC,
        fun hx => absurd hx (by decide), fun _ => ?_⟩
      · simp only [Bool.false_eq_true, if_false, if_true]
      · simp
    | false =>
      refine ⟨Sum.inr (if (rd d h.PLSTS (afterChangeBusyWait h d newCtl r)).1
            &&& h.SYS_PLSTS_CURMVR_Msk = want then 1 else 0,
          (rd d h.PLSTS (afterChangeBusyWait h d newCtl r)).2),
        (l1 ++ [Access.load h.PLCTL (rd d h.PLCTL (afterWriteBusyWait h d r)).1,
              Access.store h.PLCTL
                (newCtl (rd d h.PLCTL (afterWriteBusyWait h d r)).1 % 4294967296)] ++ l2)
          ++ [Access.load h.PLSTS (rd d h.PLSTS (afterChangeBusyWait h d newCtl r)).1],
        ?_, ?_, fun hx => absurd hx (by decide), fun _ => ?_⟩
      · simp only [Bool.false_eq_true, if_false]
      · show (rd d h.PLSTS (afterChangeBusyWait h d newCtl r)).2.log = _
        rw [rd_log, hC]; simp
      · simp

theorem rd_log_length (d : Device σ) (a : Nat) (r : Run σ) :
    (rd d a r).2.log.length = r.log.length + 1 := by
  rw [rd_log]; simp

theorem wr_log_length (d : Device σ) (a v : Nat) (r : Run σ) :
    (wr d a v r).log.length = r.log.length + 1 := by
  rw [wr_log]; simp

theorem pollEnd_log_length (d : Device σ) (addr msk : Nat) :
    ∀ (n : Nat) (r : Run σ), (pollEnd d addr msk n r).log.length ≤ r.log.length + n := by
  intro n
  induction n with
  | zero => intro r; simp [pollEnd]
  | succ k ih =>
    intro r
    by_cases hb : (rd d addr r).1 &&& msk = 0
    · simp only [pollEnd, hb, ne_eq, not_true_eq_false, if_false, rd_log_length]; omega
    · have := ih (rd d addr r).2
      rw [rd_log_length] at this
      simp only [pollEnd, hb, ne_eq, not_false_eq_true, if_true]; omega

theorem SYS_SetPowerLevel_eq (h : NuMicro) (d : Device σ) (level : Nat) (r : Run σ) :
    SYS_SetPowerLevel h d level r
      = if busyFor d h.PLCTL h.SYS_PLCTL_WRBUSY_Msk (pollsU32 h.SYS_TIMEOUT) r = true
        then some (-1, pollEnd d h.PLCTL h.SYS_PLCTL_WRBUSY_Msk (pollsU32 h.SYS_TIMEOUT) r)
        else some
          (if busyFor d h.PLSTS h.SYS_PLSTS_PLCBUSY_Msk (pollsU32 h.SYS_TIMEOUT)
              (wr d h.PLCTL
                (((rd d h.PLCTL (pollEnd d h.PLCTL h.SYS_PLCTL_WRBUSY_Msk
                    (pollsU32 h.SYS_TIMEOUT) r)).1 &&& not32 h.SYS_PLCTL_PLSEL_Msk) ||| level)
                (rd d h.PLCTL (pollEnd d h.PLCTL h.SYS_PLCTL_WRBUSY_Msk
                    (pollsU32 h.SYS_TIMEOUT) r)).2) = true then -1 else 0,
           pollEnd d h.PLSTS h.SYS_PLSTS_PLCBUSY_Msk (pollsU32 h.SYS_TIMEOUT)
              (wr d h.PLCTL
                (((rd d h.PLCTL (pollEnd d h.PLCTL h.SYS_PLCTL_WRBUSY_Msk
                    (pollsU32 h.SYS_TIMEOUT) r)).1 &&& not32 h.SYS_PLCTL_PLSEL_Msk) ||| level)
                (rd d h.PLCTL (pollEnd d h.PLCTL h.SYS_PLCTL_WRBUSY_Msk
                    (pollsU32 h.SYS_TIMEOUT) r)).2)) := by
  cases h1 : busyFor d h.PLCTL h.SYS_PLCTL_WRBUSY_Msk (pollsU32 h.SYS_TIMEOUT) r with
  | true => simp only [SYS_SetPowerLevel, pollU32_budget, h1, Bool.not_true, if_true]
  | false =>
    cases h2 : busyFor d h.PLSTS h.SYS_PLSTS_PLCBUSY_Msk (pollsU32 h.SYS_TIMEOUT)
              (wr d h.PLCTL
                (((rd d h.PLCTL (pollEnd d h.PLCTL h.SYS_PLCTL_WRBUSY_Msk
                    (pollsU32 h.SYS_TIMEOUT) r)).1 &&& not32 h.SYS_PLCTL_PLSEL_Msk) ||| level)
                (rd d h.PLCTL (pollEnd d h.PLCTL h.SYS_PLCTL_WRBUSY_Msk
                    (pollsU32 h.SYS_TIMEOUT) r)).2) <;>
      simp only [SYS_SetPowerLevel, pollU32_budget, h1, h2, Bool.not_true, Bool.not_false,
        Bool.false_eq_true, if_false, if_true]

theorem regulatorBranch_length (h : NuMicro) (d : Device σ) (newCtl : Nat → Nat) (want : Nat)
    (r : Run σ) :
    ∃ x, regulatorBranch h d newCtl want r = some x
      ∧ (match x with | Sum.inl r1 => r1 | Sum.inr p => p.2).log.length
          ≤ r.log.length + (2 * pollsI32 (castI32 h.SYS_TIMEOUT) + 3) := by
  have hA : (afterWriteBusyWait h d r).log.length
      ≤ r.log.length + pollsI32 (castI32 h.SYS_TIMEOUT) := pollEnd_log_length _ _ _ _ _
  have hS : (afterCtlStore h d newCtl r).log.length
      = (afterWriteBusyWait h d r).log.length + 2 := by
    rw [afterCtlStore, wr_log_length, rd_log_length]
  have hC : (afterChangeBusyWait h d newCtl r).log.length
      ≤ (afterCtlStore h d newCtl r).log.length + pollsI32 (castI32 h.SYS_TIMEOUT) :=
    pollEnd_log_length _ _ _ _ _
  rw [regulatorBranch_eq]
  split
  · exact ⟨_, rfl, by simp only; omega⟩
  · split
    · exact ⟨_, rfl, by simp only; omega⟩
    · refine ⟨_, rfl, ?_⟩
      simp only [rd_log_length]; omega

theorem regulatorErrorCheck_length (h : NuMicro) (d : Device σ) (u : Nat) (r : Run σ) :
    (regulatorErrorCheck h d u r).2.log.length ≤ r.log.length + 2 := by
  unfold regulatorErrorCheck
  split
  · simp only [wr_log_length, rd_log_length]; omega
  · simp only [rd_log_length]; omega

theorem SYS_SetPowerRegulator_length (h : NuMicro) (d : Device σ) (target : Nat) (s : σ) :
    ∃ res r, SYS_SetPowerRegulator h d target (Run.start s) = some (res, r)
      ∧ r.log.length ≤ 2 * pollsI32 (castI32 h.SYS_TIMEOUT) + 6 := by
  have h0 : (rd d h.PLSTS (Run.start s)).2.log.length = 1 := by rw [rd_log_length]; rfl
  have hbr : ∀ newCtl want, ∃ res r,
      (match regulatorBranch h d newCtl want (rd d h.PLSTS (Run.start s)).2 with
        | none => none
        | some (Sum.inl r1) => some (h.SYS_ERR_TIMEOUT, r1)
        | some (Sum.inr (u32Ret, r1)) => some (regulatorErrorCheck h d u32Ret r1))
        = some (res, r)
      ∧ r.log.length ≤ 2 * pollsI32 (castI32 h.SYS_TIMEOUT) + 6 := by
    intro newCtl want
    obtain ⟨x, hx, hlen⟩ := regulatorBranch_length h d newCtl want (rd d h.PLSTS (Run.start s)).2
    rw [hx]
    cases x with
    | inl r1 => exact ⟨_, _, rfl, by simp only at hlen; omega⟩
    | inr p =>
      refine ⟨(regulatorErrorCheck h d p.1 p.2).1, (regulatorErrorCheck h d p.1 p.2).2, rfl, ?_⟩
      have := regulatorErrorCheck_length h d p.1 p.2
      simp only at hlen
      omega
  by_cases c1 : target = h.SYS_PLCTL_MVRS_DCDC
      ∧ (rd d h.PLSTS (Run.start s)).1 &&& h.SYS_PLSTS_CURMVR_Msk = h.SYS_PLSTS_CURMVR_LDO
  · simp only [SYS_SetPowerRegulator, regulatorAttempt]
    rw [if_pos c1]
    exact hbr _ _
  · by_cases c2 : target = h.SYS_PLCTL_MVRS_LDO
    · simp only [SYS_SetPowerRegulator, regulatorAttempt]
      rw [if_neg c1, if_pos c2]
      exact hbr _ _
    · refine ⟨(regulatorErrorCheck h d 1 (rd d h.PLSTS (Run.start s)).2).1,
        (regulatorErrorCheck h d 1 (rd d h.PLSTS (Run.start s)).2).2, ?_, ?_⟩
      · simp only [SYS_SetPowerRegulator, regulatorAttempt]
        rw [if_neg c1, if_neg c2]
      · have := regulatorErrorCheck_length h d 1 (rd d h.PLSTS (Run.start s)).2
        omega

theorem sramWrite_length (h : NuMicro) (d : Device σ) (addr msk sel mode pos : Nat) (s : σ) :
    ∃ res r, sramWrite h d addr msk sel mode pos (Run.start s) = some (res, r)
      ∧ r.log.length ≤ pollsU32 h.SYS_TIMEOUT + 2 := by
  have hA := pollEnd_log_length d addr msk (pollsU32 h.SYS_TIMEOUT) (Run.start s)
  have h0 : (Run.start s).log.length = 0 := rfl
  rw [sramWrite_eq]
  split
  · exact ⟨_, _, rfl, by omega⟩
  · refine ⟨_, _, rfl, ?_⟩
    rw [wr_log_length, rd_log_length]; omega

theorem testBit_three_shiftLeft (p i : Nat) :
    (3 <<< p).testBit i = (decide (p ≤ i) && decide (i < p + 2)) := by
  have h3 : (3 : Nat) = 2 ^ 2 - 1 := by decide
  rw [Nat.testBit_shiftLeft, h3, Nat.testBit_two_pow_sub_one]
  by_cases h1 : p ≤ i
  · by_cases h2 : i < p + 2
    · have : i - p < 2 := by omega
      simp [h1, h2, this]
    · have : ¬ i - p < 2 := by omega
      simp [h1, h2, this]
  · have : ¬ i ≥ p := h1
    simp [h1]

theorem testBit_shl32 (x n i : Nat) :
    (shl32 x n).testBit i = (decide (i < 32) && (decide (n ≤ i) && x.testBit (i - n))) := by
  unfold shl32
  have : (4294967296 : Nat) = 2 ^ 32 := by decide
  rw [this, Nat.testBit_mod_two_pow, Nat.testBit_shiftLeft]

/-- The word that the SRAM functions store for the selector `3 << p`, bit by bit. -/
theorem sram_field_bits (w mode p : Nat) (hw : w < 4294967296) (hp : p ≤ 28)
    (hmode : ∀ k, 2 ≤ k → k ≠ 31 → mode.testBit k = false) :
    (((w &&& not32 (3 <<< p)) ||| shl32 mode p) >>> p) % 4 = mode % 4
      ∧ (∀ i, i ≠ p → i ≠ p + 1 → i ≠ 31 →
          ((w &&& not32 (3 <<< p)) ||| shl32 mode p).testBit i = w.testBit i)
      ∧ ((1 ≤ p ∨ mode.testBit 31 = false) →
          ((w &&& not32 (3 <<< p)) ||| shl32 mode p).testBit 31 = w.testBit 31) := by
  have hw32 : ∀ j, 32 ≤ j → w.testBit j = false := fun j hj =>
    Nat.testBit_lt_two_pow (lt_of_lt_of_le hw (Nat.pow_le_pow_right (n := 2) (by decide) hj))
  refine ⟨?_, ?_, ?_⟩
  · apply Nat.eq_of_testBit_eq
    intro j
    have h4 : (4 : Nat) = 2 ^ 2 := by decide
    rw [h4, Nat.testBit_mod_two_pow, Nat.testBit_mod_two_pow, Nat.testBit_shiftRight,
      Nat.testBit_or, Nat.testBit_and, testBit_not32, testBit_three_shiftLeft, testBit_shl32]
    by_cases hj : j < 2
    · have e1 : p + j < 32 := by omega
      have e2 : p ≤ p + j := by omega
      have e3 : p + j < p + 2 := by omega
      have e4 : p + j - p = j := by omega
      simp [hj, e1, e2, e3, e4]
    · simp [hj]
  · intro i h1 h2 h3
    rw [Nat.testBit_or, Nat.testBit_and, testBit_not32, testBit_three_shiftLeft, testBit_shl32]
    by_cases h32 : i < 32
    · by_cases hle : p ≤ i
      · have e1 : ¬ i < p + 2 := by omega
        have e2 : mode.testBit (i - p) = false := hmode (i - p) (by omega) (by omega)
        simp [h32, hle, e1, e2]
      · simp [h32, hle]
    · simp [h32, hw32 i (by omega)]
  · intro hcase
    rw [Nat.testBit_or, Nat.testBit_and, testBit_not32, testBit_three_shiftLeft, testBit_shl32]
    have e1 : ¬ 31 < p + 2 := by omega
    have e2 : mode.testBit (31 - p) = false := by
      rcases hcase with hp1 | hm
      · exact hmode (31 - p) (by omega) (by omega)
      · by_cases hp0 : p = 0
        · subst hp0; exact hm
        · exact hmode (31 - p) (by omega) (by omega)
    simp [e1, e2]

theorem scan_three_shiftLeft (p start : Nat) (hs : start ≤ p) (hp : p ≤ 28) :
    scanSelPos (3 <<< p) 31 start = some p :=
  scanSelPos_found (3 <<< p) 31 start p hs (by omega) (by omega)
    (by rw [testBit_three_shiftLeft]; simp)
    (fun i _ hi => by
      rw [testBit_three_shiftLeft]
      have : ¬ p ≤ i := by omega
      simp [this])

theorem pollsU32_eq (T : Nat) (h1 : 1 ≤ T) (h2 : T < 4294967296) : pollsU32 T = T := by
  unfold pollsU32
  rw [Nat.mod_eq_of_lt h2, if_neg (by omega)]

theorem pollsI32_castI32 (T : Nat) (h2 : T < 2147483648) : pollsI32 (castI32 T) = T + 1 := by
  unfold pollsI32 castI32
  have : T % 4294967296 = T := Nat.mod_eq_of_lt (by omega)
  rw [this, if_pos h2]
  omega

/-! ## Theorems -/

/-! ### Claim C1 -/

/-- Claim C1, as amended. On plain read/write memory, for a module index that encodes
byte offset `o` and bit `b < 32`, `SYS_ResetModule` loads the word at `IPRST0 + o`,
stores it with bit `b` OR-ed in, loads it again and stores it with bit `b` AND-ed out,
in this order and with no other access; afterwards bit `b` of that word is clear,
whatever its value before the call, and every other bit of the word is unchanged. -/
theorem SYS_ResetModule_pulse (h : NuMicro) (m : Mem) (o b : Nat) (hb : b < 32) :
    (SYS_ResetModule h ram (o * 16777216 + b) (Run.start m)).log
        = [Access.load ((h.IPRST0 + o) % 4294967296) (m.loadWord ((h.IPRST0 + o) % 4294967296)),
           Access.store ((h.IPRST0 + o) % 4294967296)
             (m.loadWord ((h.IPRST0 + o) % 4294967296) ||| 2 ^ b),
           Access.load ((h.IPRST0 + o) % 4294967296)
             (m.loadWord ((h.IPRST0 + o) % 4294967296) ||| 2 ^ b),
           Access.store ((h.IPRST0 + o) % 4294967296)
             ((m.loadWord ((h.IPRST0 + o) % 4294967296) ||| 2 ^ b) &&& not32 (2 ^ b))]
      ∧ ((SYS_ResetModule h ram (o * 16777216 + b) (Run.start m)).dev.loadWord
            ((h.IPRST0 + o) % 4294967296)).testBit b = false
      ∧ ∀ i, i ≠ b →
          ((SYS_ResetModule h ram (o * 16777216 + b) (Run.start m)).dev.loadWord
            ((h.IPRST0 + o) % 4294967296)).testBit i
          = (m.loadWord ((h.IPRST0 + o) % 4294967296)).testBit i := by
  have hw := Mem.loadWord_lt m ((h.IPRST0 + o) % 4294967296)
  have hp : 2 ^ b < 4294967296 := Nat.pow_lt_pow_right (by decide) hb
  have hor : (m.loadWord ((h.IPRST0 + o) % 4294967296) ||| 2 ^ b) < 4294967296 :=
    Nat.or_lt_two_pow (n := 32) hw hp
  have hand : ((m.loadWord ((h.IPRST0 + o) % 4294967296) ||| 2 ^ b) &&& not32 (2 ^ b))
      < 4294967296 := Nat.and_lt_two_pow (n := 32) _ (not32_lt _)
  simp only [SYS_ResetModule, index_bit o b hb, index_offset o b hb, shl32_one b hb, rd, wr,
    ram, Run.start, Mem.loadWord_storeWord, Nat.mod_eq_of_lt hw, Nat.mod_eq_of_lt hor,
    Nat.mod_eq_of_lt hand, List.nil_append, List.cons_append, Nat.mod_mod]
  refine ⟨trivial, ?_, ?_⟩
  · simp [testBit_not32, Nat.testBit_two_pow]
  · intro i hi
    have hw32 : ∀ j, 32 ≤ j → (m.loadWord ((h.IPRST0 + o) % 4294967296)).testBit j = false :=
      fun j hj => Nat.testBit_lt_two_pow (lt_of_lt_of_le hw (Nat.pow_le_pow_right (n := 2) (by decide) hj))
    simp only [Nat.testBit_and, Nat.testBit_or, testBit_not32, Nat.testBit_two_pow]
    by_cases h32 : i < 32
    · simp [h32, Ne.symm hi]
    · simp [h32, hw32 i (by omega), Ne.symm hi]

/-- The pulse of `SYS_ResetModule` on the reset-control word `0x21`, offset 0, bit 5. -/
theorem SYS_ResetModule_pulse_witness :
    ((SYS_ResetModule sampleHeader ram (0 * 16777216 + 5)
        (Run.start (Mem.single 0x40000008 0x21))).dev.loadWord
          ((sampleHeader.IPRST0 + 0) % 4294967296)).testBit 5 = false :=
  (SYS_ResetModule_pulse sampleHeader (Mem.single 0x40000008 0x21) 0 5 (by decide)).2.1

/-- Claim C1 as stated fails: with bit 5 of the reset-control word set before the call,
`SYS_ResetModule` for offset 0 and bit 5 leaves bit 5 clear, not equal to its value
before the call. -/
theorem SYS_ResetModule_bit_not_kept :
    ((SYS_ResetModule sampleHeader ram 5
        (Run.start (Mem.single 0x40000008 32))).dev.loadWord 0x40000008).testBit 5
      ≠ ((Mem.single 0x40000008 32).loadWord 0x40000008).testBit 5 := by
  decide

/-! ### Claim C2 -/

/-- Claim C2. When the write-busy bit of the brown-out control word reads set on every
poll, `SYS_EnableBOD` returns `SYS_ERR_TIMEOUT` for every mode and level, performs no
store at all, and only loads the brown-out control word. -/
theorem SYS_EnableBOD_stuck_busy (h : NuMicro) (d : Device σ) (i32Mode : Int)
    (u32BODLevel : Nat) (s : σ)
    (hbusy : ∀ n, busyFor d h.BODCTL h.SYS_BODCTL_WRBUSY_Msk n (Run.start s) = true) :
    ∃ r, SYS_EnableBOD h d i32Mode u32BODLevel (Run.start s) = some (h.SYS_ERR_TIMEOUT, r)
      ∧ r.stores = [] ∧ LoadsAt h.BODCTL r.log := by
  have hb := busyFor_succ_end d h.BODCTL h.SYS_BODCTL_WRBUSY_Msk (pollsU32 h.SYS_TIMEOUT) _ hbusy
  obtain ⟨l, hl, hl'⟩ := pollEnd_log d h.BODCTL h.SYS_BODCTL_WRBUSY_Msk (pollsU32 h.SYS_TIMEOUT)
    (Run.start s)
  refine ⟨_, by simp only [SYS_EnableBOD, SYS_WAIT_BODCTL_WRBUSY_eq, hb, if_false]; rfl, ?_, ?_⟩
  · rw [rd_stores, pollEnd_stores]; rfl
  · rw [rd_log, hl]
    have hl2 : LoadsAt h.BODCTL ((Run.start s).log ++ l) := by simpa [Run.start] using hl'
    exact hl2.append (LoadsAt.single _ _)

/-- `SYS_EnableBOD` on plain memory whose brown-out control word has the busy bit set. -/
theorem SYS_EnableBOD_stuck_busy_witness :
    ∃ r, SYS_EnableBOD sampleHeader ram 8 0x30000
          (Run.start (Mem.single 0x40000018 0x80000000))
        = some (sampleHeader.SYS_ERR_TIMEOUT, r)
      ∧ r.stores = [] ∧ LoadsAt sampleHeader.BODCTL r.log :=
  SYS_EnableBOD_stuck_busy sampleHeader ram 8 0x30000 (Mem.single 0x40000018 0x80000000)
    (fun n => busyFor_ram _ _ n _ (by decide))

/-! ### Claim C3 -/

/-- Claim C3. On plain memory whose brown-out control word `v` has the write-busy bit
clear, for a mode contained in the reset-enable mask and a level contained in the
level mask, `SYS_EnableBOD` returns `SYS_OK` and its single store leaves the word
equal to `(v & ~(BODRSTEN | BODVL)) | mode | level | BODEN`: the reset-enable field
holds `mode`, the level field holds `level`, the enable bit is set, and every other
bit is the same as in `v`. -/
theorem SYS_EnableBOD_fields (h : NuMicro) (m : Mem) (mode level : Nat)
    (hf : h.bodFields)
    (hclear : m.loadWord h.BODCTL &&& h.SYS_BODCTL_WRBUSY_Msk = 0)
    (hmode : mode &&& h.SYS_BODCTL_BODRSTEN_Msk = mode)
    (hlevel : level &&& h.SYS_BODCTL_BODVL_Msk = level) :
    ∃ r, SYS_EnableBOD h ram (mode : Int) level (Run.start m) = some (h.SYS_OK, r)
      ∧ r.stores = [Access.store h.BODCTL (r.dev.loadWord h.BODCTL)]
      ∧ r.dev.loadWord h.BODCTL
          = (m.loadWord h.BODCTL
              &&& not32 (h.SYS_BODCTL_BODRSTEN_Msk ||| h.SYS_BODCTL_BODVL_Msk))
            ||| mode ||| level ||| h.SYS_BODCTL_BODEN_Msk
      ∧ (∀ i, h.SYS_BODCTL_BODRSTEN_Msk.testBit i = true →
          (r.dev.loadWord h.BODCTL).testBit i = mode.testBit i)
      ∧ (∀ i, h.SYS_BODCTL_BODVL_Msk.testBit i = true →
          (r.dev.loadWord h.BODCTL).testBit i = level.testBit i)
      ∧ (∀ i, h.SYS_BODCTL_BODEN_Msk.testBit i = true →
          (r.dev.loadWord h.BODCTL).testBit i = true)
      ∧ (∀ i, h.SYS_BODCTL_BODRSTEN_Msk.testBit i = false →
          h.SYS_BODCTL_BODVL_Msk.testBit i = false →
          h.SYS_BODCTL_BODEN_Msk.testBit i = false →
          (r.dev.loadWord h.BODCTL).testBit i = (m.loadWord h.BODCTL).testBit i) := by
  obtain ⟨hR, hV, hE, hRV, hRE, hVE⟩ := hf
  have hv := Mem.loadWord_lt m h.BODCTL
  have hmode32 : mode < 4294967296 := lt_of_le_of_lt (le_of_and_eq_self hmode) hR
  have hlevel32 : level < 4294967296 := lt_of_le_of_lt (le_of_and_eq_self hlevel) hV
  have hw : (m.loadWord h.BODCTL
              &&& not32 (h.SYS_BODCTL_BODRSTEN_Msk ||| h.SYS_BODCTL_BODVL_Msk))
            ||| mode ||| level ||| h.SYS_BODCTL_BODEN_Msk < 4294967296 :=
    Nat.or_lt_two_pow (n := 32) (Nat.or_lt_two_pow (n := 32) (Nat.or_lt_two_pow (n := 32)
      (Nat.and_lt_two_pow (n := 32) _ (not32_lt _)) hmode32) hlevel32) hE
  have hres : SYS_EnableBOD h ram (mode : Int) level (Run.start m)
      = some (h.SYS_OK, wr ram h.BODCTL ((m.loadWord h.BODCTL
              &&& not32 (h.SYS_BODCTL_BODRSTEN_Msk ||| h.SYS_BODCTL_BODVL_Msk))
            ||| mode ||| level ||| h.SYS_BODCTL_BODEN_Msk)
          (rd ram h.BODCTL (rd ram h.BODCTL (rd ram h.BODCTL (Run.start m)).2).2).2) := by
    simp only [SYS_EnableBOD, SYS_WAIT_BODCTL_WRBUSY_eq, ram_wait_clear h m hclear, rd_ram_val,
      rd_ram_dev, Run.start_dev, hclear, if_true, castU32_natCast, Nat.mod_eq_of_lt hmode32]
  have h3 : (wr ram h.BODCTL ((m.loadWord h.BODCTL
              &&& not32 (h.SYS_BODCTL_BODRSTEN_Msk ||| h.SYS_BODCTL_BODVL_Msk))
            ||| mode ||| level ||| h.SYS_BODCTL_BODEN_Msk)
          (rd ram h.BODCTL (rd ram h.BODCTL (rd ram h.BODCTL
            (Run.start m)).2).2).2).dev.loadWord h.BODCTL
        = (m.loadWord h.BODCTL
              &&& not32 (h.SYS_BODCTL_BODRSTEN_Msk ||| h.SYS_BODCTL_BODVL_Msk))
            ||| mode ||| level ||| h.SYS_BODCTL_BODEN_Msk := by
    rw [wr_ram_dev, Mem.loadWord_storeWord, Nat.mod_mod, Nat.mod_eq_of_lt hw]
  refine ⟨_, hres, ?_, h3, ?_, ?_, ?_, ?_⟩
  · rw [h3, wr_stores, rd_stores, rd_stores, rd_stores, Nat.mod_eq_of_lt hw]
    rfl
  · intro i hi
    have hVi : h.SYS_BODCTL_BODVL_Msk.testBit i = false := testBit_of_and_eq_zero hRV i hi
    have hEi : h.SYS_BODCTL_BODEN_Msk.testBit i = false := testBit_of_and_eq_zero hRE i hi
    have hli := testBit_of_and_eq_self hlevel i hVi
    simp [h3, testBit_not32, hi, hVi, hEi, hli]
  · intro i hi
    have hRi : h.SYS_BODCTL_BODRSTEN_Msk.testBit i = false := by
      rw [Nat.and_comm] at hRV; exact testBit_of_and_eq_zero hRV i hi
    have hEi : h.SYS_BODCTL_BODEN_Msk.testBit i = false := testBit_of_and_eq_zero hVE i hi
    have hmi := testBit_of_and_eq_self hmode i hRi
    simp [h3, testBit_not32, hi, hRi, hEi, hmi]
  · intro i hi
    simp [h3, hi]
  · intro i hRi hVi hEi
    have hmi := testBit_of_and_eq_self hmode i hRi
    have hli := testBit_of_and_eq_self hlevel i hVi
    have hv32 : 32 ≤ i → (m.loadWord h.BODCTL).testBit i = false := fun hj =>
      Nat.testBit_lt_two_pow (lt_of_lt_of_le hv (Nat.pow_le_pow_right (n := 2) (by decide) hj))
    by_cases h32 : i < 32
    · simp [h3, testBit_not32, hRi, hVi, hEi, hmi, hli, h32]
    · simp [h3, testBit_not32, hRi, hVi, hEi, hmi, hli, h32, hv32 (by omega)]

/-- `SYS_EnableBOD` with reset mode and level 3 on the brown-out control word
`0x50081`. -/
theorem SYS_EnableBOD_fields_witness :
    ∃ r, SYS_EnableBOD sampleHeader ram ((8 : Nat) : Int) 0x30000
          (Run.start (Mem.single 0x40000018 0x50081))
        = some (sampleHeader.SYS_OK, r)
      ∧ r.dev.loadWord sampleHeader.BODCTL = 0x30089 := by
  obtain ⟨r, h1, _, h3, _⟩ := SYS_EnableBOD_fields sampleHeader (Mem.single 0x40000018 0x50081)
    8 0x30000 (by decide) (by decide) (by decide) (by decide)
  exact ⟨r, h1, h3.trans (by decide)⟩

/-! ### Claim C4 -/

/-- Claim C4. On plain memory whose brown-out control word `v` has the write-busy bit
clear, `SYS_DisableBOD` returns `SYS_OK` and its single store leaves the word equal
to `v` with the enable bit cleared and every other bit preserved; on a device whose
write-busy bit reads set on every poll it returns `SYS_ERR_TIMEOUT` and stores
nothing. -/
theorem SYS_DisableBOD_effect (h : NuMicro) (m : Mem) (d : Device σ) (s : σ)
    (hclear : m.loadWord h.BODCTL &&& h.SYS_BODCTL_WRBUSY_Msk = 0)
    (hbusy : ∀ n, busyFor d h.BODCTL h.SYS_BODCTL_WRBUSY_Msk n (Run.start s) = true) :
    (∃ r, SYS_DisableBOD h ram (Run.start m) = some (h.SYS_OK, r)
      ∧ r.stores = [Access.store h.BODCTL (r.dev.loadWord h.BODCTL)]
      ∧ r.dev.loadWord h.BODCTL = m.loadWord h.BODCTL &&& not32 h.SYS_BODCTL_BODEN_Msk
      ∧ (∀ i, h.SYS_BODCTL_BODEN_Msk.testBit i = true →
          (r.dev.loadWord h.BODCTL).testBit i = false)
      ∧ (∀ i, h.SYS_BODCTL_BODEN_Msk.testBit i = false →
          (r.dev.loadWord h.BODCTL).testBit i = (m.loadWord h.BODCTL).testBit i))
    ∧ (∃ r, SYS_DisableBOD h d (Run.start s) = some (h.SYS_ERR_TIMEOUT, r)
      ∧ r.stores = [] ∧ LoadsAt h.BODCTL r.log) := by
  constructor
  · have hv := Mem.loadWord_lt m h.BODCTL
    have hw : m.loadWord h.BODCTL &&& not32 h.SYS_BODCTL_BODEN_Msk < 4294967296 :=
      Nat.and_lt_two_pow (n := 32) _ (not32_lt _)
    have hres : SYS_DisableBOD h ram (Run.start m)
        = some (h.SYS_OK, wr ram h.BODCTL
            (m.loadWord h.BODCTL &&& not32 h.SYS_BODCTL_BODEN_Msk)
            (rd ram h.BODCTL (rd ram h.BODCTL (rd ram h.BODCTL (Run.start m)).2).2).2) := by
      simp only [SYS_DisableBOD, SYS_WAIT_BODCTL_WRBUSY_eq, ram_wait_clear h m hclear,
        rd_ram_val, rd_ram_dev, Run.start_dev, hclear, if_true]
    have h3 : (wr ram h.BODCTL (m.loadWord h.BODCTL &&& not32 h.SYS_BODCTL_BODEN_Msk)
            (rd ram h.BODCTL (rd ram h.BODCTL (rd ram h.BODCTL
              (Run.start m)).2).2).2).dev.loadWord h.BODCTL
          = m.loadWord h.BODCTL &&& not32 h.SYS_BODCTL_BODEN_Msk := by
      rw [wr_ram_dev, Mem.loadWord_storeWord, Nat.mod_mod, Nat.mod_eq_of_lt hw]
    refine ⟨_, hres, ?_, h3, ?_, ?_⟩
    · rw [h3, wr_stores, rd_stores, rd_stores, rd_stores, Nat.mod_eq_of_lt hw]
      rfl
    · intro i hi
      simp [h3, testBit_not32, hi]
    · intro i hi
      have hv32 : 32 ≤ i → (m.loadWord h.BODCTL).testBit i = false := fun hj =>
        Nat.testBit_lt_two_pow (lt_of_lt_of_le hv (Nat.pow_le_pow_right (n := 2) (by decide) hj))
      by_cases h32 : i < 32
      · simp [h3, testBit_not32, hi, h32]
      · simp [h3, testBit_not32, hi, h32, hv32 (by omega)]
  · have hb := busyFor_succ_end d h.BODCTL h.SYS_BODCTL_WRBUSY_Msk (pollsU32 h.SYS_TIMEOUT) _
      hbusy
    obtain ⟨l, hl, hl'⟩ := pollEnd_log d h.BODCTL h.SYS_BODCTL_WRBUSY_Msk
      (pollsU32 h.SYS_TIMEOUT) (Run.start s)
    refine ⟨_, by simp only [SYS_DisableBOD, SYS_WAIT_BODCTL_WRBUSY_eq, hb, if_false]; rfl,
      ?_, ?_⟩
    · rw [rd_stores, pollEnd_stores]; rfl
    · rw [rd_log, hl]
      have hl2 : LoadsAt h.BODCTL ((Run.start s).log ++ l) := by simpa [Run.start] using hl'
      exact hl2.append (LoadsAt.single _ _)

/-- `SYS_DisableBOD` on the brown-out control words `0x50081` and `0x80000001`. -/
theorem SYS_DisableBOD_effect_witness :
    (∃ r, SYS_DisableBOD sampleHeader ram (Run.start (Mem.single 0x40000018 0x50081))
        = some (sampleHeader.SYS_OK, r)
      ∧ r.dev.loadWord sampleHeader.BODCTL = 0x50080)
    ∧ (∃ r, SYS_DisableBOD sampleHeader ram (Run.start (Mem.single 0x40000018 0x80000001))
        = some (sampleHeader.SYS_ERR_TIMEOUT, r) ∧ r.stores = []) := by
  obtain ⟨⟨r, h1, _, h3, _⟩, ⟨r', h1', h2', _⟩⟩ :=
    SYS_DisableBOD_effect sampleHeader (Mem.single 0x40000018 0x50081) ram
      (Mem.single 0x40000018 0x80000001) (by decide)
      (fun n => busyFor_ram _ _ n _ (by decide))
  exact ⟨⟨r, h1, h3.trans (by decide)⟩, ⟨r', h1', h2'⟩⟩

/-! ### Claim C5 -/

/-- Claim C5. When the write-busy bit of the power-level control word reads set on every
poll, `SYS_SetPowerLevel` returns -1 for every requested level and performs no store:
it only loads the power-level control word. -/
theorem SYS_SetPowerLevel_stuck_busy (h : NuMicro) (d : Device σ) (u32PowerLevel : Nat) (s : σ)
    (hbusy : ∀ n, busyFor d h.PLCTL h.SYS_PLCTL_WRBUSY_Msk n (Run.start s) = true) :
    ∃ r, SYS_SetPowerLevel h d u32PowerLevel (Run.start s) = some (-1, r)
      ∧ r.stores = [] ∧ LoadsAt h.PLCTL r.log := by
  obtain ⟨l, hl, hl'⟩ := pollEnd_log d h.PLCTL h.SYS_PLCTL_WRBUSY_Msk
    (pollsU32 h.SYS_TIMEOUT) (Run.start s)
  refine ⟨pollEnd d h.PLCTL h.SYS_PLCTL_WRBUSY_Msk (pollsU32 h.SYS_TIMEOUT) (Run.start s),
    ?_, ?_, ?_⟩
  · simp only [SYS_SetPowerLevel, pollU32_budget, hbusy, Bool.not_true]
  · rw [pollEnd_stores]; rfl
  · rw [hl]; simpa [Run.start] using hl'

/-- `SYS_SetPowerLevel` on plain memory whose control word has the busy bit set. -/
theorem SYS_SetPowerLevel_stuck_busy_witness :
    ∃ r, SYS_SetPowerLevel sampleHeader ram 1 (Run.start (Mem.single 0x400001F8 0x80))
        = some (-1, r)
      ∧ r.stores = [] ∧ LoadsAt sampleHeader.PLCTL r.log :=
  SYS_SetPowerLevel_stuck_busy sampleHeader ram 1 (Mem.single 0x400001F8 0x80)
    (fun n => busyFor_ram _ _ n _ (by decide))

/-! ### Claim C6 -/

/-- Claim C6. For every device, `SYS_SetPowerLevel` returns 0 or -1, and 0 exactly when
the write-busy bit reads clear within the `pollsU32 SYS_TIMEOUT` polls of the first
wait and then the change-busy bit reads clear within the polls of the second wait.
When the first wait succeeds the run contains exactly one store, of the value read
from the power-level control word with the level field cleared and the level OR-ed
in, whether or not the second wait times out; when the first wait fails there is no
store. -/
theorem SYS_SetPowerLevel_result (h : NuMicro) (d : Device σ) (u32PowerLevel : Nat) (s : σ) :
    ∃ res r, SYS_SetPowerLevel h d u32PowerLevel (Run.start s) = some (res, r)
      ∧ (res = 0 ∨ res = -1)
      ∧ (res = 0 ↔
          busyFor d h.PLCTL h.SYS_PLCTL_WRBUSY_Msk (pollsU32 h.SYS_TIMEOUT) (Run.start s) = false
          ∧ busyFor d h.PLSTS h.SYS_PLSTS_PLCBUSY_Msk (pollsU32 h.SYS_TIMEOUT)
              (wr d h.PLCTL
                (((rd d h.PLCTL (pollEnd d h.PLCTL h.SYS_PLCTL_WRBUSY_Msk
                      (pollsU32 h.SYS_TIMEOUT) (Run.start s))).1
                    &&& not32 h.SYS_PLCTL_PLSEL_Msk) ||| u32PowerLevel)
                (rd d h.PLCTL (pollEnd d h.PLCTL h.SYS_PLCTL_WRBUSY_Msk
                      (pollsU32 h.SYS_TIMEOUT) (Run.start s))).2) = false)
      ∧ (busyFor d h.PLCTL h.SYS_PLCTL_WRBUSY_Msk (pollsU32 h.SYS_TIMEOUT) (Run.start s) = false →
          r.stores = [Access.store h.PLCTL
            ((((rd d h.PLCTL (pollEnd d h.PLCTL h.SYS_PLCTL_WRBUSY_Msk
                      (pollsU32 h.SYS_TIMEOUT) (Run.start s))).1
                    &&& not32 h.SYS_PLCTL_PLSEL_Msk) ||| u32PowerLevel) % 4294967296)])
      ∧ (busyFor d h.PLCTL h.SYS_PLCTL_WRBUSY_Msk (pollsU32 h.SYS_TIMEOUT) (Run.start s) = true →
          r.stores = []) := by
  cases h1 : busyFor d h.PLCTL h.SYS_PLCTL_WRBUSY_Msk (pollsU32 h.SYS_TIMEOUT) (Run.start s) with
  | true =>
    refine ⟨-1, pollEnd d h.PLCTL h.SYS_PLCTL_WRBUSY_Msk (pollsU32 h.SYS_TIMEOUT) (Run.start s),
      ?_, Or.inr rfl, by simp, by simp, ?_⟩
    · simp only [SYS_SetPowerLevel, pollU32_budget, h1, Bool.not_true]
    · intro _; rw [pollEnd_stores]; rfl
  | false =>
    cases h2 : busyFor d h.PLSTS h.SYS_PLSTS_PLCBUSY_Msk (pollsU32 h.SYS_TIMEOUT)
              (wr d h.PLCTL
                (((rd d h.PLCTL (pollEnd d h.PLCTL h.SYS_PLCTL_WRBUSY_Msk
                      (pollsU32 h.SYS_TIMEOUT) (Run.start s))).1
                    &&& not32 h.SYS_PLCTL_PLSEL_Msk) ||| u32PowerLevel)
                (rd d h.PLCTL (pollEnd d h.PLCTL h.SYS_PLCTL_WRBUSY_Msk
                      (pollsU32 h.SYS_TIMEOUT) (Run.start s))).2) with
    | true =>
      refine ⟨-1, pollEnd d h.PLSTS h.SYS_PLSTS_PLCBUSY_Msk (pollsU32 h.SYS_TIMEOUT)
              (wr d h.PLCTL
                (((rd d h.PLCTL (pollEnd d h.PLCTL h.SYS_PLCTL_WRBUSY_Msk
                      (pollsU32 h.SYS_TIMEOUT) (Run.start s))).1
                    &&& not32 h.SYS_PLCTL_PLSEL_Msk) ||| u32PowerLevel)
                (rd d h.PLCTL (pollEnd d h.PLCTL h.SYS_PLCTL_WRBUSY_Msk
                      (pollsU32 h.SYS_TIMEOUT) (Run.start s))).2), ?_, Or.inr rfl, by simp, ?_, by simp⟩
      · simp only [SYS_SetPowerLevel, pollU32_budget, h1, h2, Bool.not_true, Bool.not_false]
      · intro _
        rw [pollEnd_stores, wr_stores, rd_stores, pollEnd_stores]; rfl
    | false =>
      refine ⟨0, pollEnd d h.PLSTS h.SYS_PLSTS_PLCBUSY_Msk (pollsU32 h.SYS_TIMEOUT)
              (wr d h.PLCTL
                (((rd d h.PLCTL (pollEnd d h.PLCTL h.SYS_PLCTL_WRBUSY_Msk
                      (pollsU32 h.SYS_TIMEOUT) (Run.start s))).1
                    &&& not32 h.SYS_PLCTL_PLSEL_Msk) ||| u32PowerLevel)
                (rd d h.PLCTL (pollEnd d h.PLCTL h.SYS_PLCTL_WRBUSY_Msk
                      (pollsU32 h.SYS_TIMEOUT) (Run.start s))).2), ?_, Or.inl rfl, by simp, ?_, by simp⟩
      · simp only [SYS_SetPowerLevel, pollU32_budget, h1, h2, Bool.not_true, Bool.not_false]
      · intro _
        rw [pollEnd_stores, wr_stores, rd_stores, pollEnd_stores]; rfl

/-! ### Claim C7 -/

/-- Claim C7. `SYS_SetPowerRegulator` with target DCDC, when the status first reads LDO,
neither wait times out and the error flag reads clear: the result is 1 if the status
read after the change-busy wait equals DCDC, and 0, which is not `SYS_ERR_TIMEOUT`,
if it does not; in both cases the only store of the run is the power-level control
word with the regulator-type bit OR-ed in. -/
theorem SYS_SetPowerRegulator_dcdc_from_ldo (h : NuMicro) (d : Device σ) (s : σ)
    (hcode : h.timeoutDistinct)
    (hldo : (rd d h.PLSTS (Run.start s)).1 &&& h.SYS_PLSTS_CURMVR_Msk = h.SYS_PLSTS_CURMVR_LDO)
    (hwait1 : busyFor d h.PLCTL h.SYS_PLCTL_WRBUSY_Msk (pollsI32 (castI32 h.SYS_TIMEOUT))
        (rd d h.PLSTS (Run.start s)).2 = false)
    (hwait2 : busyFor d h.PLSTS h.SYS_PLSTS_MVRCBUSY_Msk (pollsI32 (castI32 h.SYS_TIMEOUT))
        (afterCtlStore h d (fun v => v ||| h.SYS_PLCTL_MVRS_Msk)
          (rd d h.PLSTS (Run.start s)).2) = false)
    (herr : (rd d h.PLSTS (rd d h.PLSTS (afterChangeBusyWait h d
        (fun v => v ||| h.SYS_PLCTL_MVRS_Msk) (rd d h.PLSTS (Run.start s)).2)).2).1
          &&& h.SYS_PLSTS_MVRCERR_Msk = 0) :
    ∃ res r, SYS_SetPowerRegulator h d h.SYS_PLCTL_MVRS_DCDC (Run.start s) = some (res, r)
      ∧ ((rd d h.PLSTS (afterChangeBusyWait h d (fun v => v ||| h.SYS_PLCTL_MVRS_Msk)
            (rd d h.PLSTS (Run.start s)).2)).1 &&& h.SYS_PLSTS_CURMVR_Msk
          = h.SYS_PLSTS_CURMVR_DCDC → res = 1)
      ∧ ((rd d h.PLSTS (afterChangeBusyWait h d (fun v => v ||| h.SYS_PLCTL_MVRS_Msk)
            (rd d h.PLSTS (Run.start s)).2)).1 &&& h.SYS_PLSTS_CURMVR_Msk
          ≠ h.SYS_PLSTS_CURMVR_DCDC → res = 0 ∧ res ≠ h.SYS_ERR_TIMEOUT)
      ∧ r.stores = [Access.store h.PLCTL
          (((rd d h.PLCTL (afterWriteBusyWait h d (rd d h.PLSTS (Run.start s)).2)).1
            ||| h.SYS_PLCTL_MVRS_Msk) % 4294967296)] := by
  have hatt : regulatorAttempt h d h.SYS_PLCTL_MVRS_DCDC (Run.start s)
      = some (Sum.inr
          (if (rd d h.PLSTS (afterChangeBusyWait h d (fun v => v ||| h.SYS_PLCTL_MVRS_Msk)
              (rd d h.PLSTS (Run.start s)).2)).1 &&& h.SYS_PLSTS_CURMVR_Msk
              = h.SYS_PLSTS_CURMVR_DCDC then 1 else 0,
           (rd d h.PLSTS (afterChangeBusyWait h d (fun v => v ||| h.SYS_PLCTL_MVRS_Msk)
              (rd d h.PLSTS (Run.start s)).2)).2)) := by
    simp only [regulatorAttempt, hldo, and_self, if_true, regulatorBranch_eq, hwait1, hwait2,
      Bool.false_eq_true, if_false]
  refine ⟨_, _, by simp only [SYS_SetPowerRegulator, hatt, regulatorErrorCheck, herr, ne_eq,
    not_true_eq_false, if_false]; rfl, ?_, ?_, ?_⟩
  · intro hc
    simp [hc, castI32_one]
  · intro hc
    simp only [hc, if_false, castI32_zero]
    exact ⟨trivial, fun e => hcode.1 e.symm⟩
  · rw [rd_stores, rd_stores, afterChangeBusyWait_stores, rd_stores]
    rfl

/-- `SYS_SetPowerRegulator` to DCDC from LDO: on a simulated regulator that follows
the request the result is 1, on plain memory, whose status stays LDO, it is 0. -/
theorem SYS_SetPowerRegulator_dcdc_from_ldo_witness :
    (∃ r, SYS_SetPowerRegulator sampleHeader (regulatorStub 0x400001F8 0x400001FC 0x10 0x1000)
          sampleHeader.SYS_PLCTL_MVRS_DCDC (Run.start (fun _ => 0)) = some (1, r)
        ∧ r.stores = [Access.store 0x400001F8 0x10])
      ∧ (∃ r, SYS_SetPowerRegulator sampleHeader ram
          sampleHeader.SYS_PLCTL_MVRS_DCDC (Run.start (fun _ => 0)) = some (0, r)
        ∧ r.stores = [Access.store 0x400001F8 0x10]) := by
  obtain ⟨res, r, h1, h2, _, h4⟩ := SYS_SetPowerRegulator_dcdc_from_ldo sampleHeader
    (regulatorStub 0x400001F8 0x400001FC 0x10 0x1000) (fun _ => 0)
    (by decide) (by decide) (by decide) (by decide) (by decide)
  obtain ⟨res', r', h1', _, h3', h4'⟩ := SYS_SetPowerRegulator_dcdc_from_ldo sampleHeader
    ram (fun _ => 0) (by decide) (by decide) (by decide) (by decide) (by decide)
  have hres : res = 1 := h2 (by decide)
  have hres' : res' = 0 := (h3' (by decide)).1
  subst hres
  subst hres'
  exact ⟨⟨r, h1, h4.trans (by decide)⟩, ⟨r', h1', h4'.trans (by decide)⟩⟩

/-! ### Claim C8 -/

/-- Claim C8, as amended. `SYS_SetPowerRegulator` returns 0, 1 or `SYS_ERR_TIMEOUT`.
For target DCDC when the status already reads DCDC and the error flag reads clear,
no register is written, the run only loads the status word, and the result is 1.
The result 1 is returned only when neither branch is taken or when the status read
after the change-busy wait of the taken branch equals the requested type. -/
theorem SYS_SetPowerRegulator_values (h : NuMicro) (d : Device σ) (target : Nat) (s : σ) :
    (∃ res r, SYS_SetPowerRegulator h d target (Run.start s) = some (res, r)
        ∧ (res = 0 ∨ res = 1 ∨ res = h.SYS_ERR_TIMEOUT))
      ∧ (h.regulatorTypesDistinct → target = h.SYS_PLCTL_MVRS_DCDC →
          (rd d h.PLSTS (Run.start s)).1 &&& h.SYS_PLSTS_CURMVR_Msk = h.SYS_PLSTS_CURMVR_DCDC →
          (rd d h.PLSTS (rd d h.PLSTS (Run.start s)).2).1 &&& h.SYS_PLSTS_MVRCERR_Msk = 0 →
          ∃ r, SYS_SetPowerRegulator h d target (Run.start s) = some (1, r)
            ∧ r.stores = [] ∧ LoadsAt h.PLSTS r.log)
      ∧ (h.timeoutDistinct →
          ∀ r, SYS_SetPowerRegulator h d target (Run.start s) = some (1, r) →
            (¬ (target = h.SYS_PLCTL_MVRS_DCDC
                  ∧ (rd d h.PLSTS (Run.start s)).1 &&& h.SYS_PLSTS_CURMVR_Msk
                      = h.SYS_PLSTS_CURMVR_LDO)
                ∧ target ≠ h.SYS_PLCTL_MVRS_LDO)
            ∨ (target = h.SYS_PLCTL_MVRS_DCDC
                ∧ (rd d h.PLSTS (afterChangeBusyWait h d (fun v => v ||| h.SYS_PLCTL_MVRS_Msk)
                    (rd d h.PLSTS (Run.start s)).2)).1 &&& h.SYS_PLSTS_CURMVR_Msk
                  = h.SYS_PLSTS_CURMVR_DCDC)
            ∨ (target = h.SYS_PLCTL_MVRS_LDO
                ∧ (rd d h.PLSTS (afterChangeBusyWait h d
                    (fun v => v &&& not32 h.SYS_PLCTL_MVRS_Msk)
                    (rd d h.PLSTS (Run.start s)).2)).1 &&& h.SYS_PLSTS_CURMVR_Msk
                  = h.SYS_PLSTS_CURMVR_LDO)) := by
  refine ⟨?_, ?_, ?_⟩
  · rcases regulatorAttempt_values h d target (Run.start s) with ⟨r1, e⟩ | ⟨r1, e⟩ | ⟨r1, e⟩
    · exact ⟨h.SYS_ERR_TIMEOUT, r1, by simp only [SYS_SetPowerRegulator, e],
        Or.inr (Or.inr rfl)⟩
    · refine ⟨(regulatorErrorCheck h d 0 r1).1, (regulatorErrorCheck h d 0 r1).2,
        by simp only [SYS_SetPowerRegulator, e], ?_⟩
      rcases regulatorErrorCheck_values h d 0 r1 (Or.inl rfl) with e0 | e1
      · exact Or.inl e0
      · exact Or.inr (Or.inl e1)
    · refine ⟨(regulatorErrorCheck h d 1 r1).1, (regulatorErrorCheck h d 1 r1).2,
        by simp only [SYS_SetPowerRegulator, e], ?_⟩
      rcases regulatorErrorCheck_values h d 1 r1 (Or.inr rfl) with e0 | e1
      · exact Or.inl e0
      · exact Or.inr (Or.inl e1)
  · intro hdist htarget hdcdc herr
    subst htarget
    have hatt : regulatorAttempt h d h.SYS_PLCTL_MVRS_DCDC (Run.start s)
        = some (Sum.inr (1, (rd d h.PLSTS (Run.start s)).2)) := by
      simp only [regulatorAttempt, hdcdc, hdist.1, hdist.2, and_false, if_false]
    refine ⟨(rd d h.PLSTS (rd d h.PLSTS (Run.start s)).2).2, ?_, ?_, ?_⟩
    · simp only [SYS_SetPowerRegulator, hatt, regulatorErrorCheck, herr, ne_eq,
        not_true_eq_false, if_false, castI32_one]
    · rw [rd_stores, rd_stores]; rfl
    · rw [rd_log, rd_log]
      exact (LoadsAt.single _ _).append (LoadsAt.single _ _)
  · intro hcode r hres
    by_cases c1 : target = h.SYS_PLCTL_MVRS_DCDC
        ∧ (rd d h.PLSTS (Run.start s)).1 &&& h.SYS_PLSTS_CURMVR_Msk = h.SYS_PLSTS_CURMVR_LDO
    · refine Or.inr (Or.inl ⟨c1.1, ?_⟩)
      simp only [SYS_SetPowerRegulator, regulatorAttempt, c1, and_self, if_true] at hres
      exact regulatorBranch_one h d _ _ _ r hcode hres
    · by_cases c2 : target = h.SYS_PLCTL_MVRS_LDO
      · refine Or.inr (Or.inr ⟨c2, ?_⟩)
        simp only [SYS_SetPowerRegulator, regulatorAttempt, c1, if_false, c2, if_true] at hres
        have c1' : ¬ (h.SYS_PLCTL_MVRS_LDO = h.SYS_PLCTL_MVRS_DCDC
            ∧ (rd d h.PLSTS (Run.start s)).1 &&& h.SYS_PLSTS_CURMVR_Msk
              = h.SYS_PLSTS_CURMVR_LDO) := by rw [← c2]; exact c1
        simp only [c1', if_false] at hres
        exact regulatorBranch_one h d _ _ _ r hcode hres
      · exact Or.inl ⟨c1, c2⟩

/-- `SYS_SetPowerRegulator` to DCDC on plain memory whose status already reads DCDC. -/
theorem SYS_SetPowerRegulator_values_witness :
    ∃ r, SYS_SetPowerRegulator sampleHeader ram 0x10
          (Run.start (Mem.single 0x400001FC 0x1000)) = some (1, r)
      ∧ r.stores = [] ∧ LoadsAt sampleHeader.PLSTS r.log :=
  (SYS_SetPowerRegulator_values sampleHeader ram 0x10 (Mem.single 0x400001FC 0x1000)).2.1
    (by decide) rfl (by decide) (by decide)

/-- Claim C8 as stated fails: with target DCDC, the status already reading DCDC and the
error flag clear, `SYS_SetPowerRegulator` writes nothing and returns 1, not 0. -/
theorem SYS_SetPowerRegulator_noop_returns_one :
    (rd ram sampleHeader.PLSTS (Run.start (Mem.single 0x400001FC 0x1000))).1
        &&& sampleHeader.SYS_PLSTS_CURMVR_Msk = sampleHeader.SYS_PLSTS_CURMVR_DCDC
      ∧ (SYS_SetPowerRegulator sampleHeader ram sampleHeader.SYS_PLCTL_MVRS_DCDC
          (Run.start (Mem.single 0x400001FC 0x1000))).map (fun p => (p.1, p.2.stores))
        = some (1, [])
      ∧ (SYS_SetPowerRegulator sampleHeader ram sampleHeader.SYS_PLCTL_MVRS_DCDC
          (Run.start (Mem.single 0x400001FC 0x1000))).map Prod.fst ≠ some 0 := by
  decide

/-! ### Claim C9 -/

/-- Claim C9. In a run of `SYS_SetPowerRegulator` whose first part ends without a
timeout, with value `u` of `u32Ret` and in run `r1`, whichever branch was taken: the
status word has not been written so far; if the error flag then reads set, the run
ends with the store of exactly the error-flag mask to the status word and the result
is 0; if it reads clear, the run ends with that load and the result is `u`. -/
theorem SYS_SetPowerRegulator_error_flag (h : NuMicro) (d : Device σ) (target : Nat) (s : σ)
    (u : Nat) (r1 : Run σ) (haddr : h.PLSTS ≠ h.PLCTL)
    (hatt : regulatorAttempt h d target (Run.start s) = some (Sum.inr (u, r1))) :
    (∀ v, Access.store h.PLSTS v ∉ r1.log)
      ∧ ((rd d h.PLSTS r1).1 &&& h.SYS_PLSTS_MVRCERR_Msk ≠ 0 →
          ∃ r, SYS_SetPowerRegulator h d target (Run.start s) = some (0, r)
            ∧ r.log = r1.log ++ [Access.load h.PLSTS (rd d h.PLSTS r1).1,
                Access.store h.PLSTS (h.SYS_PLSTS_MVRCERR_Msk % 4294967296)])
      ∧ ((rd d h.PLSTS r1).1 &&& h.SYS_PLSTS_MVRCERR_Msk = 0 →
          ∃ r, SYS_SetPowerRegulator h d target (Run.start s) = some ((u : Int), r)
            ∧ r.log = r1.log ++ [Access.load h.PLSTS (rd d h.PLSTS r1).1]) := by
  have hu : u = 0 ∨ u = 1 := by
    rcases regulatorAttempt_values h d target (Run.start s) with ⟨r2, e⟩ | ⟨r2, e⟩ | ⟨r2, e⟩
    · rw [e] at hatt; simp at hatt
    · rw [e] at hatt
      simp only [Option.some.injEq, Sum.inr.injEq, Prod.mk.injEq] at hatt
      exact Or.inl hatt.1.symm
    · rw [e] at hatt
      simp only [Option.some.injEq, Sum.inr.injEq, Prod.mk.injEq] at hatt
      exact Or.inr hatt.1.symm
  refine ⟨?_, ?_, ?_⟩
  · intro v hv
    have hm := mem_stores hv
    rcases regulatorAttempt_stores h d target s r1 u hatt with e | ⟨x, e⟩
    · rw [e] at hm; simp at hm
    · rw [e] at hm
      simp only [List.mem_singleton, Access.store.injEq] at hm
      exact haddr hm.1
  · intro he
    refine ⟨wr d h.PLSTS h.SYS_PLSTS_MVRCERR_Msk (rd d h.PLSTS r1).2, ?_, ?_⟩
    · simp only [SYS_SetPowerRegulator, hatt, regulatorErrorCheck, he, ne_eq,
        not_false_eq_true, if_true, castI32_zero]
    · rw [wr_log, rd_log, List.append_assoc]; rfl
  · intro he
    refine ⟨(rd d h.PLSTS r1).2, ?_, rd_log _ _ _⟩
    rcases hu with rfl | rfl
    · simp only [SYS_SetPowerRegulator, hatt, regulatorErrorCheck, he, ne_eq,
        not_true_eq_false, if_false, castI32_zero]; rfl
    · simp only [SYS_SetPowerRegulator, hatt, regulatorErrorCheck, he, ne_eq,
        not_true_eq_false, if_false, castI32_one]; rfl

/-- `SYS_SetPowerRegulator` to DCDC on a simulated regulator that follows the request
while the error flag is set. -/
theorem SYS_SetPowerRegulator_error_flag_witness :
    ∃ r, SYS_SetPowerRegulator sampleHeader (regulatorStub 0x400001F8 0x400001FC 0x10 0x1000)
          0x10 (Run.start (Mem.single 0x400001FC 0x4)) = some (0, r) :=
  ((SYS_SetPowerRegulator_error_flag sampleHeader
      (regulatorStub 0x400001F8 0x400001FC 0x10 0x1000) 0x10 (Mem.single 0x400001FC 0x4) 1
      (rd (regulatorStub 0x400001F8 0x400001FC 0x10 0x1000) sampleHeader.PLSTS
        (afterChangeBusyWait sampleHeader (regulatorStub 0x400001F8 0x400001FC 0x10 0x1000)
          (fun v => v ||| sampleHeader.SYS_PLCTL_MVRS_Msk)
          (rd (regulatorStub 0x400001F8 0x400001FC 0x10 0x1000) sampleHeader.PLSTS
            (Run.start (Mem.single 0x400001FC 0x4))).2)).2
      (by decide) rfl).2.1 (by decide)).imp fun _ hr => hr.1

/-! ### Claim C10 -/

/-- Claim C10. In the DCDC-from-LDO branch and in the LDO branch of
`SYS_SetPowerRegulator`: if the write-busy bit reads set on every poll, the result is
`SYS_ERR_TIMEOUT`, nothing is stored, and the run is the status load followed by the
polls of the control word; if the write-busy wait succeeds and the change-busy bit
reads set on every poll, the result is `SYS_ERR_TIMEOUT`, the only store is the
control word with the regulator-type bit changed, and the run ends with the polls of
the status word, so that the error flag is neither checked nor cleared. -/
theorem SYS_SetPowerRegulator_timeout (h : NuMicro) (d : Device σ) (target : Nat) (s : σ)
    (newCtl : Nat → Nat)
    (hbranch : (target = h.SYS_PLCTL_MVRS_DCDC
          ∧ (rd d h.PLSTS (Run.start s)).1 &&& h.SYS_PLSTS_CURMVR_Msk = h.SYS_PLSTS_CURMVR_LDO
          ∧ newCtl = fun v => v ||| h.SYS_PLCTL_MVRS_Msk)
        ∨ (¬ (target = h.SYS_PLCTL_MVRS_DCDC
              ∧ (rd d h.PLSTS (Run.start s)).1 &&& h.SYS_PLSTS_CURMVR_Msk
                = h.SYS_PLSTS_CURMVR_LDO)
          ∧ target = h.SYS_PLCTL_MVRS_LDO
          ∧ newCtl = fun v => v &&& not32 h.SYS_PLCTL_MVRS_Msk)) :
    ((∀ n, busyFor d h.PLCTL h.SYS_PLCTL_WRBUSY_Msk n (rd d h.PLSTS (Run.start s)).2 = true) →
        ∃ r l, SYS_SetPowerRegulator h d target (Run.start s) = some (h.SYS_ERR_TIMEOUT, r)
          ∧ r.stores = []
          ∧ r.log = Access.load h.PLSTS (rd d h.PLSTS (Run.start s)).1 :: l
          ∧ LoadsAt h.PLCTL l ∧ l.length = pollsI32 (castI32 h.SYS_TIMEOUT))
      ∧ (busyFor d h.PLCTL h.SYS_PLCTL_WRBUSY_Msk (pollsI32 (castI32 h.SYS_TIMEOUT))
            (rd d h.PLSTS (Run.start s)).2 = false →
          (∀ n, busyFor d h.PLSTS h.SYS_PLSTS_MVRCBUSY_Msk n
            (afterCtlStore h d newCtl (rd d h.PLSTS (Run.start s)).2) = true) →
        ∃ r l, SYS_SetPowerRegulator h d target (Run.start s) = some (h.SYS_ERR_TIMEOUT, r)
          ∧ r.stores = [Access.store h.PLCTL
              (newCtl (rd d h.PLCTL (afterWriteBusyWait h d (rd d h.PLSTS (Run.start s)).2)).1
                % 4294967296)]
          ∧ r.log = (afterCtlStore h d newCtl (rd d h.PLSTS (Run.start s)).2).log ++ l
          ∧ LoadsAt h.PLSTS l ∧ l.length = pollsI32 (castI32 h.SYS_TIMEOUT)) := by
  have hatt : regulatorAttempt h d target (Run.start s)
      = regulatorBranch h d newCtl
          (if target = h.SYS_PLCTL_MVRS_DCDC
              ∧ (rd d h.PLSTS (Run.start s)).1 &&& h.SYS_PLSTS_CURMVR_Msk
                = h.SYS_PLSTS_CURMVR_LDO
            then h.SYS_PLSTS_CURMVR_DCDC else h.SYS_PLSTS_CURMVR_LDO)
          (rd d h.PLSTS (Run.start s)).2 := by
    rcases hbranch with ⟨h1, h2, h3⟩ | ⟨h1, h2, h3⟩
    · subst h3
      simp only [regulatorAttempt, h1, h2, and_self, if_true]
    · subst h3
      subst h2
      simp only [regulatorAttempt, h1, if_false, if_true]
  constructor
  · intro hbusy
    obtain ⟨l, hl, hl', hlen⟩ := pollEnd_log_busy d h.PLCTL h.SYS_PLCTL_WRBUSY_Msk
      (pollsI32 (castI32 h.SYS_TIMEOUT)) _ (hbusy (pollsI32 (castI32 h.SYS_TIMEOUT)))
    refine ⟨afterWriteBusyWait h d (rd d h.PLSTS (Run.start s)).2, l, ?_, ?_, ?_, hl', hlen⟩
    · simp only [SYS_SetPowerRegulator, hatt, regulatorBranch_eq, hbusy, if_true]
    · rw [afterWriteBusyWait_stores, rd_stores]; rfl
    · rw [afterWriteBusyWait, hl, rd_log]; rfl
  · intro hw1 hbusy
    obtain ⟨l, hl, hl', hlen⟩ := pollEnd_log_busy d h.PLSTS h.SYS_PLSTS_MVRCBUSY_Msk
      (pollsI32 (castI32 h.SYS_TIMEOUT)) _ (hbusy (pollsI32 (castI32 h.SYS_TIMEOUT)))
    refine ⟨afterChangeBusyWait h d newCtl (rd d h.PLSTS (Run.start s)).2, l, ?_, ?_, ?_,
      hl', hlen⟩
    · simp only [SYS_SetPowerRegulator, hatt, regulatorBranch_eq, hw1, hbusy,
        Bool.false_eq_true, if_false, if_true]
    · rw [afterChangeBusyWait_stores, rd_stores]; rfl
    · rw [afterChangeBusyWait, hl]

/-- `SYS_SetPowerRegulator` on plain memory with the write-busy bit stuck, and with the
change-busy bit stuck. -/
theorem SYS_SetPowerRegulator_timeout_witness :
    (∃ r, SYS_SetPowerRegulator sampleHeader ram 0x0
          (Run.start (Mem.single 0x400001F8 0x80)) = some (sampleHeader.SYS_ERR_TIMEOUT, r)
        ∧ r.stores = [])
      ∧ (∃ r, SYS_SetPowerRegulator sampleHeader ram 0x10
          (Run.start (Mem.single 0x400001FC 0x2)) = some (sampleHeader.SYS_ERR_TIMEOUT, r)
        ∧ r.stores = [Access.store 0x400001F8 0x10]) := by
  obtain ⟨r, _, h1, h2, _⟩ := (SYS_SetPowerRegulator_timeout sampleHeader ram 0x0
    (Mem.single 0x400001F8 0x80) (fun v => v &&& not32 sampleHeader.SYS_PLCTL_MVRS_Msk)
    (Or.inr ⟨by decide, rfl, rfl⟩)).1 (fun n => busyFor_ram _ _ n _ (by decide))
  obtain ⟨r', _, h1', h2', _⟩ := (SYS_SetPowerRegulator_timeout sampleHeader ram 0x10
    (Mem.single 0x400001FC 0x2) (fun v => v ||| sampleHeader.SYS_PLCTL_MVRS_Msk)
    (Or.inl ⟨rfl, by decide, rfl⟩)).2 (by decide) (fun n => busyFor_ram _ _ n _ (by decide))
  exact ⟨⟨r, h1, h2⟩, ⟨r', h1', h2'.trans (by decide)⟩⟩

/-! ### Claim C11 -/

/-- Claim C11. On plain memory with the busy bit clear, for a selector whose lowest set
bit at or above 16 is at position `p`, `16 ≤ p < 30` (such as `1 << 22`), the scan of
`SYS_SetPSRAMPowerMode` from position 16 yields `p`, the function returns 0 and its
single store leaves the second SRAM power-control word equal to
`(old & ~selector) | (mode << p)` modulo `2^32`; the same holds for
`SYS_SetSSRAMPowerMode` and the word it targets, with the scan started at 0 and `p`
the lowest set bit of the selector, `p < 30`. -/
theorem SYS_SetPSRAMPowerMode_position (h : NuMicro) (m : Mem) (sel mode p : Nat)
    (hp : p < 30) (hbit : sel.testBit p = true) :
    (16 ≤ p → (∀ i, 16 ≤ i → i < p → sel.testBit i = false) →
        m.loadWord h.SRAMPC1 &&& h.SYS_SRAMPC1_PCBUSY_Msk = 0 →
        scanSelPos sel 31 16 = some p
          ∧ ∃ r, SYS_SetPSRAMPowerMode h ram sel mode (Run.start m) = some (0, r)
            ∧ r.stores = [Access.store h.SRAMPC1
                ((m.loadWord h.SRAMPC1 &&& not32 sel) ||| (mode <<< p) % 4294967296)]
            ∧ r.dev.loadWord h.SRAMPC1
                = (m.loadWord h.SRAMPC1 &&& not32 sel) ||| (mode <<< p) % 4294967296)
      ∧ ((∀ i, i < p → sel.testBit i = false) →
        m.loadWord (ssramTarget h mode).1 &&& (ssramTarget h mode).2 = 0 →
        scanSelPos sel 31 0 = some p
          ∧ ∃ r, SYS_SetSSRAMPowerMode h ram sel mode (Run.start m) = some (0, r)
            ∧ r.stores = [Access.store (ssramTarget h mode).1
                ((m.loadWord (ssramTarget h mode).1 &&& not32 sel)
                  ||| (mode <<< p) % 4294967296)]
            ∧ r.dev.loadWord (ssramTarget h mode).1
                = (m.loadWord (ssramTarget h mode).1 &&& not32 sel)
                  ||| (mode <<< p) % 4294967296) := by
  constructor
  · intro h16 hlow hclear
    have hscan := scanSelPos_found sel 31 16 p h16 hp (by omega) hbit hlow
    obtain ⟨r, h1, h2, h3, _⟩ := sramWrite_ram h h.SRAMPC1 h.SYS_SRAMPC1_PCBUSY_Msk sel mode p
      m hclear
    exact ⟨hscan, r, by rw [SYS_SetPSRAMPowerMode_eq h ram sel mode p _ hscan, h1], h2, h3⟩
  · intro hlow hclear
    have hscan := scanSelPos_found sel 31 0 p (Nat.zero_le _) hp (by omega) hbit
      (fun i _ hi => hlow i hi)
    obtain ⟨r, h1, h2, h3, _⟩ := sramWrite_ram h (ssramTarget h mode).1 (ssramTarget h mode).2
      sel mode p m hclear
    exact ⟨hscan, r, by rw [SYS_SetSSRAMPowerMode_eq h ram sel mode p _ hscan, h1], h2, h3⟩

/-- The scan and the store for the selectors `1 << 22` (peripheral) and `3 << 4`
(system). -/
theorem SYS_SetPSRAMPowerMode_position_witness :
    (scanSelPos (1 <<< 22) 31 16 = some 22
      ∧ ∃ r, SYS_SetPSRAMPowerMode sampleHeader ram (1 <<< 22) 1
            (Run.start (Mem.single 0x400000E0 0x5)) = some (0, r)
        ∧ r.dev.loadWord sampleHeader.SRAMPC1 = 0x400005)
      ∧ (scanSelPos (3 <<< 4) 31 0 = some 4
      ∧ ∃ r, SYS_SetSSRAMPowerMode sampleHeader ram (3 <<< 4) 2
            (Run.start (Mem.single 0x400000DC 0x55)) = some (0, r)
        ∧ r.dev.loadWord sampleHeader.SRAMPC0 = 0x65) := by
  obtain ⟨h1, r, h2, _, h4⟩ := (SYS_SetPSRAMPowerMode_position sampleHeader
    (Mem.single 0x400000E0 0x5) (1 <<< 22) 1 22 (by decide) (by decide)).1
    (by decide) (by decide) (by decide)
  obtain ⟨h1', r', h2', _, h4'⟩ := (SYS_SetPSRAMPowerMode_position sampleHeader
    (Mem.single 0x400000DC 0x55) (3 <<< 4) 2 4 (by decide) (by decide)).2
    (by decide) (by decide)
  exact ⟨⟨h1, r, h2, h4.trans (by decide)⟩, ⟨h1', r', h2', h4'.trans (by decide)⟩⟩

/-! ### Claim C12 -/

/-- Claim C12. `SYS_SetSSRAMPowerMode` accesses only the word given by `ssramTarget`,
the second SRAM power-control word when bit 31 of the power mode is set and the first
otherwise, and `SYS_SetPSRAMPowerMode` only the second word: every load and store of
the run is at that address, the result is -1 with no store when the busy bit of that
word is read set on every poll of the budget, and 0 with one store to that word
otherwise. On plain memory every word that does not overlap the targeted one is left
as it was. -/
theorem SRAM_power_mode_target (h : NuMicro) (d : Device σ) (sel mode : Nat) (s : σ) (m : Mem) :
    (∃ res r, SYS_SetSSRAMPowerMode h d sel mode (Run.start s) = some (res, r)
        ∧ AccessesAt (ssramTarget h mode).1 r.log
        ∧ (busyFor d (ssramTarget h mode).1 (ssramTarget h mode).2 (pollsU32 h.SYS_TIMEOUT)
              (Run.start s) = true → res = -1 ∧ r.stores = [])
        ∧ (busyFor d (ssramTarget h mode).1 (ssramTarget h mode).2 (pollsU32 h.SYS_TIMEOUT)
              (Run.start s) = false → res = 0 ∧ ∃ v, r.stores
                = [Access.store (ssramTarget h mode).1 v]))
      ∧ (∃ res r, SYS_SetPSRAMPowerMode h d sel mode (Run.start s) = some (res, r)
        ∧ AccessesAt h.SRAMPC1 r.log
        ∧ (busyFor d h.SRAMPC1 h.SYS_SRAMPC1_PCBUSY_Msk (pollsU32 h.SYS_TIMEOUT)
              (Run.start s) = true → res = -1 ∧ r.stores = [])
        ∧ (busyFor d h.SRAMPC1 h.SYS_SRAMPC1_PCBUSY_Msk (pollsU32 h.SYS_TIMEOUT)
              (Run.start s) = false → res = 0 ∧ ∃ v, r.stores = [Access.store h.SRAMPC1 v]))
      ∧ (∀ b res r, ((ssramTarget h mode).1 + 3 < b ∨ b + 3 < (ssramTarget h mode).1) →
          SYS_SetSSRAMPowerMode h ram sel mode (Run.start m) = some (res, r) →
          r.dev.loadWord b = m.loadWord b)
      ∧ (∀ b res r, (h.SRAMPC1 + 3 < b ∨ b + 3 < h.SRAMPC1) →
          SYS_SetPSRAMPowerMode h ram sel mode (Run.start m) = some (res, r) →
          r.dev.loadWord b = m.loadWord b) := by
  obtain ⟨p0, hp0, _, _⟩ := scanSelPos_total sel 31 0 (by omega) (by omega)
  obtain ⟨p16, hp16, _, _⟩ := scanSelPos_total sel 31 16 (by omega) (by omega)
  refine ⟨?_, ?_, ?_, ?_⟩
  · rw [SYS_SetSSRAMPowerMode_eq h d sel mode p0 _ hp0]
    exact sramWrite_spec h d _ _ sel mode p0 s
  · rw [SYS_SetPSRAMPowerMode_eq h d sel mode p16 _ hp16]
    exact sramWrite_spec h d _ _ sel mode p16 s
  · intro b res r hb hr
    rw [SYS_SetSSRAMPowerMode_eq h ram sel mode p0 _ hp0] at hr
    exact sramWrite_ram_frame h _ _ sel mode p0 m b hb res r hr
  · intro b res r hb hr
    rw [SYS_SetPSRAMPowerMode_eq h ram sel mode p16 _ hp16] at hr
    exact sramWrite_ram_frame h _ _ sel mode p16 m b hb res r hr

/-- `SYS_SetSSRAMPowerMode` with bit 31 of the mode set and the busy bit of the second
word stuck, and `SYS_SetPSRAMPowerMode` with the busy bit clear, which leaves the first
word as it was. -/
theorem SRAM_power_mode_target_witness :
    (∃ r, SYS_SetSSRAMPowerMode sampleHeader ram (3 <<< 2) 0x80000001
          (Run.start (Mem.single 0x400000E0 0x80000000)) = some (-1, r)
        ∧ AccessesAt 0x400000E0 r.log ∧ r.stores = [])
      ∧ (∀ res r, SYS_SetPSRAMPowerMode sampleHeader ram (3 <<< 22) 0x80000001
            (Run.start (Mem.single 0x400000DC 0x55)) = some (res, r) →
          r.dev.loadWord 0x400000DC = 0x55) := by
  obtain ⟨⟨res, r, h1, h2, h3, _⟩, _, _, h4⟩ := SRAM_power_mode_target sampleHeader ram (3 <<< 2)
    0x80000001 (Mem.single 0x400000E0 0x80000000) (Mem.single 0x400000DC 0x55)
  obtain ⟨_, _, _, h5⟩ := SRAM_power_mode_target sampleHeader ram (3 <<< 22)
    0x80000001 (Mem.single 0x400000E0 0x80000000) (Mem.single 0x400000DC 0x55)
  obtain ⟨e1, e2⟩ := h3 (by decide)
  subst e1
  exact ⟨⟨r, h1, h2, e2⟩, fun res' r' hr => (h5 0x400000DC res' r' (by decide) hr).trans
    (by decide)⟩

/-! ### Claim C13 -/

/-- Claim C13. `SYS_IsRegLocked` loads the lock-control word once and returns 1 exactly
when bit 0 of the value read is 0, and 0 exactly when bit 0 is 1; on plain memory the
result is decided by bit 0 of the word alone, so that two words with the same bit 0
give the same result. -/
theorem SYS_IsRegLocked_bit0 (h : NuMicro) (d : Device σ) (s : σ) (m m' : Mem) :
    ((SYS_IsRegLocked h d (Run.start s)).1 = 1
        ↔ (rd d h.REGLCTL (Run.start s)).1.testBit 0 = false)
      ∧ ((SYS_IsRegLocked h d (Run.start s)).1 = 0
        ↔ (rd d h.REGLCTL (Run.start s)).1.testBit 0 = true)
      ∧ (SYS_IsRegLocked h d (Run.start s)).2.log
          = [Access.load h.REGLCTL (rd d h.REGLCTL (Run.start s)).1]
      ∧ (SYS_IsRegLocked h ram (Run.start m)).1
          = (if (m.loadWord h.REGLCTL).testBit 0 then 0 else 1)
      ∧ ((m.loadWord h.REGLCTL).testBit 0 = (m'.loadWord h.REGLCTL).testBit 0 →
          (SYS_IsRegLocked h ram (Run.start m)).1 = (SYS_IsRegLocked h ram (Run.start m')).1) := by
  have key : ∀ {τ : Type} (e : Device τ) (r : Run τ),
      (SYS_IsRegLocked h e r).1 = if (rd e h.REGLCTL r).1.testBit 0 then 0 else 1 := by
    intro τ e r
    by_cases hb : (rd e h.REGLCTL r).1.testBit 0 = true
    · simp only [SYS_IsRegLocked, hb, if_true]
      rw [if_pos ((and_one_ne_zero _).2 hb)]
    · have hz : ¬ ((rd e h.REGLCTL r).1 &&& 1 ≠ 0) := fun hx => hb ((and_one_ne_zero _).1 hx)
      simp only [SYS_IsRegLocked, hb]
      rw [if_neg hz]
      rfl
  refine ⟨?_, ?_, rfl, ?_, ?_⟩
  · rw [key]; by_cases hb : (rd d h.REGLCTL (Run.start s)).1.testBit 0 = true <;> simp [hb]
  · rw [key]; by_cases hb : (rd d h.REGLCTL (Run.start s)).1.testBit 0 = true <;> simp [hb]
  · rw [key, rd_ram_val]; rfl
  · intro hbit
    rw [key, key, rd_ram_val, rd_ram_val, Run.start_dev, Run.start_dev, hbit]

/-- `SYS_IsRegLocked` on the lock-control words 1 and 0xFFFFFFFE. -/
theorem SYS_IsRegLocked_bit0_witness :
    (SYS_IsRegLocked sampleHeader ram (Run.start (Mem.single 0x40000100 1))).1 = 0
      ∧ (SYS_IsRegLocked sampleHeader ram (Run.start (Mem.single 0x40000100 0xFFFFFFFE))).1 = 1
      ∧ (SYS_IsRegLocked sampleHeader ram (Run.start (Mem.single 0x40000100 0))).1
        = (SYS_IsRegLocked sampleHeader ram (Run.start (Mem.single 0x40000100 0xFFFFFFFE))).1 := by
  obtain ⟨_, h2, _, _, _⟩ := SYS_IsRegLocked_bit0 sampleHeader ram (Mem.single 0x40000100 1)
    (Mem.single 0x40000100 0) (Mem.single 0x40000100 0xFFFFFFFE)
  obtain ⟨h1', _, _, _, h5'⟩ := SYS_IsRegLocked_bit0 sampleHeader ram
    (Mem.single 0x40000100 0xFFFFFFFE) (Mem.single 0x40000100 0)
    (Mem.single 0x40000100 0xFFFFFFFE)
  exact ⟨h2.2 (by decide), h1'.2 (by decide), h5' (by decide)⟩

/-! ### Claim C14 -/

/-- Claim C14. For every 32-bit mask, `SYS_ClearResetSrc` performs exactly one access,
the store of the mask to the reset-status word. On a device whose reset-status word is
write-1-to-clear, the call leaves the word equal to its old value with the bits of the
mask cleared, a second call in a row leaves the same value as the first, and starting
from a clear word both calls leave it clear. -/
theorem SYS_ClearResetSrc_store (h : NuMicro) (d : Device σ) (mask : Nat) (s : σ) (m : Mem)
    (hmask : mask < 4294967296) :
    (SYS_ClearResetSrc h d mask (Run.start s)).log = [Access.store h.RSTSTS mask]
      ∧ (SYS_ClearResetSrc h (w1c h.RSTSTS) mask (Run.start m)).dev.loadWord h.RSTSTS
          = m.loadWord h.RSTSTS &&& not32 mask
      ∧ (SYS_ClearResetSrc h (w1c h.RSTSTS) mask
            (SYS_ClearResetSrc h (w1c h.RSTSTS) mask (Run.start m))).dev.loadWord h.RSTSTS
          = (SYS_ClearResetSrc h (w1c h.RSTSTS) mask (Run.start m)).dev.loadWord h.RSTSTS
      ∧ (m.loadWord h.RSTSTS = 0 →
          (SYS_ClearResetSrc h (w1c h.RSTSTS) mask (Run.start m)).dev.loadWord h.RSTSTS = 0
          ∧ (SYS_ClearResetSrc h (w1c h.RSTSTS) mask
              (SYS_ClearResetSrc h (w1c h.RSTSTS) mask (Run.start m))).dev.loadWord h.RSTSTS
            = 0) := by
  have hstep : ∀ r : Run Mem, (SYS_ClearResetSrc h (w1c h.RSTSTS) mask r).dev.loadWord h.RSTSTS
      = r.dev.loadWord h.RSTSTS &&& not32 mask := by
    intro r
    have hlt : r.dev.loadWord h.RSTSTS &&& not32 mask < 4294967296 :=
      Nat.and_lt_two_pow (n := 32) _ (not32_lt _)
    simp only [SYS_ClearResetSrc, wr, w1c, if_true, Nat.mod_eq_of_lt hmask,
      Mem.loadWord_storeWord, Nat.mod_eq_of_lt hlt]
  refine ⟨?_, ?_, ?_, ?_⟩
  · simp [SYS_ClearResetSrc, wr, Run.start, Nat.mod_eq_of_lt hmask]
  · rw [hstep]; rfl
  · rw [hstep, hstep, Nat.and_assoc, Nat.and_self]
  · intro hz
    have h1 : (SYS_ClearResetSrc h (w1c h.RSTSTS) mask (Run.start m)).dev.loadWord h.RSTSTS
        = 0 := by
      rw [hstep, Run.start_dev, hz, Nat.zero_and]
    exact ⟨h1, by rw [hstep, h1, Nat.zero_and]⟩

/-- `SYS_ClearResetSrc` with the mask `0x3` on a write-1-to-clear word that holds
`0x7`. -/
theorem SYS_ClearResetSrc_store_witness :
    (SYS_ClearResetSrc sampleHeader ram 0x3 (Run.start (fun _ => 0))).log
        = [Access.store sampleHeader.RSTSTS 0x3]
      ∧ (SYS_ClearResetSrc sampleHeader (w1c sampleHeader.RSTSTS) 0x3
          (Run.start (Mem.single 0x40000004 0x7))).dev.loadWord sampleHeader.RSTSTS = 0x4 := by
  obtain ⟨h1, h2, _, _⟩ := SYS_ClearResetSrc_store sampleHeader ram 0x3 (fun _ => 0)
    (Mem.single 0x40000004 0x7) (by decide)
  exact ⟨h1, h2.trans (by decide)⟩

/-! ### Claim C15 -/

/-- Claim C16, as amended. With target DCDC and a status that does not read LDO (so
also when it already reads DCDC), `SYS_SetPowerRegulator` only accesses the status
word: the status load, the load of the error check and, if the error flag is set, its
clearing store; there is no poll and no store of the power-level control word. With
target LDO the LDO branch is taken whatever the status reads, also when it already
reads LDO: the status load is followed by a poll of the control word, and when the
write-busy wait succeeds the control word is stored with the regulator-type bit
cleared. -/
theorem SYS_SetPowerRegulator_same_target (h : NuMicro) (d : Device σ) (s : σ) :
    (h.regulatorTypesDistinct →
        (rd d h.PLSTS (Run.start s)).1 &&& h.SYS_PLSTS_CURMVR_Msk ≠ h.SYS_PLSTS_CURMVR_LDO →
        ∃ res r, SYS_SetPowerRegulator h d h.SYS_PLCTL_MVRS_DCDC (Run.start s) = some (res, r)
          ∧ (r.log = [Access.load h.PLSTS (rd d h.PLSTS (Run.start s)).1,
                Access.load h.PLSTS (rd d h.PLSTS (rd d h.PLSTS (Run.start s)).2).1]
            ∨ r.log = [Access.load h.PLSTS (rd d h.PLSTS (Run.start s)).1,
                Access.load h.PLSTS (rd d h.PLSTS (rd d h.PLSTS (Run.start s)).2).1,
                Access.store h.PLSTS (h.SYS_PLSTS_MVRCERR_Msk % 4294967296)]))
      ∧ (h.regulatorTypesDistinct →
        ∃ res r l, SYS_SetPowerRegulator h d h.SYS_PLCTL_MVRS_LDO (Run.start s) = some (res, r)
          ∧ r.log = Access.load h.PLSTS (rd d h.PLSTS (Run.start s)).1
              :: Access.load h.PLCTL (rd d h.PLCTL (rd d h.PLSTS (Run.start s)).2).1 :: l
          ∧ (busyFor d h.PLCTL h.SYS_PLCTL_WRBUSY_Msk (pollsI32 (castI32 h.SYS_TIMEOUT))
                (rd d h.PLSTS (Run.start s)).2 = false →
              Access.store h.PLCTL
                (((rd d h.PLCTL (afterWriteBusyWait h d (rd d h.PLSTS (Run.start s)).2)).1
                  &&& not32 h.SYS_PLCTL_MVRS_Msk) % 4294967296) ∈ l)) := by
  constructor
  · intro hdist hst
    have hatt : regulatorAttempt h d h.SYS_PLCTL_MVRS_DCDC (Run.start s)
        = some (Sum.inr (1, (rd d h.PLSTS (Run.start s)).2)) := by
      simp only [regulatorAttempt, hst, hdist.1, and_false, if_false]
    by_cases he : (rd d h.PLSTS (rd d h.PLSTS (Run.start s)).2).1
        &&& h.SYS_PLSTS_MVRCERR_Msk ≠ 0
    · refine ⟨castI32 0, wr d h.PLSTS h.SYS_PLSTS_MVRCERR_Msk
        (rd d h.PLSTS (rd d h.PLSTS (Run.start s)).2).2, ?_, Or.inr ?_⟩
      · simp only [SYS_SetPowerRegulator, hatt, regulatorErrorCheck]
        rw [if_pos he]
      · rw [wr_log, rd_log, rd_log]; rfl
    · refine ⟨castI32 1, (rd d h.PLSTS (rd d h.PLSTS (Run.start s)).2).2, ?_, Or.inl ?_⟩
      · simp only [SYS_SetPowerRegulator, hatt, regulatorErrorCheck]
        rw [if_neg he]
      · rw [rd_log, rd_log]; rfl
  · intro hdist
    have hatt : regulatorAttempt h d h.SYS_PLCTL_MVRS_LDO (Run.start s)
        = regulatorBranch h d (fun v => v &&& not32 h.SYS_PLCTL_MVRS_Msk)
            h.SYS_PLSTS_CURMVR_LDO (rd d h.PLSTS (Run.start s)).2 := by
      simp only [regulatorAttempt, Ne.symm hdist.1, false_and, if_false, if_true]
    obtain ⟨x, l, hx, hlog, _, hb2⟩ := regulatorBranch_log h d
      (fun v => v &&& not32 h.SYS_PLCTL_MVRS_Msk) h.SYS_PLSTS_CURMVR_LDO
      (rd d h.PLSTS (Run.start s)).2
    cases x with
    | inl r1 =>
      refine ⟨h.SYS_ERR_TIMEOUT, r1, l, ?_, ?_, hb2⟩
      · simp only [SYS_SetPowerRegulator, hatt, hx]
      · simp only at hlog
        rw [hlog, rd_log]; rfl
    | inr p =>
      obtain ⟨l', hl', _, _⟩ := regulatorErrorCheck_log h d p.1 p.2
      refine ⟨(regulatorErrorCheck h d p.1 p.2).1, (regulatorErrorCheck h d p.1 p.2).2, l ++ l',
        ?_, ?_, fun hb => List.mem_append_left _ (hb2 hb)⟩
      · simp only [SYS_SetPowerRegulator, hatt, hx]
      · simp only at hlog
        rw [hl', hlog, rd_log]; simp [Run.start]

/-- `SYS_SetPowerRegulator` to DCDC from status DCDC, and to LDO from status LDO. -/
theorem SYS_SetPowerRegulator_same_target_witness :
    (∃ res r, SYS_SetPowerRegulator sampleHeader ram sampleHeader.SYS_PLCTL_MVRS_DCDC
          (Run.start (Mem.single 0x400001FC 0x1000)) = some (res, r)
        ∧ r.log.length ≤ 3)
      ∧ (∃ res r, SYS_SetPowerRegulator sampleHeader ram sampleHeader.SYS_PLCTL_MVRS_LDO
          (Run.start (fun _ => 0)) = some (res, r)
        ∧ Access.store 0x400001F8 0 ∈ r.log) := by
  obtain ⟨res, r, h1, h2⟩ := (SYS_SetPowerRegulator_same_target sampleHeader ram
    (Mem.single 0x400001FC 0x1000)).1 (by decide) (by decide)
  obtain ⟨res', r', l, h1', h2', h3'⟩ := (SYS_SetPowerRegulator_same_target sampleHeader ram
    (fun _ => 0)).2 (by decide)
  refine ⟨⟨res, r, h1, ?_⟩, ⟨res', r', h1', ?_⟩⟩
  · rcases h2 with e | e <;> rw [e] <;> simp
  · rw [h2']
    exact List.mem_cons_of_mem _ (List.mem_cons_of_mem _ (h3' (by decide)))

/-- Claim C16 as stated fails: with target LDO while the status already reads LDO,
`SYS_SetPowerRegulator` polls the power-level control word and stores to it. -/
theorem SYS_SetPowerRegulator_ldo_from_ldo_writes :
    (rd ram sampleHeader.PLSTS (Run.start (fun _ => 0))).1 &&& sampleHeader.SYS_PLSTS_CURMVR_Msk
        = sampleHeader.SYS_PLSTS_CURMVR_LDO
      ∧ (SYS_SetPowerRegulator sampleHeader ram sampleHeader.SYS_PLCTL_MVRS_LDO
          (Run.start (fun _ => 0))).map (fun p => p.2.log)
        = some [Access.load 0x400001FC 0, Access.load 0x400001F8 0, Access.load 0x400001F8 0,
            Access.store 0x400001F8 0, Access.load 0x400001FC 0, Access.load 0x400001FC 0,
            Access.load 0x400001FC 0] := by
  decide

/-! ### Claim C17 -/

/-- Claim C17. On plain memory with the busy bit clear, for a selector with no bit set
in the scanned range (positions 16 to 29 for `SYS_SetPSRAMPowerMode`, 0 to 29 for
`SYS_SetSSRAMPowerMode`, selector 0 included), the scan ends with position 30, the
function returns 0, and its single store leaves the targeted word equal to
`(old & ~selector) | (mode << 30)` modulo `2^32`. -/
theorem SRAM_scan_without_bit (h : NuMicro) (m : Mem) (sel mode : Nat) :
    ((∀ i, 16 ≤ i → i < 30 → sel.testBit i = false) →
        m.loadWord h.SRAMPC1 &&& h.SYS_SRAMPC1_PCBUSY_Msk = 0 →
        scanSelPos sel 31 16 = some 30
          ∧ ∃ r, SYS_SetPSRAMPowerMode h ram sel mode (Run.start m) = some (0, r)
            ∧ r.stores = [Access.store h.SRAMPC1
                ((m.loadWord h.SRAMPC1 &&& not32 sel) ||| (mode <<< 30) % 4294967296)]
            ∧ r.dev.loadWord h.SRAMPC1
                = (m.loadWord h.SRAMPC1 &&& not32 sel) ||| (mode <<< 30) % 4294967296)
      ∧ ((∀ i, i < 30 → sel.testBit i = false) →
        m.loadWord (ssramTarget h mode).1 &&& (ssramTarget h mode).2 = 0 →
        scanSelPos sel 31 0 = some 30
          ∧ ∃ r, SYS_SetSSRAMPowerMode h ram sel mode (Run.start m) = some (0, r)
            ∧ r.stores = [Access.store (ssramTarget h mode).1
                ((m.loadWord (ssramTarget h mode).1 &&& not32 sel)
                  ||| (mode <<< 30) % 4294967296)]
            ∧ r.dev.loadWord (ssramTarget h mode).1
                = (m.loadWord (ssramTarget h mode).1 &&& not32 sel)
                  ||| (mode <<< 30) % 4294967296) := by
  constructor
  · intro hlow hclear
    have hscan := scanSelPos_not_found sel 31 16 (by omega) (by omega) hlow
    obtain ⟨r, h1, h2, h3, _⟩ := sramWrite_ram h h.SRAMPC1 h.SYS_SRAMPC1_PCBUSY_Msk sel mode 30
      m hclear
    exact ⟨hscan, r, by rw [SYS_SetPSRAMPowerMode_eq h ram sel mode 30 _ hscan, h1], h2, h3⟩
  · intro hlow hclear
    have hscan := scanSelPos_not_found sel 31 0 (by omega) (by omega) (fun i _ hi => hlow i hi)
    obtain ⟨r, h1, h2, h3, _⟩ := sramWrite_ram h (ssramTarget h mode).1 (ssramTarget h mode).2
      sel mode 30 m hclear
    exact ⟨hscan, r, by rw [SYS_SetSSRAMPowerMode_eq h ram sel mode 30 _ hscan, h1], h2, h3⟩

/-- `SYS_SetPSRAMPowerMode` with selector 0: the mode is shifted by 30. -/
theorem SRAM_scan_without_bit_witness :
    scanSelPos 0 31 16 = some 30
      ∧ ∃ r, SYS_SetPSRAMPowerMode sampleHeader ram 0 1
            (Run.start (Mem.single 0x400000E0 0x5)) = some (0, r)
        ∧ r.dev.loadWord sampleHeader.SRAMPC1 = 0x40000005 := by
  obtain ⟨h1, r, h2, _, h4⟩ := (SRAM_scan_without_bit sampleHeader
    (Mem.single 0x400000E0 0x5) 0 1).1 (by simp) (by decide)
  exact ⟨h1, r, h2, h4.trans (by decide)⟩

/-! ### Claim C18 -/

/-- Claim C18. For every retry budget and every device, `SYS_SetPowerLevel`,
`SYS_SetPowerRegulator`, `SYS_SetSSRAMPowerMode` and `SYS_SetPSRAMPowerMode` return a
result, after a number of register accesses bounded by the numbers of polls that their
countdowns allow. The position scan ends with a position of at most 30, so after at
most 30 increments. Every wait loop returns: it is left either because the polled bit
read clear within the polls of its countdown or because the countdown ran out, after
at most that many loads. A budget `1 ≤ SYS_TIMEOUT < 2^32` allows exactly
`SYS_TIMEOUT` polls to a `uint32_t` countdown, and an `int32_t` countdown allows at
most `2^31` polls. -/
theorem SYS_wait_functions_terminate (h : NuMicro) (d : Device σ) (level target sel mode : Nat)
    (s : σ) :
    (∃ res r, SYS_SetPowerLevel h d level (Run.start s) = some (res, r)
        ∧ r.log.length ≤ 2 * pollsU32 h.SYS_TIMEOUT + 2)
      ∧ (∃ res r, SYS_SetPowerRegulator h d target (Run.start s) = some (res, r)
        ∧ r.log.length ≤ 2 * pollsI32 (castI32 h.SYS_TIMEOUT) + 6)
      ∧ (∃ res r, SYS_SetSSRAMPowerMode h d sel mode (Run.start s) = some (res, r)
        ∧ r.log.length ≤ pollsU32 h.SYS_TIMEOUT + 2)
      ∧ (∃ res r, SYS_SetPSRAMPowerMode h d sel mode (Run.start s) = some (res, r)
        ∧ r.log.length ≤ pollsU32 h.SYS_TIMEOUT + 2)
      ∧ (∃ p, scanSelPos sel 31 0 = some p ∧ p ≤ 30)
      ∧ (∃ p, scanSelPos sel 31 16 = some p ∧ 16 ≤ p ∧ p ≤ 30)
      ∧ (∀ addr msk r, ∃ b r1,
          pollU32 d addr msk (pollsU32 h.SYS_TIMEOUT) (h.SYS_TIMEOUT % 4294967296) r
            = some (b, r1)
          ∧ (b = true ↔ busyFor d addr msk (pollsU32 h.SYS_TIMEOUT) r = false)
          ∧ r1.log.length ≤ r.log.length + pollsU32 h.SYS_TIMEOUT)
      ∧ (∀ addr msk r, ∃ b r1,
          pollI32 d addr msk (pollsI32 (castI32 h.SYS_TIMEOUT)) (castI32 h.SYS_TIMEOUT) r
            = some (b, r1)
          ∧ (b = true ↔ busyFor d addr msk (pollsI32 (castI32 h.SYS_TIMEOUT)) r = false)
          ∧ r1.log.length ≤ r.log.length + pollsI32 (castI32 h.SYS_TIMEOUT))
      ∧ (1 ≤ h.SYS_TIMEOUT → h.SYS_TIMEOUT < 4294967296 → pollsU32 h.SYS_TIMEOUT = h.SYS_TIMEOUT)
      ∧ pollsI32 (castI32 h.SYS_TIMEOUT) ≤ 2147483648 := by
  obtain ⟨p0, hp0, _, hp0'⟩ := scanSelPos_total sel 31 0 (by omega) (by omega)
  obtain ⟨p16, hp16, hl16, hp16'⟩ := scanSelPos_total sel 31 16 (by omega) (by omega)
  refine ⟨?_, SYS_SetPowerRegulator_length h d target s, ?_, ?_, ⟨p0, hp0, hp0'⟩,
    ⟨p16, hp16, hl16, hp16'⟩, ?_, ?_, ?_, ?_⟩
  · have hA := pollEnd_log_length d h.PLCTL h.SYS_PLCTL_WRBUSY_Msk (pollsU32 h.SYS_TIMEOUT)
      (Run.start s)
    have h0 : (Run.start s).log.length = 0 := rfl
    rw [SYS_SetPowerLevel_eq]
    split
    · exact ⟨_, _, rfl, by omega⟩
    · refine ⟨_, _, rfl, ?_⟩
      have hB := pollEnd_log_length d h.PLSTS h.SYS_PLSTS_PLCBUSY_Msk (pollsU32 h.SYS_TIMEOUT)
        (wr d h.PLCTL
          (((rd d h.PLCTL (pollEnd d h.PLCTL h.SYS_PLCTL_WRBUSY_Msk
              (pollsU32 h.SYS_TIMEOUT) (Run.start s))).1 &&& not32 h.SYS_PLCTL_PLSEL_Msk)
            ||| level)
          (rd d h.PLCTL (pollEnd d h.PLCTL h.SYS_PLCTL_WRBUSY_Msk
              (pollsU32 h.SYS_TIMEOUT) (Run.start s))).2)
      rw [wr_log_length, rd_log_length] at hB
      omega
  · unfold SYS_SetSSRAMPowerMode
    rw [hp0]
    simp only
    split
    · exact sramWrite_length h d _ _ sel mode p0 s
    · exact sramWrite_length h d _ _ sel mode p0 s
  · unfold SYS_SetPSRAMPowerMode
    rw [hp16]
    exact sramWrite_length h d _ _ sel mode p16 s
  · intro addr msk r
    refine ⟨_, _, pollU32_budget d addr msk h.SYS_TIMEOUT r, ?_, pollEnd_log_length _ _ _ _ _⟩
    cases busyFor d addr msk (pollsU32 h.SYS_TIMEOUT) r <;> simp
  · intro addr msk r
    refine ⟨_, _, pollI32_budget d addr msk (castI32 h.SYS_TIMEOUT) r, ?_,
      pollEnd_log_length _ _ _ _ _⟩
    cases busyFor d addr msk (pollsI32 (castI32 h.SYS_TIMEOUT)) r <;> simp
  · intro h1 h2
    unfold pollsU32
    rw [Nat.mod_eq_of_lt h2, if_neg (by omega)]
  · unfold pollsI32 castI32
    split <;> omega

/-- The budget of the sample table allows three polls to a `uint32_t` countdown. -/
theorem SYS_wait_functions_terminate_witness :
    pollsU32 sampleHeader.SYS_TIMEOUT = sampleHeader.SYS_TIMEOUT
      ∧ ∃ res r, SYS_SetPowerLevel sampleHeader ram 1 (Run.start (fun _ => 0)) = some (res, r)
        ∧ r.log.length ≤ 2 * pollsU32 sampleHeader.SYS_TIMEOUT + 2 := by
  obtain ⟨h1, _, _, _, _, _, _, _, h9, _⟩ := SYS_wait_functions_terminate sampleHeader ram
    1 0 0 0 (fun _ => 0)
  exact ⟨h9 (by decide) (by decide), h1⟩

/-! ### Claim C19 -/

/-- Claim C19, as amended. On plain memory, for the selector `3 << p` with `p ≤ 28` and
a power mode whose bits other than the low two and bit 31 are clear, a successful
`SYS_SetSSRAMPowerMode` leaves the two-bit field at `p` of the targeted word equal to
the low two bits of the mode and every bit outside the selector other than bit 31
unchanged; bit 31 is unchanged as well when `p ≥ 1` or bit 31 of the mode is clear.
For `p ≥ 16` a successful `SYS_SetPSRAMPowerMode` leaves the field at `p` equal to the
low two bits of the mode and every bit outside the selector, bit 31 included,
unchanged. -/
theorem SRAM_power_mode_field (h : NuMicro) (m : Mem) (mode p : Nat) (hp : p ≤ 28)
    (hmode : ∀ k, 2 ≤ k → k ≠ 31 → mode.testBit k = false) :
    (m.loadWord (ssramTarget h mode).1 &&& (ssramTarget h mode).2 = 0 →
        ∃ r, SYS_SetSSRAMPowerMode h ram (3 <<< p) mode (Run.start m) = some (0, r)
          ∧ (r.dev.loadWord (ssramTarget h mode).1 >>> p) % 4 = mode % 4
          ∧ (∀ i, i ≠ p → i ≠ p + 1 → i ≠ 31 →
              (r.dev.loadWord (ssramTarget h mode).1).testBit i
                = (m.loadWord (ssramTarget h mode).1).testBit i)
          ∧ ((1 ≤ p ∨ mode.testBit 31 = false) →
              (r.dev.loadWord (ssramTarget h mode).1).testBit 31
                = (m.loadWord (ssramTarget h mode).1).testBit 31))
      ∧ (16 ≤ p → m.loadWord h.SRAMPC1 &&& h.SYS_SRAMPC1_PCBUSY_Msk = 0 →
        ∃ r, SYS_SetPSRAMPowerMode h ram (3 <<< p) mode (Run.start m) = some (0, r)
          ∧ (r.dev.loadWord h.SRAMPC1 >>> p) % 4 = mode % 4
          ∧ (∀ i, i ≠ p → i ≠ p + 1 →
              (r.dev.loadWord h.SRAMPC1).testBit i = (m.loadWord h.SRAMPC1).testBit i)) := by
  constructor
  · intro hclear
    obtain ⟨r, h1, _, h3, _⟩ := sramWrite_ram h (ssramTarget h mode).1 (ssramTarget h mode).2
      (3 <<< p) mode p m hclear
    obtain ⟨f1, f2, f3⟩ := sram_field_bits (m.loadWord (ssramTarget h mode).1) mode p
      (Mem.loadWord_lt _ _) hp hmode
    refine ⟨r, ?_, ?_, ?_, ?_⟩
    · rw [SYS_SetSSRAMPowerMode_eq h ram _ mode p _ (scan_three_shiftLeft p 0 (Nat.zero_le _) hp),
        h1]
    · rw [h3]; exact f1
    · rw [h3]; exact f2
    · rw [h3]; exact f3
  · intro h16 hclear
    obtain ⟨r, h1, _, h3, _⟩ := sramWrite_ram h h.SRAMPC1 h.SYS_SRAMPC1_PCBUSY_Msk
      (3 <<< p) mode p m hclear
    obtain ⟨f1, f2, f3⟩ := sram_field_bits (m.loadWord h.SRAMPC1) mode p
      (Mem.loadWord_lt _ _) hp hmode
    refine ⟨r, ?_, ?_, ?_⟩
    · rw [SYS_SetPSRAMPowerMode_eq h ram _ mode p _ (scan_three_shiftLeft p 16 h16 hp), h1]
    · rw [h3]; exact f1
    · intro i hi1 hi2
      rw [h3]
      by_cases h31 : i = 31
      · subst h31; exact f3 (Or.inl (by omega))
      · exact f2 i hi1 hi2 h31

/-- The field written by `SYS_SetSSRAMPowerMode` at position 4 and by
`SYS_SetPSRAMPowerMode` at position 22. -/
theorem SRAM_power_mode_field_witness :
    (∃ r, SYS_SetSSRAMPowerMode sampleHeader ram (3 <<< 4) 0x80000002
          (Run.start (Mem.single 0x400000E0 0x55)) = some (0, r)
        ∧ (r.dev.loadWord (ssramTarget sampleHeader 0x80000002).1 >>> 4) % 4 = 0x80000002 % 4)
      ∧ (∃ r, SYS_SetPSRAMPowerMode sampleHeader ram (3 <<< 22) 0x80000001
          (Run.start (Mem.single 0x400000E0 0x00C00000)) = some (0, r)
        ∧ (r.dev.loadWord sampleHeader.SRAMPC1 >>> 22) % 4 = 0x80000001 % 4) := by
  have hm2 : ∀ k, 2 ≤ k → k ≠ 31 → (0x80000002 : Nat).testBit k = false := by
    intro k h2 h31
    have e : (0x80000002 : Nat) = 2 ^ 31 ||| 2 ^ 1 := by decide
    rw [e, Nat.testBit_or, Nat.testBit_two_pow, Nat.testBit_two_pow]
    have a1 : ¬ 31 = k := fun x => h31 x.symm
    have a2 : ¬ 1 = k := by omega
    simp [a1, a2]
  have hm1 : ∀ k, 2 ≤ k → k ≠ 31 → (0x80000001 : Nat).testBit k = false := by
    intro k h2 h31
    have e : (0x80000001 : Nat) = 2 ^ 31 ||| 2 ^ 0 := by decide
    rw [e, Nat.testBit_or, Nat.testBit_two_pow, Nat.testBit_two_pow]
    have a1 : ¬ 31 = k := fun x => h31 x.symm
    have a2 : ¬ 0 = k := by omega
    simp [a1, a2]
  obtain ⟨r, h1, h2, _⟩ := (SRAM_power_mode_field sampleHeader (Mem.single 0x400000E0 0x55)
    0x80000002 4 (by decide) hm2).1 (by decide)
  obtain ⟨r', h1', h2', _⟩ := (SRAM_power_mode_field sampleHeader
    (Mem.single 0x400000E0 0x00C00000) 0x80000001 22 (by decide) hm1).2 (by decide) (by decide)
  exact ⟨⟨r, h1, h2⟩, ⟨r', h1', h2'⟩⟩

/-- Claim C19 as stated fails: for the selector `3 << 0` and the power mode
`0x80000001`, a successful `SYS_SetSSRAMPowerMode` sets bit 31 of the targeted word,
which was clear before the call. -/
theorem SYS_SetSSRAMPowerMode_bit31_changed :
    ((SYS_SetSSRAMPowerMode sampleHeader ram (3 <<< 0) 0x80000001
        (Run.start (fun _ => 0))).map
          (fun p => (p.1, (p.2.dev.loadWord sampleHeader.SRAMPC1).testBit 31)))
      = some (0, true)
      ∧ (Mem.loadWord (fun _ => 0) sampleHeader.SRAMPC1).testBit 31 = false := by
  decide

/-! ### Claim C20 -/

/-- Claim C20, as amended. For a retry budget `N = SYS_TIMEOUT` with `1 ≤ N < 2^31`:
every wait loop with a `uint32_t` countdown gives up exactly when its first `N` reads are
all busy and every wait loop with an `int32_t` countdown exactly when its first `N + 1`
reads are all busy, and each succeeds when the bit reads clear on an earlier poll. For
the functions: the write-busy wait and the change-busy wait of `SYS_SetPowerLevel` and
the busy wait of `SYS_SetSSRAMPowerMode` and of `SYS_SetPSRAMPowerMode` end the call
with -1 after exactly `N` busy loads of the polled word, and let it go on (to the store,
or to the result 0) when one of the first `N` reads is clear; the write-busy wait and
the change-busy wait of the DCDC branch and of the LDO branch of
`SYS_SetPowerRegulator` end the call with `SYS_ERR_TIMEOUT` after exactly `N + 1` busy
loads, and let it go on (to the store, or to the status check) when one of the first
`N + 1` reads is clear. -/
theorem wait_poll_counts (h : NuMicro) (d : Device σ) (level sel mode target : Nat) (s : σ)
    (newCtl : Nat → Nat) (hN : 1 ≤ h.SYS_TIMEOUT) (hN' : h.SYS_TIMEOUT < 2147483648) :
    (∀ addr msk r,
        pollU32 d addr msk (pollsU32 h.SYS_TIMEOUT) (h.SYS_TIMEOUT % 4294967296) r
          = some (!busyFor d addr msk h.SYS_TIMEOUT r, pollEnd d addr msk h.SYS_TIMEOUT r))
      ∧ (∀ addr msk r,
        pollI32 d addr msk (pollsI32 (castI32 h.SYS_TIMEOUT)) (castI32 h.SYS_TIMEOUT) r
          = some (!busyFor d addr msk (h.SYS_TIMEOUT + 1) r,
              pollEnd d addr msk (h.SYS_TIMEOUT + 1) r))
      ∧ (busyFor d h.PLCTL h.SYS_PLCTL_WRBUSY_Msk h.SYS_TIMEOUT (Run.start s) = true →
          ∃ r, SYS_SetPowerLevel h d level (Run.start s) = some (-1, r)
            ∧ LoadsAt h.PLCTL r.log ∧ r.log.length = h.SYS_TIMEOUT)
      ∧ (busyFor d h.PLCTL h.SYS_PLCTL_WRBUSY_Msk h.SYS_TIMEOUT (Run.start s) = false →
          (busyFor d h.PLSTS h.SYS_PLSTS_PLCBUSY_Msk h.SYS_TIMEOUT
              (wr d h.PLCTL
                (((rd d h.PLCTL (pollEnd d h.PLCTL h.SYS_PLCTL_WRBUSY_Msk h.SYS_TIMEOUT
                    (Run.start s))).1 &&& not32 h.SYS_PLCTL_PLSEL_Msk) ||| level)
                (rd d h.PLCTL (pollEnd d h.PLCTL h.SYS_PLCTL_WRBUSY_Msk h.SYS_TIMEOUT
                    (Run.start s))).2) = true →
            ∃ r l, SYS_SetPowerLevel h d level (Run.start s) = some (-1, r)
              ∧ r.log = (wr d h.PLCTL
                (((rd d h.PLCTL (pollEnd d h.PLCTL h.SYS_PLCTL_WRBUSY_Msk h.SYS_TIMEOUT
                    (Run.start s))).1 &&& not32 h.SYS_PLCTL_PLSEL_Msk) ||| level)
                (rd d h.PLCTL (pollEnd d h.PLCTL h.SYS_PLCTL_WRBUSY_Msk h.SYS_TIMEOUT
                    (Run.start s))).2).log ++ l
              ∧ LoadsAt h.PLSTS l ∧ l.length = h.SYS_TIMEOUT)
          ∧ (busyFor d h.PLSTS h.SYS_PLSTS_PLCBUSY_Msk h.SYS_TIMEOUT
              (wr d h.PLCTL
                (((rd d h.PLCTL (pollEnd d h.PLCTL h.SYS_PLCTL_WRBUSY_Msk h.SYS_TIMEOUT
                    (Run.start s))).1 &&& not32 h.SYS_PLCTL_PLSEL_Msk) ||| level)
                (rd d h.PLCTL (pollEnd d h.PLCTL h.SYS_PLCTL_WRBUSY_Msk h.SYS_TIMEOUT
                    (Run.start s))).2) = false →
            ∃ r, SYS_SetPowerLevel h d level (Run.start s) = some (0, r)
              ∧ r.stores = [Access.store h.PLCTL
                ((((rd d h.PLCTL (pollEnd d h.PLCTL h.SYS_PLCTL_WRBUSY_Msk h.SYS_TIMEOUT
                    (Run.start s))).1 &&& not32 h.SYS_PLCTL_PLSEL_Msk) ||| level)
                  % 4294967296)]))
      ∧ (busyFor d (ssramTarget h mode).1 (ssramTarget h mode).2 h.SYS_TIMEOUT (Run.start s)
            = true →
          ∃ r, SYS_SetSSRAMPowerMode h d sel mode (Run.start s) = some (-1, r)
            ∧ LoadsAt (ssramTarget h mode).1 r.log ∧ r.log.length = h.SYS_TIMEOUT)
      ∧ (busyFor d (ssramTarget h mode).1 (ssramTarget h mode).2 h.SYS_TIMEOUT (Run.start s)
            = false →
          ∃ r v, SYS_SetSSRAMPowerMode h d sel mode (Run.start s) = some (0, r)
            ∧ r.stores = [Access.store (ssramTarget h mode).1 v])
      ∧ (busyFor d h.SRAMPC1 h.SYS_SRAMPC1_PCBUSY_Msk h.SYS_TIMEOUT (Run.start s) = true →
          ∃ r, SYS_SetPSRAMPowerMode h d sel mode (Run.start s) = some (-1, r)
            ∧ LoadsAt h.SRAMPC1 r.log ∧ r.log.length = h.SYS_TIMEOUT)
      ∧ (busyFor d h.SRAMPC1 h.SYS_SRAMPC1_PCBUSY_Msk h.SYS_TIMEOUT (Run.start s) = false →
          ∃ r v, SYS_SetPSRAMPowerMode h d sel mode (Run.start s) = some (0, r)
            ∧ r.stores = [Access.store h.SRAMPC1 v])
      ∧ ((target = h.SYS_PLCTL_MVRS_DCDC
            ∧ (rd d h.PLSTS (Run.start s)).1 &&& h.SYS_PLSTS_CURMVR_Msk
                = h.SYS_PLSTS_CURMVR_LDO
            ∧ newCtl = fun v => v ||| h.SYS_PLCTL_MVRS_Msk)
          ∨ (¬ (target = h.SYS_PLCTL_MVRS_DCDC
                ∧ (rd d h.PLSTS (Run.start s)).1 &&& h.SYS_PLSTS_CURMVR_Msk
                  = h.SYS_PLSTS_CURMVR_LDO)
            ∧ target = h.SYS_PLCTL_MVRS_LDO
            ∧ newCtl = fun v => v &&& not32 h.SYS_PLCTL_MVRS_Msk) →
        (busyFor d h.PLCTL h.SYS_PLCTL_WRBUSY_Msk (h.SYS_TIMEOUT + 1)
              (rd d h.PLSTS (Run.start s)).2 = true →
            ∃ r l, SYS_SetPowerRegulator h d target (Run.start s)
                = some (h.SYS_ERR_TIMEOUT, r)
              ∧ r.log = Access.load h.PLSTS (rd d h.PLSTS (Run.start s)).1 :: l
              ∧ LoadsAt h.PLCTL l ∧ l.length = h.SYS_TIMEOUT + 1)
          ∧ (busyFor d h.PLCTL h.SYS_PLCTL_WRBUSY_Msk (h.SYS_TIMEOUT + 1)
              (rd d h.PLSTS (Run.start s)).2 = false →
            (busyFor d h.PLSTS h.SYS_PLSTS_MVRCBUSY_Msk (h.SYS_TIMEOUT + 1)
                (afterCtlStore h d newCtl (rd d h.PLSTS (Run.start s)).2) = true →
              ∃ r l, SYS_SetPowerRegulator h d target (Run.start s)
                  = some (h.SYS_ERR_TIMEOUT, r)
                ∧ r.log = (afterCtlStore h d newCtl (rd d h.PLSTS (Run.start s)).2).log ++ l
                ∧ LoadsAt h.PLSTS l ∧ l.length = h.SYS_TIMEOUT + 1)
            ∧ (busyFor d h.PLSTS h.SYS_PLSTS_MVRCBUSY_Msk (h.SYS_TIMEOUT + 1)
                (afterCtlStore h d newCtl (rd d h.PLSTS (Run.start s)).2) = false →
              ∃ res r l, SYS_SetPowerRegulator h d target (Run.start s) = some (res, r)
                ∧ (res = 0 ∨ res = 1)
                ∧ r.log = (afterChangeBusyWait h d newCtl (rd d h.PLSTS (Run.start s)).2).log
                    ++ Access.load h.PLSTS (rd d h.PLSTS (afterChangeBusyWait h d newCtl
                        (rd d h.PLSTS (Run.start s)).2)).1 :: l
                ∧ AccessesAt h.PLSTS l))) := by
  have eU := pollsU32_eq h.SYS_TIMEOUT hN (by omega)
  have eI := pollsI32_castI32 h.SYS_TIMEOUT hN'
  obtain ⟨p0, hp0, _, _⟩ := scanSelPos_total sel 31 0 (by omega) (by omega)
  obtain ⟨p16, hp16, _, _⟩ := scanSelPos_total sel 31 16 (by omega) (by omega)
  have hsram : ∀ addr msk pos,
      (busyFor d addr msk h.SYS_TIMEOUT (Run.start s) = true →
        ∃ r, sramWrite h d addr msk sel mode pos (Run.start s) = some (-1, r)
          ∧ LoadsAt addr r.log ∧ r.log.length = h.SYS_TIMEOUT)
      ∧ (busyFor d addr msk h.SYS_TIMEOUT (Run.start s) = false →
        ∃ r v, sramWrite h d addr msk sel mode pos (Run.start s) = some (0, r)
          ∧ r.stores = [Access.store addr v]) := by
    intro addr msk pos
    constructor
    · intro hb
      obtain ⟨l, hl, hl', hlen⟩ := pollEnd_log_busy d addr msk h.SYS_TIMEOUT (Run.start s) hb
      refine ⟨pollEnd d addr msk h.SYS_TIMEOUT (Run.start s), ?_, ?_, ?_⟩
      · rw [sramWrite_eq, eU, if_pos hb]
      · rw [hl]; simpa [Run.start] using hl'
      · rw [hl]; simpa [Run.start] using hlen
    · intro hb
      refine ⟨wr d addr
          (((rd d addr (pollEnd d addr msk h.SYS_TIMEOUT (Run.start s))).1 &&& not32 sel)
            ||| shl32 mode pos)
          (rd d addr (pollEnd d addr msk h.SYS_TIMEOUT (Run.start s))).2,
        (((rd d addr (pollEnd d addr msk h.SYS_TIMEOUT (Run.start s))).1 &&& not32 sel)
            ||| shl32 mode pos) % 4294967296, ?_, ?_⟩
      · rw [sramWrite_eq, eU, if_neg (by rw [hb]; decide)]
      · rw [wr_stores, rd_stores, pollEnd_stores]; rfl
  refine ⟨?_, ?_, ?_, ?_, ?_, ?_, ?_, ?_, ?_⟩
  · intro addr msk r
    have := pollU32_budget d addr msk h.SYS_TIMEOUT r
    rw [eU] at this ⊢
    exact this
  · intro addr msk r
    have := pollI32_budget d addr msk (castI32 h.SYS_TIMEOUT) r
    rw [eI] at this ⊢
    exact this
  · intro hb
    obtain ⟨l, hl, hl', hlen⟩ := pollEnd_log_busy d h.PLCTL h.SYS_PLCTL_WRBUSY_Msk
      h.SYS_TIMEOUT (Run.start s) hb
    refine ⟨pollEnd d h.PLCTL h.SYS_PLCTL_WRBUSY_Msk h.SYS_TIMEOUT (Run.start s), ?_, ?_, ?_⟩
    · rw [SYS_SetPowerLevel_eq, eU, if_pos hb]
    · rw [hl]; simpa [Run.start] using hl'
    · rw [hl]; simpa [Run.start] using hlen
  · intro hb1
    constructor
    · intro hb2
      obtain ⟨l, hl, hl', hlen⟩ := pollEnd_log_busy d h.PLSTS h.SYS_PLSTS_PLCBUSY_Msk
        h.SYS_TIMEOUT _ hb2
      refine ⟨_, l, ?_, hl, hl', hlen⟩
      rw [SYS_SetPowerLevel_eq, eU, if_neg (by rw [hb1]; decide), if_pos hb2]
    · intro hb2
      refine ⟨_, by rw [SYS_SetPowerLevel_eq, eU, if_neg (by rw [hb1]; decide),
        if_neg (by rw [hb2]; decide)], ?_⟩
      rw [pollEnd_stores, wr_stores, rd_stores, pollEnd_stores]; rfl
  · rw [SYS_SetSSRAMPowerMode_eq h d sel mode p0 _ hp0]
    exact (hsram _ _ p0).1
  · rw [SYS_SetSSRAMPowerMode_eq h d sel mode p0 _ hp0]
    exact (hsram _ _ p0).2
  · rw [SYS_SetPSRAMPowerMode_eq h d sel mode p16 _ hp16]
    exact (hsram _ _ p16).1
  · rw [SYS_SetPSRAMPowerMode_eq h d sel mode p16 _ hp16]
    exact (hsram _ _ p16).2
  · intro hbranch
    have hatt : regulatorAttempt h d target (Run.start s)
        = regulatorBranch h d newCtl
            (if target = h.SYS_PLCTL_MVRS_DCDC
                ∧ (rd d h.PLSTS (Run.start s)).1 &&& h.SYS_PLSTS_CURMVR_Msk
                  = h.SYS_PLSTS_CURMVR_LDO
              then h.SYS_PLSTS_CURMVR_DCDC else h.SYS_PLSTS_CURMVR_LDO)
            (rd d h.PLSTS (Run.start s)).2 := by
      rcases hbranch with ⟨h1, h2, h3⟩ | ⟨h1, h2, h3⟩
      · subst h3
        simp only [regulatorAttempt, h1, h2, and_self, if_true]
      · subst h3
        subst h2
        simp only [regulatorAttempt, h1, if_false, if_true]
    have hA : afterWriteBusyWait h d (rd d h.PLSTS (Run.start s)).2
        = pollEnd d h.PLCTL h.SYS_PLCTL_WRBUSY_Msk (h.SYS_TIMEOUT + 1)
            (rd d h.PLSTS (Run.start s)).2 := by
      rw [afterWriteBusyWait, eI]
    have hC : afterChangeBusyWait h d newCtl (rd d h.PLSTS (Run.start s)).2
        = pollEnd d h.PLSTS h.SYS_PLSTS_MVRCBUSY_Msk (h.SYS_TIMEOUT + 1)
            (afterCtlStore h d newCtl (rd d h.PLSTS (Run.start s)).2) := by
      rw [afterChangeBusyWait, eI]
    constructor
    · intro hb
      obtain ⟨l, hl, hl', hlen⟩ := pollEnd_log_busy d h.PLCTL h.SYS_PLCTL_WRBUSY_Msk
        (h.SYS_TIMEOUT + 1) (rd d h.PLSTS (Run.start s)).2 hb
      refine ⟨afterWriteBusyWait h d (rd d h.PLSTS (Run.start s)).2, l, ?_, ?_, hl', hlen⟩
      · simp only [SYS_SetPowerRegulator, hatt, regulatorBranch_eq, eI, hb, if_true]
      · rw [hA, hl, rd_log]; rfl
    · intro hb1
      constructor
      · intro hb2
        obtain ⟨l, hl, hl', hlen⟩ := pollEnd_log_busy d h.PLSTS h.SYS_PLSTS_MVRCBUSY_Msk
          (h.SYS_TIMEOUT + 1) _ hb2
        refine ⟨afterChangeBusyWait h d newCtl (rd d h.PLSTS (Run.start s)).2, l, ?_, ?_,
          hl', hlen⟩
        · simp only [SYS_SetPowerRegulator, hatt, regulatorBranch_eq, eI, hb1, hb2,
            Bool.false_eq_true, if_false, if_true]
        · rw [hC, hl]
      · intro hb2
        obtain ⟨l, hl, hl', _⟩ := regulatorErrorCheck_log h d
          (if (rd d h.PLSTS (afterChangeBusyWait h d newCtl (rd d h.PLSTS (Run.start s)).2)).1
              &&& h.SYS_PLSTS_CURMVR_Msk
            = (if target = h.SYS_PLCTL_MVRS_DCDC
                ∧ (rd d h.PLSTS (Run.start s)).1 &&& h.SYS_PLSTS_CURMVR_Msk
                  = h.SYS_PLSTS_CURMVR_LDO
              then h.SYS_PLSTS_CURMVR_DCDC else h.SYS_PLSTS_CURMVR_LDO) then 1 else 0)
          (rd d h.PLSTS (afterChangeBusyWait h d newCtl (rd d h.PLSTS (Run.start s)).2)).2
        refine ⟨(regulatorErrorCheck h d
          (if (rd d h.PLSTS (afterChangeBusyWait h d newCtl (rd d h.PLSTS (Run.start s)).2)).1
              &&& h.SYS_PLSTS_CURMVR_Msk
            = (if target = h.SYS_PLCTL_MVRS_DCDC
                ∧ (rd d h.PLSTS (Run.start s)).1 &&& h.SYS_PLSTS_CURMVR_Msk
                  = h.SYS_PLSTS_CURMVR_LDO
              then h.SYS_PLSTS_CURMVR_DCDC else h.SYS_PLSTS_CURMVR_LDO) then 1 else 0)
          (rd d h.PLSTS (afterChangeBusyWait h d newCtl (rd d h.PLSTS (Run.start s)).2)).2).1, (regulatorErrorCheck h d
          (if (rd d h.PLSTS (afterChangeBusyWait h d newCtl (rd d h.PLSTS (Run.start s)).2)).1
              &&& h.SYS_PLSTS_CURMVR_Msk
            = (if target = h.SYS_PLCTL_MVRS_DCDC
                ∧ (rd d h.PLSTS (Run.start s)).1 &&& h.SYS_PLSTS_CURMVR_Msk
                  = h.SYS_PLSTS_CURMVR_LDO
              then h.SYS_PLSTS_CURMVR_DCDC else h.SYS_PLSTS_CURMVR_LDO) then 1 else 0)
          (rd d h.PLSTS (afterChangeBusyWait h d newCtl (rd d h.PLSTS (Run.start s)).2)).2).2, l, ?_, ?_, ?_, hl'⟩
        · simp only [SYS_SetPowerRegulator, hatt, regulatorBranch_eq, eI, hb1, hb2,
            Bool.false_eq_true, if_false]
        · apply regulatorErrorCheck_values
          split <;> split <;> simp
        · rw [hl, rd_log, List.append_assoc, List.singleton_append]

/-- With a budget of 3, `SYS_SetPowerLevel` and `SYS_SetSSRAMPowerMode` give up after 3
busy loads and `SYS_SetPowerRegulator` after 4, in the write-busy wait of its LDO branch and of its
DCDC branch and in the change-busy wait. -/
theorem wait_poll_counts_witness :
    1 ≤ sampleHeader.SYS_TIMEOUT ∧ sampleHeader.SYS_TIMEOUT < 2147483648
      ∧ (∃ r, SYS_SetPowerLevel sampleHeader (countdownBusy 0x400001F8) 0 (Run.start 3)
          = some (-1, r) ∧ r.log.length = 3)
      ∧ (∃ r, SYS_SetSSRAMPowerMode sampleHeader (countdownBusy 0x400000DC) 3 1 (Run.start 3)
          = some (-1, r) ∧ r.log.length = 3)
      ∧ (∃ r l, SYS_SetPowerRegulator sampleHeader (countdownBusy 0x400001F8)
            sampleHeader.SYS_PLCTL_MVRS_LDO (Run.start 4) = some (sampleHeader.SYS_ERR_TIMEOUT, r)
          ∧ r.log = Access.load sampleHeader.PLSTS 0 :: l ∧ l.length = 4)
      ∧ (∃ r l, SYS_SetPowerRegulator sampleHeader (countdownBusy 0x400001F8)
            sampleHeader.SYS_PLCTL_MVRS_DCDC (Run.start 4) = some (sampleHeader.SYS_ERR_TIMEOUT, r)
          ∧ r.log = Access.load sampleHeader.PLSTS 0 :: l ∧ l.length = 4)
      ∧ (∃ r l, SYS_SetPowerRegulator sampleHeader (countdownBusy 0x400001FC)
            sampleHeader.SYS_PLCTL_MVRS_LDO (Run.start 5) = some (sampleHeader.SYS_ERR_TIMEOUT, r)
          ∧ r.log = [Access.load 0x400001FC 4294967295, Access.load 0x400001F8 0,
              Access.load 0x400001F8 0, Access.store 0x400001F8 0] ++ l
          ∧ l.length = 4) := by
  obtain ⟨_, _, h3, _, _⟩ := wait_poll_counts sampleHeader (countdownBusy 0x400001F8) 0 3 1
    sampleHeader.SYS_PLCTL_MVRS_LDO 3 (fun v => v &&& not32 sampleHeader.SYS_PLCTL_MVRS_Msk)
    (by decide) (by decide)
  obtain ⟨_, _, _, _, h5, _⟩ := wait_poll_counts sampleHeader (countdownBusy 0x400000DC) 0 3 1
    sampleHeader.SYS_PLCTL_MVRS_LDO 3 (fun v => v &&& not32 sampleHeader.SYS_PLCTL_MVRS_Msk)
    (by decide) (by decide)
  obtain ⟨_, _, _, _, _, _, _, _, h9⟩ := wait_poll_counts sampleHeader
    (countdownBusy 0x400001F8) 0 3 1
    sampleHeader.SYS_PLCTL_MVRS_LDO 4 (fun v => v &&& not32 sampleHeader.SYS_PLCTL_MVRS_Msk)
    (by decide) (by decide)
  obtain ⟨_, _, _, _, _, _, _, _, h9'⟩ := wait_poll_counts sampleHeader
    (countdownBusy 0x400001FC) 0 3 1
    sampleHeader.SYS_PLCTL_MVRS_LDO 5 (fun v => v &&& not32 sampleHeader.SYS_PLCTL_MVRS_Msk)
    (by decide) (by decide)
  obtain ⟨_, _, _, _, _, _, _, _, hd⟩ := wait_poll_counts sampleHeader
    (countdownBusy 0x400001F8) 0 3 1
    sampleHeader.SYS_PLCTL_MVRS_DCDC 4 (fun v => v ||| sampleHeader.SYS_PLCTL_MVRS_Msk)
    (by decide) (by decide)
  obtain ⟨rd', ld, d1, d2, _, d4⟩ := (hd (Or.inl ⟨rfl, by decide, rfl⟩)).1 (by decide)
  obtain ⟨r, e1, _, e3⟩ := h3 (by decide)
  obtain ⟨r5, f1, _, f3⟩ := h5 (by decide)
  obtain ⟨r', l, e1', e2', _, e4'⟩ := (h9 (Or.inr ⟨by decide, rfl, rfl⟩)).1 (by decide)
  obtain ⟨r'', l', g1, g2, _, g4⟩ :=
    ((h9' (Or.inr ⟨by decide, rfl, rfl⟩)).2 (by decide)).1 (by decide)
  exact ⟨by decide, by decide, ⟨r, e1, e3⟩, ⟨r5, f1, f3⟩, ⟨r', l, e1', e2', e4'⟩, ⟨rd', ld, d1, d2, d4⟩,
    ⟨r'', l', g1, g2.trans (congrArg (fun x => x ++ l') (by decide)), g4⟩⟩

/-- Claim C20 as stated fails: with a budget of 3 and a write-busy bit that reads set
three times and then clear, `SYS_SetPowerLevel` times out on the third busy read while
`SYS_SetPowerRegulator` does not time out and returns 1. -/
theorem regulator_wait_polls_once_more :
    busyFor (countdownBusy 0x400001F8) sampleHeader.PLCTL sampleHeader.SYS_PLCTL_WRBUSY_Msk
        sampleHeader.SYS_TIMEOUT (Run.start 3) = true
      ∧ (SYS_SetPowerLevel sampleHeader (countdownBusy 0x400001F8) 0 (Run.start 3)).map Prod.fst
        = some (-1)
      ∧ (SYS_SetPowerRegulator sampleHeader (countdownBusy 0x400001F8)
          sampleHeader.SYS_PLCTL_MVRS_LDO (Run.start 3)).map Prod.fst = some 1 := by
  decide

end SysDrv
